import Mathlib

/-!
# Static.glTF.Viewer: asset classification, resolution and loading

A shallow embedding of `src/src/viewer.js` (`Viewer.isS3SignedUrl`, `Viewer.isZipFile`,
`Viewer.load`, `Viewer.loadZipFile`, `Viewer.loadS3SignedUrlWithFetch`, the URL modifiers
they install) and of `src/src/app.js` (`App.onS3UrlError`, `App.extractS3UrlFromPath`,
`App.isValidUrl`, `App.load`).

JavaScript strings are modelled by `String`, every string primitive being defined on the
underlying character list so that it evaluates inside the kernel.  The platform pieces the
program calls but does not define (the URL parser behind `new URL`, `fetch`, `JSZip`,
`GLTFLoader`) are inputs of the model.
-/

set_option autoImplicit false
set_option linter.unusedVariables false

namespace JS

/-! ## String primitives -/

/-- Model of `String.prototype.toLowerCase`, on the ASCII letters.  The program only compares the
lowered string with the ASCII suffixes `.zip` and `.gltf`; no non-ASCII character lowers to a
string ending in one of their letters, so the restriction does not change those tests. -/
def toLowerCase (s : String) : String := ⟨s.data.map Char.toLower⟩

/-- Model of `String.prototype.endsWith`. -/
def endsWith (s suffix : String) : Bool := suffix.data.isSuffixOf s.data

/-- Model of `String.prototype.startsWith`. -/
def startsWith (s pre : String) : Bool := pre.data.isPrefixOf s.data

/-- Substring search on character lists: does `pat` occur in the list? -/
def occursIn (pat : List Char) : List Char → Bool
  | [] => pat.isEmpty
  | c :: cs => pat.isPrefixOf (c :: cs) || occursIn pat cs

/-- Model of `String.prototype.includes`. -/
def includes (s pat : String) : Bool := occursIn pat.data s.data

/-! ## Errors, `decodeURI`, replacement, splitting and maps -/

/-- A thrown JavaScript error object: its `name` and its `message`. -/
structure JSError where
  name : String
  message : String
deriving Repr, DecidableEq

/-- Model of `new Error(message)`. -/
def newError (message : String) : JSError := ⟨"Error", message⟩

/-- The `URIError` thrown by `decodeURI` on a malformed escape sequence. -/
def uriError : JSError := ⟨"URIError", "URI malformed"⟩

/-- The `TypeError` thrown by a platform call on an argument it cannot use. -/
def typeError (message : String) : JSError := ⟨"TypeError", message⟩

/-- Value of one hexadecimal digit. -/
def hexValue (c : Char) : Option Nat :=
  let n := c.toNat
  if 48 ≤ n ∧ n ≤ 57 then some (n - 48)
  else if 97 ≤ n ∧ n ≤ 102 then some (n - 87)
  else if 65 ≤ n ∧ n ≤ 70 then some (n - 55)
  else none

/-- ECMAScript `ParseHexOctet`: the octet written by two hexadecimal digits. -/
def hexOctet (hi lo : Char) : Option Nat :=
  match hexValue hi, hexValue lo with
  | some h, some l => some (16 * h + l)
  | _, _ => none

/-- Reads `count` escapes `%XX` whose octets are UTF-8 continuation octets (`10xxxxxx`);
returns their six payload bits each and the characters that follow. -/
def continuationOctets : Nat → List Char → Option (List Nat × List Char)
  | 0, rest => some ([], rest)
  | n + 1, p :: hi :: lo :: rest =>
    if p = '%' then
      match hexOctet hi lo with
      | some b =>
        if b / 64 = 2 then
          match continuationOctets n rest with
          | some (bs, r) => some (b % 64 :: bs, r)
          | none => none
        else none
      | none => none
    else none
  | _ + 1, _ => none

/-- The code point of a multi-octet UTF-8 sequence with leading octet `b` and the given
continuation payloads, when the sequence is well formed (shortest form, no surrogate, at
most U+10FFFF). -/
def utf8CodePoint (b : Nat) (cont : List Nat) : Option Nat :=
  match cont with
  | [c1] =>
    let v := (b % 32) * 64 + c1
    if 128 ≤ v then some v else none
  | [c1, c2] =>
    let v := (b % 16) * 4096 + c1 * 64 + c2
    if 2048 ≤ v ∧ ¬ (55296 ≤ v ∧ v ≤ 57343) then some v else none
  | [c1, c2, c3] =>
    let v := (b % 8) * 262144 + c1 * 4096 + c2 * 64 + c3
    if 65536 ≤ v ∧ v ≤ 1114111 then some v else none
  | _ => none

/-- Number of octets of the UTF-8 sequence announced by a leading octet `b ≥ 128`
(its count of leading one bits), when that count is 2, 3 or 4. -/
def utf8Length (b : Nat) : Option Nat :=
  if 192 ≤ b ∧ b < 224 then some 2
  else if 224 ≤ b ∧ b < 240 then some 3
  else if 240 ≤ b ∧ b < 248 then some 4
  else none

/-- ECMAScript `Decode(string, preserveEscapeSet)`.  The first argument bounds the number
of iterations; every iteration consumes at least one character, so the length of the input
is enough. -/
def decodeLoop (preserve : List Char) : Nat → List Char → Except JSError (List Char)
  | _, [] => .ok []
  | 0, _ :: _ => .error uriError
  | fuel + 1, c :: rest =>
    if c ≠ '%' then
      match decodeLoop preserve fuel rest with
      | .ok out => .ok (c :: out)
      | .error e => .error e
    else
      match rest with
      | hi :: lo :: rest2 =>
        match hexOctet hi lo with
        | none => .error uriError
        | some b =>
          if b < 128 then
            let piece := if Char.ofNat b ∈ preserve then [c, hi, lo] else [Char.ofNat b]
            match decodeLoop preserve fuel rest2 with
            | .ok out => .ok (piece ++ out)
            | .error e => .error e
          else
            match utf8Length b with
            | none => .error uriError
            | some n =>
              match continuationOctets (n - 1) rest2 with
              | none => .error uriError
              | some (cont, rest3) =>
                match utf8CodePoint b cont with
                | none => .error uriError
                | some v =>
                  match decodeLoop preserve fuel rest3 with
                  | .ok out => .ok (Char.ofNat v :: out)
                  | .error e => .error e
      | _ => .error uriError

/-- The escapes `decodeURI` leaves alone: the reserved characters and `#`. -/
def uriReserved : List Char := ";/?:@&=+$,#".data

/-- The global function `decodeURI`; it throws `URIError` on a malformed escape. -/
def decodeURI (s : String) : Except JSError String :=
  match decodeLoop uriReserved s.data.length s.data with
  | .ok out => .ok ⟨out⟩
  | .error e => .error e

/-- Removes the first occurrence of `pat`, if there is one. -/
def removeFirst (pat : List Char) : List Char → List Char
  | [] => []
  | c :: cs =>
    if pat.isPrefixOf (c :: cs) then (c :: cs).drop pat.length
    else c :: removeFirst pat cs

/-- The call `s.replace(pat, '')` with a string pattern: only the first occurrence of `pat`
is replaced, wherever it stands. -/
def replaceWithEmpty (s pat : String) : String := ⟨removeFirst pat.data s.data⟩

/-- The call `s.replace(/^(\.?\/)/, '')`: removes a leading `./` or a leading `/`. -/
def stripLeadingSlash (s : String) : String :=
  if "./".data.isPrefixOf s.data then ⟨s.data.drop 2⟩
  else if "/".data.isPrefixOf s.data then ⟨s.data.drop 1⟩
  else s

/-- The characters after the last `sep` (the whole list when `sep` does not occur). -/
def lastSegment (sep : Char) : List Char → List Char
  | [] => []
  | c :: cs =>
    if sep ∈ cs then lastSegment sep cs
    else if c = sep then cs
    else c :: cs

/-- The expression `s.split('/').pop()`. -/
def splitSlashPop (s : String) : String := ⟨lastSegment '/' s.data⟩

/-- The expression `s.split('?')[0]`. -/
def splitQuestionFirst (s : String) : String := ⟨s.data.takeWhile (fun c => c != '?')⟩

/-- The expression `s.split('.').pop()`. -/
def splitDotPop (s : String) : String := ⟨lastSegment '.' s.data⟩

/-- A JavaScript `Map` with string keys, as the list of its entries. -/
abbrev JSMap (β : Type) := List (String × β)

/-- Model of `Map.prototype.get`. -/
def JSMap.get {β : Type} (m : JSMap β) (key : String) : Option β := List.lookup key m

/-- Model of `Map.prototype.has`. -/
def JSMap.has {β : Type} (m : JSMap β) (key : String) : Bool := (List.lookup key m).isSome

/-- Model of `Map.prototype.set`: an existing key keeps its place, a new key goes last. -/
def JSMap.set {β : Type} (m : JSMap β) (key : String) (value : β) : JSMap β :=
  if (List.lookup key m).isSome then m.map (fun kv => if kv.1 == key then (key, value) else kv)
  else m ++ [(key, value)]

end JS

/-! ## The URL classifier -/

/-- The fields of a parsed `URL` object that the program reads. -/
structure URLRecord where
  hostname : String
  pathname : String
  /-- The entries of `searchParams`, in order. -/
  searchParams : List (String × String)
deriving Repr, DecidableEq

/-- Model of `URLSearchParams.prototype.has(name)`. -/
def URLRecord.hasParam (u : URLRecord) (name : String) : Bool :=
  u.searchParams.any (fun kv => kv.1 == name)

/-- The platform URL parser: `new URL(s)` either yields a record or throws (`none`). -/
abbrev URLParser := String → Option URLRecord

namespace Viewer

/-- Model of `Viewer.isS3SignedUrl` (viewer.js 183-200). -/
def isS3SignedUrl (parseURL : URLParser) (url : String) : Bool :=
  match parseURL url with
  | some urlObj =>
    let isS3Host := JS.includes urlObj.hostname "s3.amazonaws.com" ||
      JS.includes urlObj.hostname "s3-" && JS.includes urlObj.hostname ".amazonaws.com"
    let hasSignature := urlObj.hasParam "Signature" ||
      urlObj.hasParam "X-Amz-Signature" ||
      urlObj.hasParam "AWSAccessKeyId" ||
      urlObj.hasParam "X-Amz-Credential"
    isS3Host && hasSignature
  | none => false

/-- Model of `Viewer.isZipFile` (viewer.js 207-215). -/
def isZipFile (parseURL : URLParser) (url : String) : Bool :=
  match parseURL url with
  | some urlObj =>
    let pathname := JS.toLowerCase urlObj.pathname
    JS.endsWith pathname ".zip"
  | none => false

/-- The three branches of `Viewer.load`. -/
inductive Strategy where
  | archive
  | signedUrl
  | default
deriving Repr, DecidableEq

/-- The branch selection of `Viewer.load` (viewer.js 219-239): the archive test comes first,
then the signed-URL test, otherwise the default strategy. -/
def strategy (parseURL : URLParser) (url : String) : Strategy :=
  let isZip := isZipFile parseURL url
  let isS3 := isS3SignedUrl parseURL url
  if isZip then Strategy.archive
  else if isS3 then Strategy.signedUrl
  else Strategy.default

end Viewer

/-! ## Specification-side predicates -/

/-- Two characters are the same letter up to ASCII case. -/
def SameLetter (a b : Char) : Prop := a.toLower = b.toLower

/-- The string `s` ends in `ext`, compared letter by letter ignoring case: `s` splits as
`stem ++ tail` where `tail` matches `ext` position by position up to case. -/
def EndsWithIgnoringCase (s ext : String) : Prop :=
  ∃ stem tail : List Char, s.data = stem ++ tail ∧ List.Forall₂ SameLetter tail ext.data

/-- The cloud-storage host pattern: the host name contains `s3.amazonaws.com`, or contains
both `s3-` and `.amazonaws.com`. -/
def MatchesStorageHost (hostname : String) : Prop :=
  "s3.amazonaws.com".data <:+: hostname.data ∨
    ("s3-".data <:+: hostname.data ∧ ".amazonaws.com".data <:+: hostname.data)

/-- At least one of the recognised signature parameters is a key of the query. -/
def HasSignatureParam (u : URLRecord) : Prop :=
  ∃ k ∈ ["Signature", "X-Amz-Signature", "AWSAccessKeyId", "X-Amz-Credential"],
    ∃ v, (k, v) ∈ u.searchParams

/-! ## Platform objects -/

/-- A `Blob`: its bytes and its MIME type. -/
structure Blob where
  bytes : List Nat
  type : String
deriving Repr, DecidableEq

/-- A `File`: a named blob. -/
structure File where
  name : String
  blob : Blob
deriving Repr, DecidableEq

/-- A `fetch` response.  Reading the body (`response.blob()`, `response.text()`) is taken to
succeed. -/
structure Response where
  status : Nat
  statusText : String
  /-- The value of `headers.get('content-type')`, `none` for `null`. -/
  contentType : Option String
  body : Blob
deriving Repr, DecidableEq

/-- Model of `Response.ok`: the status is in the range 200-299. -/
def Response.ok (r : Response) : Bool := decide (200 ≤ r.status) && decide (r.status ≤ 299)

/-- One member of `zip.files`: its in-archive path, its `dir` flag and what
`zipFile.async('blob')` settles with. -/
structure ZipEntry where
  name : String
  dir : Bool
  content : Except JS.JSError Blob

/-- A scene object of the loader, by an identifier. -/
abbrev Scene := Nat

/-- The result object of `GLTFLoader`. -/
structure GLTF where
  scene : Option Scene
  scenes : List Scene
  animations : Option (List Nat)
deriving Repr, DecidableEq

/-- A value received by an error callback or a `catch` handler. -/
inductive ErrorValue where
  | null
  | undefined
  /-- An `Error` object. -/
  | error (e : JS.JSError)
  /-- An object without `message`, such as a DOM event: `toString()` gives
  `[object tag]`; `imageSrc` is the `src` of its `target` when that target is an `Image`. -/
  | event (tag : String) (imageSrc : Option String)
deriving Repr, DecidableEq

/-- What `GLTFLoader.load` does with one document: the references it passes to
`MANAGER.resolveURL` while loading, in order, and the value it finishes with. -/
structure ParseRun where
  requests : List String
  result : Except ErrorValue GLTF

/-- The collaborators of the loading pipeline. -/
structure Platform where
  /-- The call `new URL(s)`. -/
  parseURL : URLParser
  /-- The call `new URL(ref, base).toString()`, `none` when the constructor throws. -/
  resolveAgainst : String → String → Option String
  /-- What `fetch(url, ...)` settles with. -/
  fetch : String → Except JS.JSError Response
  /-- What `JSZip.loadAsync(blob)` settles with: the members in `Object.keys(zip.files)`
  order. -/
  loadAsync : Blob → Except JS.JSError (List ZipEntry)
  /-- What `GLTFLoader.load(url, ...)` does. -/
  gltfLoad : String → ParseRun

/-- Model of `LoaderUtils.extractUrlBase` of three.js: the URL up to and including its last `/`,
or `./` when it has none. -/
def extractUrlBase (url : String) : String :=
  if '/' ∈ url.data then
    ⟨url.data.take (url.data.length - (JS.lastSegment '/' url.data).length)⟩
  else "./"

/-! ## The resolvers (URL modifiers) -/

/-- The closures passed to `MANAGER.setURLModifier`, with the variables they capture. -/
inductive Resolver where
  /-- The modifier of `Viewer.load` (viewer.js 244-262). -/
  | default (rootPath baseURL : String) (assetMap : JS.JSMap File)
  /-- The modifier of `Viewer.loadS3SignedUrl` and `loadS3SignedUrlWithFetch`
  (viewer.js 322-331, 635-644). -/
  | signedUrl (baseURL : String)
  /-- The modifier of `Viewer.loadZipFile` (viewer.js 469-501). -/
  | archive (extractedFiles : JS.JSMap File)
deriving Repr, DecidableEq

/-- Observable steps of a load. -/
inductive Event where
  | fetch (url : String)
  /-- The call `JSZip.loadAsync(blob)`. -/
  | loadAsync
  /-- The call `zipFile.async('blob')` on the member of that name. -/
  | extract (name : String)
  | createObjectURL (url : String)
  | revokeObjectURL (url : String)
  | setURLModifier (r : Resolver)
  /-- The call `loader.load(url, ...)`. -/
  | parse (url : String)
  | setContent (scene : Scene)
deriving Repr, DecidableEq

/-- The state shared by loads: the object URLs in existence, the single URL-modifier slot of
`MANAGER`, and the steps taken so far. -/
structure World where
  nextObjectURL : Nat
  objectURLs : List (String × Blob)
  urlModifier : Option Resolver
  log : List Event
deriving Repr, DecidableEq

/-- A world in which nothing has happened yet. -/
def World.init : World := ⟨0, [], none, []⟩

/-- Records a step. -/
def World.emit (w : World) (e : Event) : World := { w with log := w.log ++ [e] }

/-- Model of `URL.createObjectURL(blob)`: a URL not handed out before. -/
def World.createObjectURL (w : World) (b : Blob) : String × World :=
  let url := "blob:" ++ toString w.nextObjectURL
  (url, { w with
    nextObjectURL := w.nextObjectURL + 1
    objectURLs := w.objectURLs ++ [(url, b)]
    log := w.log ++ [Event.createObjectURL url] })

/-- Model of `URL.revokeObjectURL(url)`. -/
def World.revokeObjectURL (w : World) (url : String) : World :=
  { w with
    objectURLs := w.objectURLs.filter (fun p => p.1 != url)
    log := w.log ++ [Event.revokeObjectURL url] }

/-- Model of `MANAGER.setURLModifier(r)`. -/
def World.setURLModifier (w : World) (r : Resolver) : World :=
  { w with urlModifier := some r, log := w.log ++ [Event.setURLModifier r] }

/-- The statement `blobURLs.forEach(URL.revokeObjectURL)`. -/
def World.revokeAll (w : World) (blobURLs : List String) : World :=
  blobURLs.foldl World.revokeObjectURL w

namespace Viewer

/-- The key computed by the modifier of `Viewer.load` (viewer.js 248-252):
`rootPath + decodeURI(url).replace(baseURL, '').replace(/^(\.?\/)/, '')`. -/
def normalizedURL (rootPath baseURL url : String) : Except JS.JSError String :=
  match JS.decodeURI url with
  | .ok decoded =>
    .ok (rootPath ++ JS.stripLeadingSlash (JS.replaceWithEmpty decoded baseURL))
  | .error e => .error e

/-- The bare file name computed by the modifier of `Viewer.loadZipFile` (viewer.js 476):
`decodedUrl.split('/').pop().split('?')[0]`. -/
def bareFileName (decodedUrl : String) : String :=
  JS.splitQuestionFirst (JS.splitSlashPop decodedUrl)

/-- One call `modifier(url, path)` of an installed URL modifier.  `blobURLs` is the
array of the load that installed it; the result is the returned URL, or the thrown error. -/
def applyResolver (env : Platform) (r : Resolver) (url : String) (path : Option String)
    (w : World) (blobURLs : List String) : Except JS.JSError String × World × List String :=
  match r with
  | .default rootPath baseURL assetMap =>
    match normalizedURL rootPath baseURL url with
    | .error e => (.error e, w, blobURLs)
    | .ok key =>
      match JS.JSMap.get assetMap key with
      | some file =>
        let (blobURL, w1) := w.createObjectURL file.blob
        (.ok blobURL, w1, blobURLs ++ [blobURL])
      | none => (.ok (path.getD "" ++ url), w, blobURLs)
  | .signedUrl baseURL =>
    if JS.startsWith url "./" || JS.startsWith url "../" || !JS.includes url "://" then
      match env.resolveAgainst url baseURL with
      | some fullAssetUrl => (.ok fullAssetUrl, w, blobURLs)
      | none => (.error (JS.typeError "Invalid URL"), w, blobURLs)
    else (.ok url, w, blobURLs)
  | .archive extractedFiles =>
    match JS.decodeURI url with
    | .error e => (.error e, w, blobURLs)
    | .ok decodedUrl =>
      let fileName := bareFileName decodedUrl
      match JS.JSMap.get extractedFiles fileName with
      | some file =>
        let (blobURL, w1) := w.createObjectURL file.blob
        (.ok blobURL, w1, blobURLs ++ [blobURL])
      | none =>
        match JS.JSMap.get extractedFiles decodedUrl with
        | some file =>
          let (blobURL, w1) := w.createObjectURL file.blob
          (.ok blobURL, w1, blobURLs ++ [blobURL])
        | none => (.ok url, w, blobURLs)

end Viewer

/-! ## The loading strategies -/

/-- How the promise returned by a load ends. -/
inductive Settlement where
  | resolved (gltf : GLTF)
  | rejected (error : ErrorValue)
  /-- Neither `resolve` nor `reject` is ever called. -/
  | pending
deriving Repr, DecidableEq

namespace Viewer

/-- The error thrown for a response that is not `ok` (viewer.js 407-415 and 605-613). -/
def statusError (response : Response) : JS.JSError :=
  if response.status = 403 then
    JS.newError ("CORS_403: Access denied. The S3 bucket may not have CORS configured for your domain. Status: "
      ++ toString response.status ++ " " ++ response.statusText)
  else if response.status = 404 then
    JS.newError ("CORS_404: File not found. Status: "
      ++ toString response.status ++ " " ++ response.statusText)
  else
    JS.newError ("HTTP " ++ toString response.status ++ ": " ++ response.statusText)

/-- The handler of the final `.catch` of a fetch chain (viewer.js 545-558 and 683-696):
the value the load is rejected with. -/
def catchHandler (corsMessage : String) (error : JS.JSError) : ErrorValue :=
  if error.name == "TypeError" && JS.includes error.message "Failed to fetch" then
    ErrorValue.error (JS.newError corsMessage)
  else ErrorValue.error error

/-- The expression `gltf.scene || gltf.scenes[0]`. -/
def pickScene (gltf : GLTF) : Option Scene :=
  match gltf.scene with
  | some s => some s
  | none => gltf.scenes.head?

/-- The error thrown by a success callback for a document without a scene. -/
def noSceneError : JS.JSError :=
  JS.newError ("This model contains no scene, and cannot be viewed here. However,"
    ++ " it may contain individual 3D resources.")

/-- Model of `Viewer.getMimeType` (viewer.js 567-581), on the extensions of its table. -/
def getMimeType (fileName : String) : String :=
  let ext := JS.splitDotPop (JS.toLowerCase fileName)
  match List.lookup ext
    [("gltf", "model/gltf+json"), ("glb", "model/gltf-binary"),
     ("bin", "application/octet-stream"), ("jpg", "image/jpeg"), ("jpeg", "image/jpeg"),
     ("png", "image/png"), ("webp", "image/webp"), ("ktx2", "image/ktx2"),
     ("draco", "application/octet-stream")] with
  | some t => t
  | none => "application/octet-stream"

/-- The loader passes each reference of the document through the installed URL modifier;
a modifier that throws ends the pass. -/
def resolveRequests (env : Platform) :
    List String → World → List String → Except JS.JSError Unit × World × List String
  | [], w, blobURLs => (.ok (), w, blobURLs)
  | ref :: refs, w, blobURLs =>
    match w.urlModifier with
    | none => resolveRequests env refs w blobURLs
    | some r =>
      match applyResolver env r ref none w blobURLs with
      | (.ok _, w1, blobURLs1) => resolveRequests env refs w1 blobURLs1
      | (.error e, w1, blobURLs1) => (.error e, w1, blobURLs1)

/-- The call `loader.load(url, onLoad, onProgress, onError)` of `GLTFLoader`: the references
of the document go through the URL modifier, then `onLoad` receives the result or `onError`
the failure.  An exception thrown by `onLoad` is caught by the loader and handed to
`onError`; the success callbacks of this program throw before any other effect. -/
def gltfLoaderLoad (env : Platform) (url : String)
    (onLoad : GLTF → World → List String → Except JS.JSError (Settlement × World))
    (onError : ErrorValue → World → List String → Settlement × World)
    (w : World) (blobURLs : List String) : Settlement × World :=
  let w0 := w.emit (Event.parse url)
  match resolveRequests env (env.gltfLoad url).requests w0 blobURLs with
  | (.error e, w1, blobURLs1) => onError (ErrorValue.error e) w1 blobURLs1
  | (.ok _, w1, blobURLs1) =>
    match (env.gltfLoad url).result with
    | .error e => onError e w1 blobURLs1
    | .ok gltf =>
      match onLoad gltf w1 blobURLs1 with
      | .ok r => r
      | .error e => onError (ErrorValue.error e) w1 blobURLs1

/-- The names selected as primary documents (viewer.js 429-431). -/
def gltfFiles (zip : List ZipEntry) : List String :=
  (zip.filter (fun e => JS.endsWith (JS.toLowerCase e.name) ".gltf" && !e.dir)).map
    (fun e => e.name)

/-- The calls `zipFile.async('blob')` issued by the `map` over the members
(viewer.js 445-449): one per member that is not a directory. -/
def startExtraction (zip : List ZipEntry) (w : World) : World :=
  (zip.filter (fun e => !e.dir)).foldl (fun w e => w.emit (Event.extract e.name)) w

/-- The `then` callbacks of the extractions that succeed (viewer.js 449-459), in member
order: the file is stored under the member name and an object URL is created for it. -/
def storeExtracted :
    List ZipEntry → World → JS.JSMap File → List String → World × JS.JSMap File × List String
  | [], w, extractedFiles, blobURLs => (w, extractedFiles, blobURLs)
  | e :: es, w, extractedFiles, blobURLs =>
    if e.dir then storeExtracted es w extractedFiles blobURLs
    else
      match e.content with
      | .ok blob =>
        let file : File := ⟨e.name, ⟨blob.bytes, getMimeType e.name⟩⟩
        let (blobURL, w1) := w.createObjectURL blob
        storeExtracted es w1 (JS.JSMap.set extractedFiles e.name file) (blobURLs ++ [blobURL])
      | .error _ => storeExtracted es w extractedFiles blobURLs

/-- The rejection of `Promise.all(filePromises)`, if an extraction fails. -/
def extractionFailure : List ZipEntry → Option JS.JSError
  | [] => none
  | e :: es =>
    if e.dir then extractionFailure es
    else
      match e.content with
      | .ok _ => extractionFailure es
      | .error err => some err

/-- The callback `.then(zip => ...)` of `Viewer.loadZipFile` up to the call of the loader
(viewer.js 425-501): the primary document is selected, the members are extracted, an object
URL is created for the file stored under the name of the primary document
(`extractedFiles.get(mainGltfFile)`, viewer.js 462-466) and the archive resolver is
installed.  The result is that object URL with the array `blobURLs` and the world in which
the loader is called, or the error that goes to `.catch`. -/
def prepareArchive (zip : List ZipEntry) (w : World) :
    Except JS.JSError (String × List String) × World :=
  match gltfFiles zip with
  | [] => (.error (JS.newError "No GLTF file found in the ZIP archive"), w)
  | mainGltfFile :: _ =>
    let w1 := startExtraction zip w
    let (w2, extractedFiles, blobURLs) := storeExtracted zip w1 [] []
    match extractionFailure zip with
    | some err => (.error err, w2)
    | none =>
      match JS.JSMap.get extractedFiles mainGltfFile with
      | none => (.error (JS.typeError "Failed to execute createObjectURL"), w2)
      | some mainGltfBlob =>
        let (mainGltfBlobURL, w3) := w2.createObjectURL mainGltfBlob.blob
        let w4 := w3.setURLModifier (Resolver.archive extractedFiles)
        (.ok (mainGltfBlobURL, blobURLs ++ [mainGltfBlobURL]), w4)

/-- The callback `.then(zip => ...)` of `Viewer.loadZipFile` (viewer.js 425-544): after
`prepareArchive`, the loader is called on the object URL of the primary document
(viewer.js 506-543).  The result is the settlement reached through the loader callbacks, or
the error that goes to `.catch`. -/
def loadZipEntries (env : Platform) (zip : List ZipEntry) (w : World) :
    Except JS.JSError Settlement × World :=
  match prepareArchive zip w with
  | (.error error, w2) => (.error error, w2)
  | (.ok (mainGltfBlobURL, blobURLs), w4) =>
    let (s, w5) := gltfLoaderLoad env mainGltfBlobURL
      (fun gltf w blobURLs =>
        match pickScene gltf with
        | none => .error noSceneError
        | some scene =>
          .ok (Settlement.resolved gltf,
            (w.emit (Event.setContent scene)).revokeAll blobURLs))
      (fun error w blobURLs => (Settlement.rejected error, w.revokeAll blobURLs))
      w4 blobURLs
    (.ok s, w5)

/-- Model of `Viewer.loadZipFile` (viewer.js 389-560). -/
def loadZipFile (env : Platform) (url rootPath : String) (assetMap : JS.JSMap File)
    (w : World) : Settlement × World :=
  let w0 := w.emit (Event.fetch url)
  let chain : Except JS.JSError Settlement × World :=
    match env.fetch url with
    | .error e => (.error e, w0)
    | .ok response =>
      if !response.ok then (.error (statusError response), w0)
      else
        let w1 := w0.emit Event.loadAsync
        match env.loadAsync response.body with
        | .error e => (.error e, w1)
        | .ok zip => loadZipEntries env zip w1
  match chain with
  | (.ok s, w2) => (s, w2)
  | (.error error, w2) =>
    (Settlement.rejected (catchHandler
      "CORS_ERROR: Failed to fetch the ZIP file. This is likely a CORS issue. The S3 bucket needs to be configured to allow requests from your domain."
      error), w2)

/-- Model of `Viewer.loadS3SignedUrlWithFetch` (viewer.js 586-698). -/
def loadS3SignedUrlWithFetch (env : Platform) (url rootPath : String)
    (assetMap : JS.JSMap File) (w : World) : Settlement × World :=
  let w0 := w.emit (Event.fetch url)
  let chain : Except JS.JSError Settlement × World :=
    match env.fetch url with
    | .error e => (.error e, w0)
    | .ok response =>
      if !response.ok then (.error (statusError response), w0)
      else if (match response.contentType with
          | some contentType => JS.includes contentType "text/html"
          | none => false) then
        (.error (JS.newError
          "HTML_RESPONSE: Received HTML page instead of GLB file. The signed URL may be invalid or expired."),
          w0)
      else
        let (blobURL, w1) := w0.createObjectURL response.body
        let baseURL := extractUrlBase url
        let w2 := w1.setURLModifier (Resolver.signedUrl baseURL)
        let (s, w3) := gltfLoaderLoad env blobURL
          (fun gltf w _ =>
            match pickScene gltf with
            | none => .error noSceneError
            | some scene =>
              .ok (Settlement.resolved gltf,
                (w.emit (Event.setContent scene)).revokeObjectURL blobURL))
          (fun error w _ => (Settlement.rejected error, w.revokeObjectURL blobURL))
          w2 []
        (.ok s, w3)
  match chain with
  | (.ok s, w4) => (s, w4)
  | (.error error, w4) =>
    (Settlement.rejected (catchHandler
      "CORS_ERROR: Failed to fetch the file. This is likely a CORS issue. The S3 bucket needs to be configured to allow requests from your domain."
      error), w4)

/-- Model of `Viewer.loadS3SignedUrl` (viewer.js 310-380). -/
def loadS3SignedUrl (env : Platform) (url rootPath : String) (assetMap : JS.JSMap File)
    (w : World) : Settlement × World :=
  let baseURL := extractUrlBase url
  let w0 := w.setURLModifier (Resolver.signedUrl baseURL)
  gltfLoaderLoad env url
    (fun gltf w _ =>
      match pickScene gltf with
      | none => .error noSceneError
      | some scene => .ok (Settlement.resolved gltf, w.emit (Event.setContent scene)))
    (fun _ w _ => loadS3SignedUrlWithFetch env url rootPath assetMap w)
    w0 []

/-- Model of `Viewer.load` (viewer.js 217-301). -/
def load (env : Platform) (url rootPath : String) (assetMap : JS.JSMap File)
    (w : World) : Settlement × World :=
  let baseURL := extractUrlBase url
  let isZip := isZipFile env.parseURL url
  let isS3 := isS3SignedUrl env.parseURL url
  if isZip then loadZipFile env url rootPath assetMap w
  else if isS3 then loadS3SignedUrl env url rootPath assetMap w
  else
    let w0 := w.setURLModifier (Resolver.default rootPath baseURL assetMap)
    gltfLoaderLoad env url
      (fun gltf w blobURLs =>
        match pickScene gltf with
        | none => .error noSceneError
        | some scene =>
          .ok (Settlement.resolved gltf,
            (w.emit (Event.setContent scene)).revokeAll blobURLs))
      (fun error w _ => (Settlement.rejected error, w))
      w0 []

end Viewer

/-! ## The error messages of the application -/

namespace App

/-- The expression `(error || {}).message || error.toString()` (app.js 250); it throws
when `error` is `null` or `undefined`. -/
def rawMessage (error : ErrorValue) : Except JS.JSError String :=
  match error with
  | .null => .error (JS.typeError "Cannot read properties of null")
  | .undefined => .error (JS.typeError "Cannot read properties of undefined")
  | .error e => if e.message = "" then .ok e.name else .ok e.message
  | .event tag _ => .ok ("[object " ++ tag ++ "]")

/-- The label chosen by `url.toLowerCase().endsWith('.zip')` (app.js 253-254 and the like). -/
def fileType (url other : String) : String :=
  if JS.endsWith (JS.toLowerCase url) ".zip" then "ZIP file" else other

/-- Model of `App.onS3UrlError` (app.js 249-323): the text passed to `window.alert`. -/
def onS3UrlError (error : ErrorValue) (url : String) : Except JS.JSError String :=
  match rawMessage error with
  | .error e => .error e
  | .ok message =>
    if JS.includes message "CORS_ERROR" || JS.includes message "Failed to fetch" then
      .ok ("CORS Error: Unable to load the " ++ fileType url "glTF file" ++ " from the S3 URL.\n\n"
        ++ "This is a CORS (Cross-Origin Resource Sharing) issue. The S3 bucket needs to be configured to allow requests from your domain.\n\n"
        ++ "To fix this, add the following CORS configuration to your S3 bucket:\n\n"
        ++ "\x7b\n"
        ++ "  \"CORSRules\": [\n"
        ++ "    \x7b\n"
        ++ "      \"AllowedHeaders\": [\"*\"],\n"
        ++ "      \"AllowedMethods\": [\"GET\", \"HEAD\"],\n"
        ++ "      \"AllowedOrigins\": [\"*\"],\n"
        ++ "      \"ExposeHeaders\": [\"ETag\", \"Content-Length\", \"Content-Type\"],\n"
        ++ "      \"MaxAgeSeconds\": 3000\n"
        ++ "    \x7d\n"
        ++ "  ]\n"
        ++ "\x7d\n\n"
        ++ "Note: For signed URLs, make sure your CORS policy allows the specific headers that AWS uses in the signature.")
    else if JS.includes message "CORS_403" then
      .ok ("Access Denied (403): The S3 bucket is blocking requests from your domain.\n\n"
        ++ "This is a CORS configuration issue. The bucket owner needs to add your domain to the CORS allowed origins.")
    else if JS.includes message "CORS_404" then
      .ok ("File Not Found (404): The " ++ fileType url "glTF file" ++ " was not found at the provided URL.\n\n"
        ++ "The file may have been moved, deleted, or the URL may be incorrect.")
    else if JS.includes message "No GLTF file found in the ZIP archive" then
      .ok ("ZIP Archive Error: No GLTF file found in the ZIP archive.\n\n"
        ++ "The ZIP file must contain at least one .gltf file to be viewable. Please check that your ZIP file contains:\n"
        ++ "• A .gltf file (required)\n"
        ++ "• Associated .bin files (if referenced by the GLTF)\n"
        ++ "• Texture files (.jpg, .png, .webp) if referenced by the GLTF")
    else if JS.includes message "ProgressEvent" || JS.includes message "Failed to fetch" then
      .ok ("Unable to load the " ++ fileType url "glTF file" ++ " from the provided URL. This could be due to:\n"
        ++ "• The URL has expired (S3 signed URLs have time limits)\n"
        ++ "• Network connectivity issues\n"
        ++ "• CORS restrictions\n"
        ++ "• The file is not accessible\n\n"
        ++ "Please check the URL and try again.")
    else if JS.includes message "HTML_RESPONSE" then
      .ok ("Invalid Response: The server returned an HTML page instead of the " ++ fileType url "GLB file" ++ ".\n\n"
        ++ "This usually means:\n"
        ++ "• The signed URL has expired\n"
        ++ "• The signed URL is malformed\n"
        ++ "• The file was moved or deleted\n"
        ++ "• There\x27s a server configuration issue\n\n"
        ++ "Please generate a new signed URL and try again.")
    else if JS.includes message "Unexpected token" then
      .ok ("The file at the provided URL is not a valid glTF file. Error: \"" ++ message ++ "\"")
    else
      match error with
      | .event _ (some src) => .ok ("Missing texture: " ++ JS.splitSlashPop src)
      | _ =>
        if JS.includes message "404" then
          .ok ("The " ++ fileType url "glTF file" ++ " was not found at the provided URL. The file may have been moved or deleted.")
        else if JS.includes message "403" then
          .ok ("Access denied to the " ++ fileType url "glTF file" ++ ". The URL may have expired or you may not have permission to access this file.")
        else .ok message

end App

/-! ## Concrete inputs -/

namespace Sample

/-- A URL parser that knows one string and the record the platform parser gives for it. -/
def parserAt (s : String) (u : URLRecord) : URLParser := fun t => if t = s then some u else none

/-- A platform around a given URL parser, whose network is down, whose archives are empty
and whose loader fails. -/
def platform (parse : URLParser) : Platform where
  parseURL := parse
  resolveAgainst := fun _ _ => none
  fetch := fun _ => .error (JS.typeError "Failed to fetch")
  loadAsync := fun _ => .ok []
  gltfLoad := fun _ => ⟨[], .error ErrorValue.null⟩

/-- A signed cloud-storage URL of an archive, extension in upper case. -/
def signedZipUrl : String :=
  "https://bucket.s3.amazonaws.com/scenes/model.ZIP?X-Amz-Signature=abc&X-Amz-Credential=k"

/-- The record of `signedZipUrl`. -/
def signedZipRecord : URLRecord :=
  ⟨"bucket.s3.amazonaws.com", "/scenes/model.ZIP",
    [("X-Amz-Signature", "abc"), ("X-Amz-Credential", "k")]⟩

/-- A platform without network and without URL parser. -/
def offline : Platform := platform (fun _ => none)

/-- A texture stored at the archive root, and in a dropped file set. -/
def rootTexture : File := ⟨"a.png", ⟨[137, 80, 78, 71, 1], "image/png"⟩⟩

/-- A texture stored under the directory `textures/`. -/
def texture : File := ⟨"textures/a.png", ⟨[137, 80, 78, 71, 2], "image/png"⟩⟩

/-- The base URL of a document opened from an object URL. -/
def blobBase : String := "blob:http://localhost:3000/"

/-- A platform whose `fetch` answers every URL with the given response and whose archive
reader finds the given members. -/
def serving (response : Response) (zip : List ZipEntry) : Platform where
  parseURL := fun _ => none
  resolveAgainst := fun _ _ => none
  fetch := fun _ => .ok response
  loadAsync := fun _ => .ok zip
  gltfLoad := fun _ => ⟨[], .error ErrorValue.null⟩

/-- A successful response carrying an archive. -/
def okResponse : Response := ⟨200, "OK", some "application/zip", ⟨[80, 75, 3, 4], "application/zip"⟩⟩

/-- A response with a server error status. -/
def serverError : Response := ⟨500, "Internal Server Error", some "application/xml", ⟨[], ""⟩⟩

/-- An archive with a directory, a texture and a binary model, and no `.gltf` document. -/
def zipWithoutGltf : List ZipEntry :=
  [⟨"textures/", true, .ok ⟨[], ""⟩⟩,
   ⟨"textures/a.png", false, .ok ⟨[137, 80, 78, 71, 2], ""⟩⟩,
   ⟨"model.glb", false, .ok ⟨[103, 108, 84, 70], ""⟩⟩]

end Sample

/-! ## The resolver as the specification words it -/

namespace Spec

/-- Removal of `pre` where it is a prefix of `s`, and nowhere else. -/
def dropPrefix (s pre : String) : String :=
  if pre.data.isPrefixOf s.data then ⟨s.data.drop pre.data.length⟩ else s

/-- The lookup key in the words of the specification: the decoded reference with the base
URL removed when it is a prefix and a leading `./` removed, after the root path. -/
def claimedKey (rootPath baseURL decoded : String) : String :=
  rootPath ++ dropPrefix (dropPrefix decoded baseURL) "./"

/-- The lookup key with one change to those words: a leading `./` or, failing that, a
leading `/` is removed. -/
def amendedKey (rootPath baseURL decoded : String) : String :=
  let rest := dropPrefix decoded baseURL
  rootPath ++ (if "./".data.isPrefixOf rest.data then dropPrefix rest "./" else dropPrefix rest "/")

end Spec

/-! ## The default strategy by name, and further concrete inputs -/

namespace Viewer

/-- The default strategy: the promise built at the end of `Viewer.load`
(viewer.js 242-300). -/
def loadDefault (env : Platform) (url rootPath : String) (assetMap : JS.JSMap File)
    (w : World) : Settlement × World :=
  let baseURL := extractUrlBase url
  let w0 := w.setURLModifier (Resolver.default rootPath baseURL assetMap)
  gltfLoaderLoad env url
    (fun gltf w blobURLs =>
      match pickScene gltf with
      | none => .error noSceneError
      | some scene =>
        .ok (Settlement.resolved gltf,
          (w.emit (Event.setContent scene)).revokeAll blobURLs))
    (fun error w _ => (Settlement.rejected error, w))
    w0 []

end Viewer

namespace Sample

/-- The URL of an archive on a host that is not a storage host, without query. -/
def plainZipUrl : String := "https://example.org/models/scene.zip"

/-- The record of `plainZipUrl`. -/
def plainZipRecord : URLRecord := ⟨"example.org", "/models/scene.zip", []⟩

/-- The URL of a binary model on a host that is not a storage host, without query. -/
def plainGlbUrl : String := "https://example.org/models/scene.glb"

/-- The record of `plainGlbUrl`. -/
def plainGlbRecord : URLRecord := ⟨"example.org", "/models/scene.glb", []⟩

/-- A URL on a storage host that carries no signature parameter. -/
def unsignedStorageUrl : String := "https://bucket.s3.amazonaws.com/models/scene.glb"

/-- The record of `unsignedStorageUrl`. -/
def unsignedStorageRecord : URLRecord := ⟨"bucket.s3.amazonaws.com", "/models/scene.glb", []⟩

/-- A URL with a signature parameter on a host that is not a storage host. -/
def signedElsewhereUrl : String := "https://example.org/models/scene.glb?Signature=abc"

/-- The record of `signedElsewhereUrl`. -/
def signedElsewhereRecord : URLRecord :=
  ⟨"example.org", "/models/scene.glb", [("Signature", "abc")]⟩

/-- A response with status 403 and the given status text. -/
def forbidden (statusText : String) : Response :=
  ⟨403, statusText, some "application/xml", ⟨[], ""⟩⟩

/-- A successful response that declares an HTML page. -/
def htmlPage : Response :=
  ⟨200, "OK", some "text/html; charset=utf-8", ⟨[60, 104, 116, 109, 108, 62], "text/html"⟩⟩

/-- A platform whose `fetch` rejects with the given error. -/
def failing (error : JS.JSError) : Platform where
  parseURL := fun _ => none
  resolveAgainst := fun _ _ => none
  fetch := fun _ => .error error
  loadAsync := fun _ => .ok []
  gltfLoad := fun _ => ⟨[], .error ErrorValue.null⟩

end Sample

/-! ## Continuations of a pending fetch, and readings of the event log -/

/-- The same world with another resolver in the URL-modifier slot. -/
def World.withModifier (w : World) (m : Option Resolver) : World := { w with urlModifier := m }

/-- Events that neither install a URL modifier nor call the loader. -/
def Event.quiet : Event → Bool
  | Event.setURLModifier _ => false
  | Event.parse _ => false
  | _ => true

/-- The loader calls among the events, each with the URL modifier in force at the call: the
last one installed among these events, or `current` when none was installed yet. -/
def loaderCalls : Option Resolver → List Event → List (String × Option Resolver)
  | _, [] => []
  | _, Event.setURLModifier r :: es => loaderCalls (some r) es
  | current, Event.parse url :: es => (url, current) :: loaderCalls current es
  | current, _ :: es => loaderCalls current es

namespace Viewer

/-- The chain `.then(...).then(...).then(...).catch(...)` of `Viewer.loadZipFile`
(viewer.js 399-558), run when the pending fetch settles with `outcome`. -/
def zipFetchSettled (env : Platform) (outcome : Except JS.JSError Response) (w0 : World) :
    Settlement × World :=
  let chain : Except JS.JSError Settlement × World :=
    match outcome with
    | .error e => (.error e, w0)
    | .ok response =>
      if !response.ok then (.error (statusError response), w0)
      else
        let w1 := w0.emit Event.loadAsync
        match env.loadAsync response.body with
        | .error e => (.error e, w1)
        | .ok zip => loadZipEntries env zip w1
  match chain with
  | (.ok s, w2) => (s, w2)
  | (.error error, w2) =>
    (Settlement.rejected (catchHandler
      "CORS_ERROR: Failed to fetch the ZIP file. This is likely a CORS issue. The S3 bucket needs to be configured to allow requests from your domain."
      error), w2)

/-- The chain `.then(...).then(...).catch(...)` of `Viewer.loadS3SignedUrlWithFetch`
(viewer.js 597-696), run when the pending fetch settles with `outcome`. -/
def signedFetchSettled (env : Platform) (url : String) (outcome : Except JS.JSError Response)
    (w0 : World) : Settlement × World :=
  let chain : Except JS.JSError Settlement × World :=
    match outcome with
    | .error e => (.error e, w0)
    | .ok response =>
      if !response.ok then (.error (statusError response), w0)
      else if (match response.contentType with
          | some contentType => JS.includes contentType "text/html"
          | none => false) then
        (.error (JS.newError
          "HTML_RESPONSE: Received HTML page instead of GLB file. The signed URL may be invalid or expired."),
          w0)
      else
        let (blobURL, w1) := w0.createObjectURL response.body
        let baseURL := extractUrlBase url
        let w2 := w1.setURLModifier (Resolver.signedUrl baseURL)
        let (s, w3) := gltfLoaderLoad env blobURL
          (fun gltf w _ =>
            match pickScene gltf with
            | none => .error noSceneError
            | some scene =>
              .ok (Settlement.resolved gltf,
                (w.emit (Event.setContent scene)).revokeObjectURL blobURL))
          (fun error w _ => (Settlement.rejected error, w.revokeObjectURL blobURL))
          w2 []
        (.ok s, w3)
  match chain with
  | (.ok s, w4) => (s, w4)
  | (.error error, w4) =>
    (Settlement.rejected (catchHandler
      "CORS_ERROR: Failed to fetch the file. This is likely a CORS issue. The S3 bucket needs to be configured to allow requests from your domain."
      error), w4)

end Viewer

namespace Sample

/-- A platform for dropped files: no URL is parsed, and the loader asks for the given
references and finishes with the given result. -/
def parsing (requests : List String) (result : Except ErrorValue GLTF) : Platform where
  parseURL := fun _ => none
  resolveAgainst := fun _ _ => none
  fetch := fun _ => .error (JS.typeError "Failed to fetch")
  loadAsync := fun _ => .ok []
  gltfLoad := fun _ => ⟨requests, result⟩

/-- The failure of the loader on a buffer it cannot retrieve. -/
def missingBuffer : ErrorValue :=
  ErrorValue.error (JS.newError "THREE.GLTFLoader: Failed to load buffer \"scene.bin\".")

/-- An archive whose document extracts and whose texture does not. -/
def zipWithBrokenTexture : List ZipEntry :=
  [⟨"model.gltf", false, .ok ⟨[123, 125], ""⟩⟩,
   ⟨"textures/a.png", false, .error (JS.newError "Corrupted zip : CRC32 mismatch")⟩]

/-- An archive with a document only. -/
def zipWithGltf : List ZipEntry := [⟨"model.gltf", false, .ok ⟨[123, 125], ""⟩⟩]

/-- The result of the loader for the document of load A. -/
def gltfA : GLTF := ⟨some 1, [1], none⟩

/-- The result of the loader for the document of load B. -/
def gltfB : GLTF := ⟨some 2, [2], none⟩

/-- The URL of load A, an archive. -/
def urlA : String := "https://example.org/a.zip"

/-- The reference of load B, a dropped file. -/
def urlB : String := "blob:http://localhost:3000/dropped"

/-- A platform on which the archive of load A is served and both documents load: the
loader finishes the document of B with `gltfB` and any other document with `gltfA`. -/
def twoLoads : Platform where
  parseURL := parserAt urlA ⟨"example.org", "/a.zip", []⟩
  resolveAgainst := fun _ _ => none
  fetch := fun _ => .ok okResponse
  loadAsync := fun _ => .ok zipWithGltf
  gltfLoad := fun u => if u = urlB then ⟨[], .ok gltfB⟩ else ⟨[], .ok gltfA⟩

end Sample

/-! ## Callbacks by name, and predicates on the event log -/

namespace Viewer

/-- The success callback of the fetch phase of a signed URL (viewer.js 656-675). -/
def signedOnLoad (blobURL : String) (gltf : GLTF) (w : World) (_ : List String) :
    Except JS.JSError (Settlement × World) :=
  match pickScene gltf with
  | none => .error noSceneError
  | some scene =>
    .ok (Settlement.resolved gltf, (w.emit (Event.setContent scene)).revokeObjectURL blobURL)

/-- The error callback of the fetch phase of a signed URL (viewer.js 677-680). -/
def signedOnError (blobURL : String) (error : ErrorValue) (w : World) (_ : List String) :
    Settlement × World :=
  (Settlement.rejected error, w.revokeObjectURL blobURL)

/-- The success callback of the archive strategy and of the default strategy
(viewer.js 513-533 and 274-296). -/
def revokingOnLoad (gltf : GLTF) (w : World) (blobURLs : List String) :
    Except JS.JSError (Settlement × World) :=
  match pickScene gltf with
  | none => .error noSceneError
  | some scene =>
    .ok (Settlement.resolved gltf, (w.emit (Event.setContent scene)).revokeAll blobURLs)

/-- The error callback of the archive strategy (viewer.js 537-541). -/
def revokingOnError (error : ErrorValue) (w : World) (blobURLs : List String) :
    Settlement × World :=
  (Settlement.rejected error, w.revokeAll blobURLs)

/-- Resolvers built from the inputs of one load: its root path, base URL and asset map, or
the members of the archive it fetched. -/
def OwnResolver (env : Platform) (url rootPath : String) (assetMap : JS.JSMap File)
    (r : Resolver) : Prop :=
  r = Resolver.default rootPath (extractUrlBase url) assetMap ∨
    r = Resolver.signedUrl (extractUrlBase url) ∨
    ∃ response zip, env.fetch url = .ok response ∧ env.loadAsync response.body = .ok zip ∧
      r = Resolver.archive (storeExtracted zip World.init [] []).2.1

end Viewer

/-- The world `w1` continues `w` by quiet events and leaves the URL modifier as it was. -/
def World.QuietStep (w w1 : World) : Prop :=
  w1.urlModifier = w.urlModifier ∧
    ∃ evs, w1.log = w.log ++ evs ∧ ∀ e ∈ evs, e.quiet = true

/-- The events of one fetch chain: quiet events, then either nothing or the install of a
resolver satisfying `own`, a loader call and quiet events. -/
def InstallThenParse (own : Resolver → Prop) (evs : List Event) : Prop :=
  ∃ q1 tail, evs = q1 ++ tail ∧ (∀ e ∈ q1, e.quiet = true) ∧
    (tail = [] ∨ ∃ r url q2, own r ∧
      tail = Event.setURLModifier r :: Event.parse url :: q2 ∧ ∀ e ∈ q2, e.quiet = true)

/-- How many times the object URL is revoked in the log. -/
def revocations (url : String) (log : List Event) : Nat :=
  log.count (Event.revokeObjectURL url)

/-! ## Percent-encoding, Base64 and the URL carried in the page path -/

namespace JS

/-- The characters `encodeURIComponent` leaves as they are: the ASCII letters and digits and
the marks `-_.!~*\x27()`. -/
def uriUnreserved (c : Char) : Bool := c.isAlphanum || "-_.!~*\x27()".data.contains c

/-- The upper-case hexadecimal digit of a value below 16. -/
def hexDigit (n : Nat) : Char := if n < 10 then Char.ofNat (48 + n) else Char.ofNat (55 + n)

/-- The escape `%XX` of an octet. -/
def percentEscape (b : Nat) : List Char := ['%', hexDigit (b / 16), hexDigit (b % 16)]

/-- The UTF-8 octets of a code point. -/
def utf8Octets (v : Nat) : List Nat :=
  if v < 128 then [v]
  else if v < 2048 then [192 + v / 64, 128 + v % 64]
  else if v < 65536 then [224 + v / 4096, 128 + v / 64 % 64, 128 + v % 64]
  else [240 + v / 262144, 128 + v / 4096 % 64, 128 + v / 64 % 64, 128 + v % 64]

/-- ECMAScript `Encode(string, unescapedSet)`: a character of the set stays, any other is
replaced by the escapes of its UTF-8 octets.  The strings of this model hold code points,
so the `URIError` for a lone surrogate does not arise. -/
def encodeChars (unescaped : Char → Bool) : List Char → List Char
  | [] => []
  | c :: cs =>
    (if unescaped c then [c] else (utf8Octets c.toNat).flatMap percentEscape)
      ++ encodeChars unescaped cs

/-- The global function `encodeURIComponent`. -/
def encodeURIComponent (s : String) : String := ⟨encodeChars uriUnreserved s.data⟩

/-- The global function `decodeURIComponent`: `Decode` with an empty set of preserved
escapes; it throws `URIError` on a malformed escape. -/
def decodeURIComponent (s : String) : Except JSError String :=
  match decodeLoop [] s.data.length s.data with
  | .ok out => .ok ⟨out⟩
  | .error e => .error e

/-- The `InvalidCharacterError` thrown by `btoa` and `atob`. -/
def invalidCharacterError : JSError := ⟨"InvalidCharacterError", "The string is not correctly encoded."⟩

/-- The character of the Base64 alphabet for a value below 64. -/
def base64Char (n : Nat) : Char :=
  if n < 26 then Char.ofNat (65 + n)
  else if n < 52 then Char.ofNat (71 + n)
  else if n < 62 then Char.ofNat (n - 4)
  else if n = 62 then '+'
  else '/'

/-- The value of a character of the Base64 alphabet. -/
def base64Value (c : Char) : Option Nat :=
  let n := c.toNat
  if 65 ≤ n ∧ n ≤ 90 then some (n - 65)
  else if 97 ≤ n ∧ n ≤ 122 then some (n - 71)
  else if 48 ≤ n ∧ n ≤ 57 then some (n + 4)
  else if c = '+' then some 62
  else if c = '/' then some 63
  else none

/-- Base64 encoding of octets (RFC 4648): three octets give four characters, and a last
group of one or two octets is padded with `=`. -/
def btoaOctets : List Nat → List Char
  | a :: b :: c :: rest =>
    base64Char (a / 4) :: base64Char (a % 4 * 16 + b / 16) ::
      base64Char (b % 16 * 4 + c / 64) :: base64Char (c % 64) :: btoaOctets rest
  | [a, b] => [base64Char (a / 4), base64Char (a % 4 * 16 + b / 16), base64Char (b % 16 * 4), '=']
  | [a] => [base64Char (a / 4), base64Char (a % 4 * 16), '=', '=']
  | [] => []

/-- The global function `btoa`: it throws when a character is above U+00FF. -/
def btoa (s : String) : Except JSError String :=
  if s.data.all (fun c => decide (c.toNat < 256)) then .ok ⟨btoaOctets (s.data.map Char.toNat)⟩
  else .error invalidCharacterError

/-- ASCII whitespace: tab, line feed, form feed, carriage return and space. -/
def asciiWhitespace (c : Char) : Bool :=
  c = Char.ofNat 9 || c = Char.ofNat 10 || c = Char.ofNat 12 || c = Char.ofNat 13 || c = ' '

/-- Step 2 of the forgiving Base64 decoding: when the length is a multiple of four, one or
two `=` at the end are removed. -/
def stripPadding (data : List Char) : List Char :=
  if data.length % 4 = 0 then
    match data.reverse with
    | c1 :: c2 :: r =>
      if c1 = '=' then (if c2 = '=' then r.reverse else (c2 :: r).reverse) else data
    | [c1] => if c1 = '=' then [] else data
    | [] => data
  else data

/-- The values of the characters, when all of them are in the Base64 alphabet. -/
def sextets : List Char → Option (List Nat)
  | [] => some []
  | c :: cs =>
    match base64Value c, sextets cs with
    | some v, some vs => some (v :: vs)
    | _, _ => none

/-- The octets written by six-bit values: four values give three octets; of a last group of
two or three values the bits that do not fill an octet are dropped. -/
def atobSextets : List Nat → List Nat
  | a :: b :: c :: d :: rest =>
    (a * 4 + b / 16) :: (b % 16 * 16 + c / 4) :: (c % 4 * 64 + d) :: atobSextets rest
  | [a, b, c] => [a * 4 + b / 16, b % 16 * 16 + c / 4]
  | [a, b] => [a * 4 + b / 16]
  | _ => []

/-- The global function `atob` (forgiving Base64 decoding): ASCII whitespace is removed,
then the padding; it throws when the length leaves remainder one modulo four or when a
character is outside the alphabet. -/
def atob (s : String) : Except JSError String :=
  let data := stripPadding (s.data.filter (fun c => !asciiWhitespace c))
  if data.length % 4 = 1 then .error invalidCharacterError
  else
    match sextets data with
    | none => .error invalidCharacterError
    | some vs => .ok ⟨(atobSextets vs).map Char.ofNat⟩

/-- The characters the regular-expression dot does not match: line feed, carriage return,
U+2028 and U+2029. -/
def lineTerminator (c : Char) : Bool :=
  c = Char.ofNat 10 || c = Char.ofNat 13 || c = Char.ofNat 8232 || c = Char.ofNat 8233

/-- The call `pathname.match(re)` with the pattern of app.js 81, a start anchor, a slash,
a dash, the group `(.+)` and an end anchor: the capture group, when the path starts with a
slash and a dash and goes on with at least one character and no line terminator. -/
def matchDashPath (pathname : String) : Option String :=
  if "/-".data.isPrefixOf pathname.data then
    let rest := pathname.data.drop 2
    if !rest.isEmpty && rest.all (fun c => !lineTerminator c) then some ⟨rest⟩ else none
  else none

/-- The call `s.replace(/\+/g, '%20')`. -/
def replacePlus (s : String) : String :=
  ⟨s.data.flatMap (fun c => if c = '+' then "%20".data else [c])⟩

/-- Replaces every occurrence of the escape `%` `hi` `lo`, from left to right, by `rep`. -/
def replaceEscape (hi lo rep : Char) : List Char → List Char
  | x :: y :: z :: rest =>
    if x = '%' ∧ y = hi ∧ z = lo then rep :: replaceEscape hi lo rep rest
    else x :: replaceEscape hi lo rep (y :: z :: rest)
  | cs => cs

/-- The chain `.replace(/%2B/g, '+').replace(/%2F/g, '/').replace(/%3D/g, '=')
.replace(/%3A/g, ':').replace(/%3F/g, '?').replace(/%26/g, '&')` (app.js 105-111). -/
def replaceCommonEscapes (s : String) : String :=
  ⟨replaceEscape '2' '6' '&' (replaceEscape '3' 'F' '?' (replaceEscape '3' 'A' ':'
    (replaceEscape '3' 'D' '=' (replaceEscape '2' 'F' '/'
      (replaceEscape '2' 'B' '+' s.data)))))⟩

end JS

namespace App

/-- Model of `App.isValidUrl` (app.js 148-155). -/
def isValidUrl (parseURL : URLParser) (url : String) : Bool := (parseURL url).isSome

/-- Model of `App.extractS3UrlFromPath` (app.js 79-141): `none` stands for `null`.  Base64
decoding is tried first, then `decodeURIComponent`, then `decodeURIComponent` after
replacing `+`, then the replacement of six escapes; the result is returned when the URL
parser accepts it. -/
def extractS3UrlFromPath (parseURL : URLParser) (pathname : String) : Option String :=
  match JS.matchDashPath pathname with
  | none => none
  | some encodedUrl =>
    let decodedUrl :=
      match JS.atob encodedUrl with
      | .ok decoded => decoded
      | .error _ =>
        match JS.decodeURIComponent encodedUrl with
        | .ok decoded => decoded
        | .error _ =>
          match JS.decodeURIComponent (JS.replacePlus encodedUrl) with
          | .ok decoded => decoded
          | .error _ => JS.replaceCommonEscapes encodedUrl
    if isValidUrl parseURL decodedUrl then some decodedUrl else none

end App

namespace Sample

/-- A signed URL as carried in the page path. -/
def carriedUrl : String := "https://b.s3.amazonaws.com/m.glb?X-Amz-Signature=a+b&caf\xe9=1"

/-- The record of `carriedUrl`. -/
def carriedRecord : URLRecord :=
  ⟨"b.s3.amazonaws.com", "/m.glb", [("X-Amz-Signature", "a b"), ("caf\xe9", "1")]⟩

end Sample

/-! ## Fetch events, relative references and the file set dropped on the application -/

/-- Events that are a call of `fetch`. -/
def Event.isFetch : Event → Bool
  | Event.fetch _ => true
  | _ => false

/-- How many times `fetch` is called among the events. -/
def fetchCount (evs : List Event) : Nat := evs.countP Event.isFetch

/-- The world `w1` continues `w` without a call of `fetch`. -/
def World.NoFetchStep (w w1 : World) : Prop :=
  ∃ evs, w1.log = w.log ++ evs ∧ fetchCount evs = 0

/-- The references the resolver of the signed-URL strategy resolves against the base URL:
those that start with `./` or `../` or do not contain `://`. -/
def IsRelativeReference (ref : String) : Prop :=
  "./".data <+: ref.data ∨ "../".data <+: ref.data ∨ ¬ "://".data <:+: ref.data

namespace Viewer

/-- The direct attempt of `Viewer.loadS3SignedUrl` (viewer.js 343-363), started in `w`, runs
its success callback to the end with `gltf` and `scene`: the installed resolver accepts
every reference of the document, the loader finishes with `gltf`, and `gltf` has the scene. -/
def DirectAttemptShows (env : Platform) (url : String) (w : World) (gltf : GLTF)
    (scene : Scene) : Prop :=
  (resolveRequests env (env.gltfLoad url).requests
      ((w.setURLModifier (Resolver.signedUrl (extractUrlBase url))).emit (Event.parse url))
      []).1 = .ok () ∧
    (env.gltfLoad url).result = .ok gltf ∧ pickScene gltf = some scene

end Viewer

namespace App

/-- The calls `App.load` makes on the application: `window.alert`, reached through
`App.onError`, and `App.view`.  An `undefined` argument is `none`. -/
inductive Call where
  | alert (message : String)
  | view (rootFile : Option File) (rootPath : Option String) (fileMap : JS.JSMap File)
deriving Repr, DecidableEq

/-- Calls of `App.view`. -/
def Call.isView : Call → Bool
  | Call.view _ _ _ => true
  | _ => false

/-- The test `file.name.match(/\.(gltf|glb)$/)` (app.js 189): the name ends in `.gltf` or in
`.glb`, in lower case. -/
def isRootName (name : String) : Bool := JS.endsWith name ".gltf" || JS.endsWith name ".glb"

/-- The `forEach` of `App.load` (app.js 188-193) over the entries of the file map: every
file whose name matches overwrites `rootFile` and `rootPath`. -/
def pickRoot :
    List (String × File) → Option File × Option String → Option File × Option String
  | [], acc => acc
  | (path, file) :: rest, acc =>
    if isRootName file.name then
      pickRoot rest (some file, some (JS.replaceWithEmpty path file.name))
    else pickRoot rest acc

/-- Model of `App.onError` (app.js 328-339) on a string argument: the text passed to
`window.alert`.  A string has neither `message` nor `target`, so the message starts as the
string itself. -/
def onErrorText (error : String) : String :=
  let message := error
  if JS.includes message "ProgressEvent" then
    "Unable to retrieve this file. Check JS console and browser network tab."
  else if JS.includes message "Unexpected token" then
    "Unable to parse file content. Verify that this file is valid. Error: \"" ++ message ++ "\""
  else message

/-- Model of `App.load` (app.js 185-200): the calls it makes, in order. -/
def load (fileMap : JS.JSMap File) : List Call :=
  let (rootFile, rootPath) := pickRoot fileMap (none, none)
  let reported :=
    match rootFile with
    | none => [Call.alert (onErrorText "No .gltf or .glb asset found.")]
    | some _ => []
  reported ++ [Call.view rootFile rootPath fileMap]

end App

namespace Sample

/-- A result of the loader without a scene. -/
def sceneless : GLTF := ⟨none, [], none⟩

/-- A signed URL of a binary model. -/
def signedGlbUrl : String := "https://bucket.s3.amazonaws.com/m.glb?X-Amz-Signature=abc"

/-- A successful response carrying a binary model. -/
def glbResponse : Response :=
  ⟨200, "OK", some "model/gltf-binary", ⟨[103, 108, 84, 70], "model/gltf-binary"⟩⟩

/-- A platform on which the direct attempt on `signedGlbUrl` finishes with a result that
has no scene, and every other document loads with `gltfA`. -/
def retrying : Platform where
  parseURL := parserAt signedGlbUrl
    ⟨"bucket.s3.amazonaws.com", "/m.glb", [("X-Amz-Signature", "abc")]⟩
  resolveAgainst := fun _ _ => none
  fetch := fun _ => .ok glbResponse
  loadAsync := fun _ => .ok []
  gltfLoad := fun u => if u = signedGlbUrl then ⟨[], .ok sceneless⟩ else ⟨[], .ok gltfA⟩

/-- A platform on which the direct attempt on `signedGlbUrl` shows its scene. -/
def direct : Platform where
  parseURL := parserAt signedGlbUrl
    ⟨"bucket.s3.amazonaws.com", "/m.glb", [("X-Amz-Signature", "abc")]⟩
  resolveAgainst := fun _ _ => none
  fetch := fun _ => .ok glbResponse
  loadAsync := fun _ => .ok []
  gltfLoad := fun _ => ⟨[], .ok gltfA⟩

/-- A platform that resolves the reference `textures/a.png` against the base of
`signedGlbUrl` and no other reference. -/
def resolving : Platform where
  parseURL := fun _ => none
  resolveAgainst := fun ref base =>
    if ref = "textures/a.png" ∧ base = "https://bucket.s3.amazonaws.com/" then
      some "https://bucket.s3.amazonaws.com/textures/a.png"
    else none
  fetch := fun _ => .error (JS.typeError "Failed to fetch")
  loadAsync := fun _ => .ok []
  gltfLoad := fun _ => ⟨[], .error ErrorValue.null⟩

/-- An archive with a directory, a texture and two documents, the first one with its
extension in upper case. -/
def zipTwoDocuments : List ZipEntry :=
  [⟨"textures/", true, .ok ⟨[], ""⟩⟩,
   ⟨"textures/a.png", false, .ok ⟨[137, 80, 78, 71, 2], ""⟩⟩,
   ⟨"Scene.GLTF", false, .ok ⟨[123, 49, 125], ""⟩⟩,
   ⟨"other.gltf", false, .ok ⟨[123, 50, 125], ""⟩⟩]

/-- A dropped file set without a model: a texture and a document with its extension in
upper case. -/
def filesWithoutRoot : JS.JSMap File :=
  [("models/textures/a.png", texture),
   ("models/SCENE.GLTF", ⟨"SCENE.GLTF", ⟨[123, 125], "model/gltf+json"⟩⟩)]

/-- A dropped file set with a document. -/
def filesWithRoot : JS.JSMap File :=
  [("models/scene.gltf", ⟨"scene.gltf", ⟨[123, 125], "model/gltf+json"⟩⟩),
   ("models/textures/a.png", texture)]

/-- A signed URL of an archive whose query string does not end in `.zip`. -/
def zipQueryUrl : String := "https://bucket.s3.amazonaws.com/scene.zip?X-Amz-Signature=abc"

/-- The record of `zipQueryUrl`. -/
def zipQueryRecord : URLRecord :=
  ⟨"bucket.s3.amazonaws.com", "/scene.zip", [("X-Amz-Signature", "abc")]⟩

/-- A signed URL of an archive whose query string ends in `.zip`. -/
def zipNamedUrl : String :=
  "https://bucket.s3.amazonaws.com/scene.zip?X-Amz-Signature=abc&response-content-disposition=scene.zip"

/-- The record of `zipNamedUrl`. -/
def zipNamedRecord : URLRecord :=
  ⟨"bucket.s3.amazonaws.com", "/scene.zip",
    [("X-Amz-Signature", "abc"), ("response-content-disposition", "scene.zip")]⟩

/-- A response with status 404 and the given status text. -/
def notFound (statusText : String) : Response :=
  ⟨404, statusText, some "application/xml", ⟨[], ""⟩⟩

/-- A platform around a given URL parser whose `fetch` answers every URL with the given
response. -/
def answering (parse : URLParser) (response : Response) : Platform where
  parseURL := parse
  resolveAgainst := fun _ _ => none
  fetch := fun _ => .ok response
  loadAsync := fun _ => .ok []
  gltfLoad := fun _ => ⟨[], .error ErrorValue.null⟩

end Sample

/-! ## Lemmas on the string primitives -/

theorem JS.occursIn_iff (pat s : List Char) : JS.occursIn pat s = true ↔ pat <:+: s := by
  induction s with
  | nil => cases pat <;> simp [JS.occursIn]
  | cons c cs ih =>
    simp only [JS.occursIn, Bool.or_eq_true, ih, List.isPrefixOf_iff_prefix]
    rw [List.infix_cons_iff]

theorem JS.includes_iff (s pat : String) : JS.includes s pat = true ↔ pat.data <:+: s.data :=
  JS.occursIn_iff pat.data s.data

theorem forall₂_sameLetter_iff (tail ext : List Char) (hext : ext.map Char.toLower = ext) :
    List.Forall₂ SameLetter tail ext ↔ tail.map Char.toLower = ext := by
  induction tail generalizing ext with
  | nil => cases ext <;> simp
  | cons a t ih =>
    cases ext with
    | nil => simp
    | cons b e =>
      simp only [List.map_cons, List.cons.injEq] at hext
      simp only [List.forall₂_cons, List.map_cons, List.cons.injEq, ih e hext.2, SameLetter]
      rw [hext.1]

theorem JS.endsWith_toLowerCase_iff (s ext : String)
    (hext : ext.data.map Char.toLower = ext.data) :
    JS.endsWith (JS.toLowerCase s) ext = true ↔ EndsWithIgnoringCase s ext := by
  unfold JS.endsWith JS.toLowerCase EndsWithIgnoringCase
  rw [List.isSuffixOf_iff_suffix]
  constructor
  · rintro ⟨t, ht⟩
    refine ⟨s.data.take t.length, s.data.drop t.length, (List.take_append_drop _ _).symm, ?_⟩
    have ht2 : t ++ ext.data = List.map Char.toLower s.data := ht
    rw [forall₂_sameLetter_iff _ _ hext, List.map_drop, ← ht2]
    simp
  · rintro ⟨stem, tail, hs, h⟩
    rw [forall₂_sameLetter_iff _ _ hext] at h
    exact ⟨stem.map Char.toLower, by rw [hs, List.map_append, h]⟩

theorem URLRecord.hasParam_iff (u : URLRecord) (name : String) :
    u.hasParam name = true ↔ ∃ v, (name, v) ∈ u.searchParams := by
  unfold URLRecord.hasParam
  rw [List.any_eq_true]
  constructor
  · rintro ⟨⟨k, v⟩, hmem, hk⟩
    have : k = name := by simpa using hk
    exact ⟨v, this ▸ hmem⟩
  · rintro ⟨v, hmem⟩
    exact ⟨(name, v), hmem, by simp⟩

theorem Viewer.isZipFile_of_parse (parseURL : URLParser) (url : String) (u : URLRecord)
    (hparse : parseURL url = some u) :
    Viewer.isZipFile parseURL url = JS.endsWith (JS.toLowerCase u.pathname) ".zip" := by
  simp [Viewer.isZipFile, hparse]

theorem JS.decodeLoop_of_no_percent (preserve : List Char) (s : List Char) (fuel : Nat)
    (hfuel : s.length ≤ fuel) (hs : '%' ∉ s) : JS.decodeLoop preserve fuel s = .ok s := by
  induction s generalizing fuel with
  | nil => cases fuel <;> rfl
  | cons c cs ih =>
    cases fuel with
    | zero => simp at hfuel
    | succ n =>
      have hc : c ≠ '%' := fun h => hs (h ▸ List.mem_cons_self _ _)
      have hcs : '%' ∉ cs := fun h => hs (List.mem_cons_of_mem _ h)
      have hlen : cs.length ≤ n := by simpa using hfuel
      simp [JS.decodeLoop, hc, ih n hlen hcs]

/-- A string without a percent sign is its own decoding. -/
theorem JS.decodeURI_of_no_percent (s : String) (hs : '%' ∉ s.data) :
    JS.decodeURI s = .ok s := by
  unfold JS.decodeURI
  rw [JS.decodeLoop_of_no_percent _ _ _ (le_refl _) hs]

theorem JS.removeFirst_absent (pat s : List Char) (h : ¬ pat <:+: s) :
    JS.removeFirst pat s = s := by
  induction s with
  | nil => rfl
  | cons c cs ih =>
    have hp : ¬ pat <+: c :: cs := fun hp => h hp.isInfix
    have hcs : ¬ pat <:+: cs := fun hi => h (List.infix_cons hi)
    simp [JS.removeFirst, hp, ih hcs]

theorem JS.removeFirst_at_start (pat s : List Char) (h : pat <+: s) :
    JS.removeFirst pat s = s.drop pat.length := by
  cases s with
  | nil => simp [JS.removeFirst]
  | cons c cs => simp [JS.removeFirst, h]

theorem JS.replaceWithEmpty_eq_dropPrefix (s pat : String)
    (h : pat.data <+: s.data ∨ ¬ pat.data <:+: s.data) :
    JS.replaceWithEmpty s pat = Spec.dropPrefix s pat := by
  unfold JS.replaceWithEmpty Spec.dropPrefix
  rcases h with h | h
  · simp [JS.removeFirst_at_start _ _ h, h]
  · have hp : ¬ pat.data <+: s.data := fun hp => h hp.isInfix
    simp [JS.removeFirst_absent _ _ h, hp]

theorem JS.stripLeadingSlash_eq (s : String) :
    JS.stripLeadingSlash s =
      if "./".data.isPrefixOf s.data then Spec.dropPrefix s "./" else Spec.dropPrefix s "/" := by
  unfold JS.stripLeadingSlash Spec.dropPrefix
  by_cases h1 : "./".data.isPrefixOf s.data = true
  · simp [h1]
  · by_cases h2 : "/".data.isPrefixOf s.data = true
    · simp [h1, h2]
    · simp [h1, h2]

theorem JS.lastSegment_of_not_mem (sep : Char) (s : List Char) (h : sep ∉ s) :
    JS.lastSegment sep s = s := by
  cases s with
  | nil => rfl
  | cons c cs =>
    have h1 : sep ∉ cs := fun hm => h (List.mem_cons_of_mem _ hm)
    have h2 : c ≠ sep := fun he => h (he ▸ List.mem_cons_self _ _)
    simp [JS.lastSegment, h1, h2]

theorem JS.lastSegment_append_sep (sep : Char) (d n : List Char) (h : sep ∉ n) :
    JS.lastSegment sep (d ++ sep :: n) = n := by
  induction d with
  | nil => simp [JS.lastSegment, h]
  | cons c cs ih => simp [JS.lastSegment, ih]

theorem JS.takeWhile_ne_append (sep : Char) (n rest : List Char) (h : sep ∉ n)
    (hrest : rest = [] ∨ ∃ r, rest = sep :: r) :
    (n ++ rest).takeWhile (fun c => c != sep) = n := by
  induction n with
  | nil =>
    rcases hrest with rfl | ⟨r, rfl⟩ <;> simp
  | cons c cs ih =>
    have h1 : sep ∉ cs := fun hm => h (List.mem_cons_of_mem _ hm)
    have h2 : c ≠ sep := fun he => h (he ▸ List.mem_cons_self _ _)
    have h3 : (c != sep) = true := by simp [h2]
    simp [List.takeWhile, h3, ih h1]

theorem JS.template_contains (p a b c : String) : a.data <:+: (p ++ a ++ b ++ c).data :=
  ⟨p.data, b.data ++ c.data, by simp [String.data_append, List.append_assoc]⟩

theorem JS.JSMap.has_eq_false_iff {β : Type} (m : JS.JSMap β) (key : String) :
    JS.JSMap.has m key = false ↔ JS.JSMap.get m key = none := by
  simp [JS.JSMap.has, JS.JSMap.get]

/-! ## Lemmas on the resolvers and the fetch chain -/

/-- The archive callback written out in one piece: the steps of `Viewer.prepareArchive`
followed by the call of the loader. -/
theorem Viewer.loadZipEntries_unfold (env : Platform) (zip : List ZipEntry) (w : World) :
    Viewer.loadZipEntries env zip w =
      (match Viewer.gltfFiles zip with
      | [] => (.error (JS.newError "No GLTF file found in the ZIP archive"), w)
      | mainGltfFile :: _ =>
        let w1 := Viewer.startExtraction zip w
        let (w2, extractedFiles, blobURLs) := Viewer.storeExtracted zip w1 [] []
        match Viewer.extractionFailure zip with
        | some err => (.error err, w2)
        | none =>
          match JS.JSMap.get extractedFiles mainGltfFile with
          | none => (.error (JS.typeError "Failed to execute createObjectURL"), w2)
          | some mainGltfBlob =>
            let (mainGltfBlobURL, w3) := w2.createObjectURL mainGltfBlob.blob
            let w4 := w3.setURLModifier (Resolver.archive extractedFiles)
            let (s, w5) := Viewer.gltfLoaderLoad env mainGltfBlobURL
              (fun gltf w blobURLs =>
                match Viewer.pickScene gltf with
                | none => .error Viewer.noSceneError
                | some scene =>
                  .ok (Settlement.resolved gltf,
                    (w.emit (Event.setContent scene)).revokeAll blobURLs))
              (fun error w blobURLs => (Settlement.rejected error, w.revokeAll blobURLs))
              w4 (blobURLs ++ [mainGltfBlobURL])
            (.ok s, w5)) := by
  unfold Viewer.loadZipEntries Viewer.prepareArchive
  cases Viewer.gltfFiles zip with
  | nil => rfl
  | cons mainGltfFile rest =>
    dsimp only
    generalize Viewer.storeExtracted zip (Viewer.startExtraction zip w) [] [] = st
    obtain ⟨w2, extractedFiles, blobURLs⟩ := st
    dsimp only
    cases Viewer.extractionFailure zip with
    | some err => rfl
    | none =>
      dsimp only
      cases JS.JSMap.get extractedFiles mainGltfFile with
      | none => rfl
      | some mainGltfBlob => rfl

/-- The normalised key of `./k` is the root path followed by `k`. -/
theorem Viewer.normalizedURL_dot_slash (rootPath baseURL k : String)
    (hk : '%' ∉ k.data) (hbase : ¬ baseURL.data <:+: ("./" ++ k).data) :
    Viewer.normalizedURL rootPath baseURL ("./" ++ k) = .ok (rootPath ++ k) := by
  have hdec : JS.decodeURI ("./" ++ k) = .ok ("./" ++ k) := by
    apply JS.decodeURI_of_no_percent
    intro h
    rw [String.data_append, List.mem_append] at h
    rcases h with h | h
    · exact absurd h (by decide)
    · exact hk h
  unfold Viewer.normalizedURL
  rw [hdec]
  simp only [JS.replaceWithEmpty, JS.removeFirst_absent _ _ hbase]
  have : JS.stripLeadingSlash ⟨("./" ++ k).data⟩ = k := by
    unfold JS.stripLeadingSlash
    simp [String.data_append]
  rw [this]

/-- The bare file name of a reference `d2 ++ name ++ q`: directory and query are dropped. -/
theorem Viewer.bareFileName_of_parts (d2 name q : String)
    (hd : d2 = "" ∨ ∃ d : String, d2 = d ++ "/")
    (hname : '/' ∉ name.data ∧ '?' ∉ name.data)
    (hq : q = "" ∨ ∃ r : String, q = "?" ++ r ∧ '/' ∉ r.data) :
    Viewer.bareFileName (d2 ++ name ++ q) = name := by
  have hq1 : '/' ∉ q.data := by
    rcases hq with rfl | ⟨r, rfl, hr⟩
    · simp
    · simp [String.data_append, hr]
  have hq2 : q.data = [] ∨ ∃ r, q.data = '?' :: r := by
    rcases hq with rfl | ⟨r, rfl, _⟩
    · exact Or.inl rfl
    · exact Or.inr ⟨r.data, by simp [String.data_append]⟩
  have htail : '/' ∉ name.data ++ q.data := by
    simp [List.mem_append, hname.1, hq1]
  have hseg : JS.lastSegment '/' (d2 ++ name ++ q).data = name.data ++ q.data := by
    rcases hd with rfl | ⟨d, rfl⟩
    · simpa [String.data_append] using JS.lastSegment_of_not_mem '/' _ htail
    · have := JS.lastSegment_append_sep '/' d.data (name.data ++ q.data) htail
      simpa [String.data_append] using this
  unfold Viewer.bareFileName JS.splitQuestionFirst JS.splitSlashPop
  simp only [hseg, JS.takeWhile_ne_append '?' _ _ hname.2 hq2]

theorem Viewer.gltfFiles_eq_nil (zip : List ZipEntry)
    (hnone : ∀ e ∈ zip, e.dir = false → ¬ EndsWithIgnoringCase e.name ".gltf") :
    Viewer.gltfFiles zip = [] := by
  unfold Viewer.gltfFiles
  rw [List.map_eq_nil_iff, List.filter_eq_nil_iff]
  intro e he hcond
  rw [Bool.and_eq_true, JS.endsWith_toLowerCase_iff _ _ (by decide)] at hcond
  exact hnone e he (by simpa using hcond.2) hcond.1

theorem Viewer.catchHandler_newError (corsMessage message : String) :
    Viewer.catchHandler corsMessage (JS.newError message)
      = ErrorValue.error (JS.newError message) := by
  have h : ("Error" == "TypeError") = false := by decide
  simp [Viewer.catchHandler, JS.newError, h]

theorem Viewer.statusError_name (response : Response) :
    (Viewer.statusError response).name = "Error" := by
  unfold Viewer.statusError
  split_ifs <;> rfl

theorem Viewer.statusError_carries_status (response : Response) :
    (toString response.status).data <:+: (Viewer.statusError response).message.data := by
  unfold Viewer.statusError
  split_ifs <;> exact JS.template_contains _ _ _ _

theorem Viewer.catchHandler_statusError (corsMessage : String) (response : Response) :
    Viewer.catchHandler corsMessage (Viewer.statusError response)
      = ErrorValue.error (Viewer.statusError response) := by
  have h : ("Error" == "TypeError") = false := by decide
  simp [Viewer.catchHandler, Viewer.statusError_name, h]

/-! ## The URL classifier: C1, C2, C3 -/

/-- C1: a reference whose parsed path ends in `.zip`, in any letter case and whatever its
host and query, makes `Viewer.load` take the archive branch: the branch selected is
`archive` and the load is the run of `loadZipFile`. -/
theorem Viewer.load_archive_priority (env : Platform) (url rootPath : String)
    (assetMap : JS.JSMap File) (w : World) (u : URLRecord)
    (hparse : env.parseURL url = some u) (hzip : EndsWithIgnoringCase u.pathname ".zip") :
    Viewer.strategy env.parseURL url = Viewer.Strategy.archive ∧
      Viewer.load env url rootPath assetMap w = Viewer.loadZipFile env url rootPath assetMap w := by
  have hz : Viewer.isZipFile env.parseURL url = true := by
    rw [Viewer.isZipFile_of_parse _ _ _ hparse]
    exact (JS.endsWith_toLowerCase_iff _ _ (by decide)).2 hzip
  constructor
  · simp [Viewer.strategy, hz]
  · simp [Viewer.load, hz]

/-- C1 at a signed cloud-storage URL whose path ends in `.ZIP`: the signed-URL test is
true as well, and the archive branch is taken. -/
theorem Viewer.load_archive_priority_witness :
    Viewer.isS3SignedUrl (Sample.parserAt Sample.signedZipUrl Sample.signedZipRecord)
        Sample.signedZipUrl = true ∧
      (Viewer.strategy (Sample.parserAt Sample.signedZipUrl Sample.signedZipRecord)
          Sample.signedZipUrl = Viewer.Strategy.archive ∧
        Viewer.load (Sample.platform (Sample.parserAt Sample.signedZipUrl Sample.signedZipRecord))
            Sample.signedZipUrl "" [] World.init =
          Viewer.loadZipFile
            (Sample.platform (Sample.parserAt Sample.signedZipUrl Sample.signedZipRecord))
            Sample.signedZipUrl "" [] World.init) :=
  ⟨by decide,
    Viewer.load_archive_priority
      (Sample.platform (Sample.parserAt Sample.signedZipUrl Sample.signedZipRecord))
      Sample.signedZipUrl "" [] World.init Sample.signedZipRecord (by decide)
      ⟨"/scenes/model".data, ".ZIP".data, by decide,
        (forall₂_sameLetter_iff _ _ (by decide)).2 (by decide)⟩⟩

/-- C2: `Viewer.isS3SignedUrl` is true exactly when the reference parses, its host name
matches the cloud-storage pattern and its query has one of the four signature parameters;
in every other case it is false. -/
theorem Viewer.isS3SignedUrl_iff (parseURL : URLParser) (url : String) :
    Viewer.isS3SignedUrl parseURL url = true ↔
      ∃ u, parseURL url = some u ∧ MatchesStorageHost u.hostname ∧ HasSignatureParam u := by
  unfold Viewer.isS3SignedUrl
  cases hp : parseURL url with
  | none => simp
  | some u =>
    simp only [Bool.and_eq_true, Bool.or_eq_true, JS.includes_iff, URLRecord.hasParam_iff,
      Option.some.injEq, exists_eq_left', MatchesStorageHost, HasSignatureParam,
      List.mem_cons, List.mem_singleton, exists_eq_or_imp, exists_eq_left, List.not_mem_nil,
      false_and, exists_false, or_false, or_assoc]

/-- C3: `Viewer.isZipFile` is true exactly when the reference parses and its path component,
which excludes the query string, ends in `.zip` up to letter case. -/
theorem Viewer.isZipFile_iff (parseURL : URLParser) (url : String) :
    Viewer.isZipFile parseURL url = true ↔
      ∃ u, parseURL url = some u ∧ EndsWithIgnoringCase u.pathname ".zip" := by
  cases hp : parseURL url with
  | none => simp [Viewer.isZipFile, hp]
  | some u =>
    rw [Viewer.isZipFile_of_parse _ _ _ hp, JS.endsWith_toLowerCase_iff _ _ (by decide)]
    simp

/-! ## The resolvers: C4 to C8 -/

/-- C4, as stated, fails: for the reference `/textures/a.png` the modifier of `Viewer.load`
looks up `models/textures/a.png`, because a leading `/` is removed as well, whereas the key
described by the claim keeps it. -/
theorem Viewer.normalizedURL_strips_leading_slash :
    JS.decodeURI "/textures/a.png" = .ok "/textures/a.png" ∧
      Viewer.normalizedURL "models/" Sample.blobBase "/textures/a.png"
        = .ok "models/textures/a.png" ∧
      Spec.claimedKey "models/" Sample.blobBase "/textures/a.png" = "models//textures/a.png" ∧
      Viewer.normalizedURL "models/" Sample.blobBase "/textures/a.png"
        ≠ .ok (Spec.claimedKey "models/" Sample.blobBase "/textures/a.png") := by
  refine ⟨by rfl, by rfl, by decide, ?_⟩
  intro h
  have h1 : Viewer.normalizedURL "models/" Sample.blobBase "/textures/a.png"
      = .ok "models/textures/a.png" := by rfl
  rw [h1] at h
  exact absurd (Except.ok.inj h) (by decide)

/-- C4, amended: for a reference that `decodeURI` accepts and in whose decoded form the base
URL stands as a prefix or not at all, the key looked up is the root path followed by the
decoded reference without that base URL prefix and without a leading `./` or a leading
`/`. -/
theorem Viewer.normalizedURL_amended (rootPath baseURL url decoded : String)
    (hdec : JS.decodeURI url = .ok decoded)
    (hbase : baseURL.data <+: decoded.data ∨ ¬ baseURL.data <:+: decoded.data) :
    Viewer.normalizedURL rootPath baseURL url =
      .ok (Spec.amendedKey rootPath baseURL decoded) := by
  unfold Viewer.normalizedURL Spec.amendedKey
  rw [hdec]
  simp only [JS.replaceWithEmpty_eq_dropPrefix _ _ hbase, JS.stripLeadingSlash_eq]

/-- C4, amended, at an escaped reference that begins with the base URL. -/
theorem Viewer.normalizedURL_amended_witness :
    (JS.decodeURI "blob:http://localhost:3000/./textures/a%20b.png"
        = .ok "blob:http://localhost:3000/./textures/a b.png" ∧
      Sample.blobBase.data <+: "blob:http://localhost:3000/./textures/a b.png".data) ∧
    Spec.amendedKey "models/" Sample.blobBase "blob:http://localhost:3000/./textures/a b.png"
      = "models/textures/a b.png" ∧
    Viewer.normalizedURL "models/" Sample.blobBase
        "blob:http://localhost:3000/./textures/a%20b.png"
      = .ok (Spec.amendedKey "models/" Sample.blobBase
          "blob:http://localhost:3000/./textures/a b.png") :=
  ⟨⟨by rfl, by decide⟩, by decide,
    Viewer.normalizedURL_amended "models/" Sample.blobBase
      "blob:http://localhost:3000/./textures/a%20b.png"
      "blob:http://localhost:3000/./textures/a b.png" (by rfl) (Or.inl (by decide))⟩

/-- C5, as stated, fails at its own example: with the key `textures/a.png` in the asset
map and the root path `models/`, the reference `./textures/a.png` is looked up under
`models/textures/a.png`, is not found, and is returned unchanged without any handle. -/
theorem Viewer.default_resolver_root_path_miss :
    JS.JSMap.get [("textures/a.png", Sample.texture)] "textures/a.png" = some Sample.texture ∧
      Viewer.normalizedURL "models/" Sample.blobBase "./textures/a.png"
        = .ok "models/textures/a.png" ∧
      Viewer.applyResolver Sample.offline
          (Resolver.default "models/" Sample.blobBase [("textures/a.png", Sample.texture)])
          "./textures/a.png" none World.init []
        = (.ok "./textures/a.png", World.init, []) :=
  ⟨by rfl, by rfl, by rfl⟩

/-- C5, amended: when the asset map holds the key `rootPath ++ k`, where `k` has no percent
sign and the base URL does not occur in `./k`, the modifier of `Viewer.load` resolves the
reference `./k` to a new object URL for the payload stored under `rootPath ++ k`, and
records that URL in the array of the load. -/
theorem Viewer.default_resolver_round_trip (env : Platform) (rootPath baseURL k : String)
    (assetMap : JS.JSMap File) (file : File) (path : Option String) (w : World)
    (blobURLs : List String)
    (hk : '%' ∉ k.data) (hbase : ¬ baseURL.data <:+: ("./" ++ k).data)
    (hmap : JS.JSMap.get assetMap (rootPath ++ k) = some file) :
    ∃ handle w1,
      Viewer.applyResolver env (Resolver.default rootPath baseURL assetMap) ("./" ++ k) path
          w blobURLs = (.ok handle, w1, blobURLs ++ [handle]) ∧
        w1.objectURLs = w.objectURLs ++ [(handle, file.blob)] := by
  refine ⟨(w.createObjectURL file.blob).1, (w.createObjectURL file.blob).2, ?_, rfl⟩
  simp only [Viewer.applyResolver, Viewer.normalizedURL_dot_slash _ _ _ hk hbase, hmap]

/-- C5, amended, at the key `models/textures/a.png`, the root path `models/` and the
reference `./textures/a.png`. -/
theorem Viewer.default_resolver_round_trip_witness :
    ('%' ∉ "textures/a.png".data ∧
      ¬ Sample.blobBase.data <:+: ("./" ++ "textures/a.png").data ∧
      JS.JSMap.get [("models/textures/a.png", Sample.texture)] ("models/" ++ "textures/a.png")
        = some Sample.texture) ∧
    ∃ handle w1,
      Viewer.applyResolver Sample.offline
          (Resolver.default "models/" Sample.blobBase [("models/textures/a.png", Sample.texture)])
          ("./" ++ "textures/a.png") none World.init []
        = (.ok handle, w1, [] ++ [handle]) ∧
      w1.objectURLs = World.init.objectURLs ++ [(handle, Sample.texture.blob)] :=
  ⟨⟨by decide, by decide, by rfl⟩,
    Viewer.default_resolver_round_trip Sample.offline "models/" Sample.blobBase "textures/a.png"
      [("models/textures/a.png", Sample.texture)] Sample.texture none World.init []
      (by decide) (by decide) (by rfl)⟩

/-- C6, as stated, fails: on the reference `%`, a malformed percent escape, with empty
asset maps, both the modifier of `Viewer.load` and the modifier of `Viewer.loadZipFile`
throw `URIError` instead of returning the reference. -/
theorem Viewer.resolver_throws_on_malformed_escape :
    JS.decodeURI "%" = .error JS.uriError ∧
      Viewer.applyResolver Sample.offline (Resolver.default "" Sample.blobBase []) "%" none
          World.init []
        = (.error JS.uriError, World.init, []) ∧
      Viewer.applyResolver Sample.offline (Resolver.archive []) "%" none World.init []
        = (.error JS.uriError, World.init, []) :=
  ⟨by rfl, by rfl, by rfl⟩

/-- C6, amended: for a reference that `decodeURI` accepts and whose keys are not in the
map, neither modifier throws or creates anything; the modifier of `Viewer.load` returns
`(path || '') + url`, which is the reference itself when no path argument is passed, and
the modifier of `Viewer.loadZipFile` returns the reference itself. -/
theorem Viewer.resolver_miss_falls_through (env : Platform)
    (rootPath baseURL url decoded : String) (assetMap extractedFiles : JS.JSMap File)
    (path : Option String) (w : World) (blobURLs : List String)
    (hdec : JS.decodeURI url = .ok decoded)
    (hmiss : JS.JSMap.has assetMap
      (rootPath ++ JS.stripLeadingSlash (JS.replaceWithEmpty decoded baseURL)) = false)
    (hbare : JS.JSMap.has extractedFiles (Viewer.bareFileName decoded) = false)
    (hfull : JS.JSMap.has extractedFiles decoded = false) :
    Viewer.applyResolver env (Resolver.default rootPath baseURL assetMap) url path w blobURLs
        = (.ok (path.getD "" ++ url), w, blobURLs) ∧
      Viewer.applyResolver env (Resolver.default rootPath baseURL assetMap) url none w blobURLs
        = (.ok url, w, blobURLs) ∧
      Viewer.applyResolver env (Resolver.archive extractedFiles) url path w blobURLs
        = (.ok url, w, blobURLs) := by
  rw [JS.JSMap.has_eq_false_iff] at hmiss hbare hfull
  refine ⟨?_, ?_, ?_⟩
  · simp only [Viewer.applyResolver, Viewer.normalizedURL, hdec, hmiss]
  · simp only [Viewer.applyResolver, Viewer.normalizedURL, hdec, hmiss]
    simp
  · simp only [Viewer.applyResolver, hdec, hbare, hfull]

/-- C6, amended, at the escaped reference `./missing%20file.bin`, which neither map
holds. -/
theorem Viewer.resolver_miss_falls_through_witness :
    JS.decodeURI "./missing%20file.bin" = .ok "./missing file.bin" ∧
      Viewer.applyResolver Sample.offline
          (Resolver.default "models/" Sample.blobBase [("models/textures/a.png", Sample.texture)])
          "./missing%20file.bin" (some "ignored/") World.init []
        = (.ok ((some "ignored/").getD "" ++ "./missing%20file.bin"), World.init, []) ∧
      Viewer.applyResolver Sample.offline
          (Resolver.default "models/" Sample.blobBase [("models/textures/a.png", Sample.texture)])
          "./missing%20file.bin" none World.init []
        = (.ok "./missing%20file.bin", World.init, []) ∧
      Viewer.applyResolver Sample.offline (Resolver.archive [("textures/a.png", Sample.texture)])
          "./missing%20file.bin" (some "ignored/") World.init []
        = (.ok "./missing%20file.bin", World.init, []) :=
  ⟨by rfl,
    Viewer.resolver_miss_falls_through Sample.offline "models/" Sample.blobBase
      "./missing%20file.bin" "./missing file.bin" [("models/textures/a.png", Sample.texture)]
      [("textures/a.png", Sample.texture)] (some "ignored/") World.init []
      (by rfl) (by rfl) (by rfl) (by rfl)⟩

/-- C7, as stated, fails: when the archive holds both `a.png` and `textures/a.png`, the
reference `textures/a.png`, whose decoded full path is a key, resolves to an object URL for
the payload of `a.png`, not for the payload of `textures/a.png`. -/
theorem Viewer.archive_resolver_bare_name_first :
    JS.decodeURI "textures/a.png" = .ok "textures/a.png" ∧
      JS.JSMap.get [("a.png", Sample.rootTexture), ("textures/a.png", Sample.texture)]
        "textures/a.png" = some Sample.texture ∧
      Viewer.applyResolver Sample.offline
          (Resolver.archive [("a.png", Sample.rootTexture), ("textures/a.png", Sample.texture)])
          "textures/a.png" none World.init []
        = (.ok "blob:0",
            ⟨1, [("blob:0", Sample.rootTexture.blob)], none, [Event.createObjectURL "blob:0"]⟩,
            ["blob:0"]) ∧
      Sample.rootTexture.blob ≠ Sample.texture.blob :=
  ⟨by rfl, by rfl, by rfl, by decide⟩

/-- C7, amended: the modifier of `Viewer.loadZipFile` looks up the bare file name first.  A
reference whose bare file name is a key resolves to the payload stored under that bare name;
the decoded full path is used only when the bare file name is not a key, and then the
reference resolves to the payload stored under the full path. -/
theorem Viewer.archive_resolver_order (env : Platform) (url decoded : String)
    (extractedFiles : JS.JSMap File) (path : Option String) (w : World)
    (blobURLs : List String)
    (hdec : JS.decodeURI url = .ok decoded) :
    (∀ file, JS.JSMap.get extractedFiles (Viewer.bareFileName decoded) = some file →
      ∃ handle w1,
        Viewer.applyResolver env (Resolver.archive extractedFiles) url path w blobURLs
          = (.ok handle, w1, blobURLs ++ [handle]) ∧
        w1.objectURLs = w.objectURLs ++ [(handle, file.blob)]) ∧
    (∀ file, JS.JSMap.get extractedFiles (Viewer.bareFileName decoded) = none →
      JS.JSMap.get extractedFiles decoded = some file →
      ∃ handle w1,
        Viewer.applyResolver env (Resolver.archive extractedFiles) url path w blobURLs
          = (.ok handle, w1, blobURLs ++ [handle]) ∧
        w1.objectURLs = w.objectURLs ++ [(handle, file.blob)]) := by
  constructor
  · intro file hbare
    refine ⟨(w.createObjectURL file.blob).1, (w.createObjectURL file.blob).2, ?_, rfl⟩
    simp only [Viewer.applyResolver, hdec, hbare]
  · intro file hbare hfull
    refine ⟨(w.createObjectURL file.blob).1, (w.createObjectURL file.blob).2, ?_, rfl⟩
    simp only [Viewer.applyResolver, hdec, hbare, hfull]

/-- C7, amended, at the reference `textures/a.png`: with `a.png` in the archive the bare
name wins; with only `textures/a.png` in the archive the full path is used. -/
theorem Viewer.archive_resolver_order_witness :
    JS.decodeURI "textures/a.png" = .ok "textures/a.png" ∧
    (∃ handle w1,
      Viewer.applyResolver Sample.offline
          (Resolver.archive [("a.png", Sample.rootTexture), ("textures/a.png", Sample.texture)])
          "textures/a.png" none World.init []
        = (.ok handle, w1, [] ++ [handle]) ∧
      w1.objectURLs = World.init.objectURLs ++ [(handle, Sample.rootTexture.blob)]) ∧
    (∃ handle w1,
      Viewer.applyResolver Sample.offline (Resolver.archive [("textures/a.png", Sample.texture)])
          "textures/a.png" none World.init []
        = (.ok handle, w1, [] ++ [handle]) ∧
      w1.objectURLs = World.init.objectURLs ++ [(handle, Sample.texture.blob)]) :=
  ⟨by rfl,
    (Viewer.archive_resolver_order Sample.offline "textures/a.png" "textures/a.png"
      [("a.png", Sample.rootTexture), ("textures/a.png", Sample.texture)] none World.init []
      (by rfl)).1 Sample.rootTexture (by rfl),
    (Viewer.archive_resolver_order Sample.offline "textures/a.png" "textures/a.png"
      [("textures/a.png", Sample.texture)] none World.init [] (by rfl)).2 Sample.texture
      (by rfl) (by rfl)⟩

/-- C8, as stated, fails at its own example: with the archive member `textures/a.png` the
reference `blob:http://host/img/a.png` has the bare file name `a.png`, which is not a key
because members are stored under their full in-archive path; the reference is returned
unchanged and no handle is created. -/
theorem Viewer.archive_resolver_subdirectory_miss :
    Viewer.bareFileName "blob:http://host/img/a.png" = "a.png" ∧
      JS.JSMap.get [("textures/a.png", Sample.texture)] "a.png" = none ∧
      Viewer.applyResolver Sample.offline (Resolver.archive [("textures/a.png", Sample.texture)])
          "blob:http://host/img/a.png" none World.init []
        = (.ok "blob:http://host/img/a.png", World.init, []) :=
  ⟨by decide, by rfl, by rfl⟩

/-- C8, amended: matching by bare file name ignores the directory and the query string of
the reference only.  For a member stored under the in-archive path `name` itself (no
directory) and a reference `d2 ++ name ++ q` without percent sign, where `d2` is empty or
ends in `/`, `name` has neither `/` nor `?`, and `q` is empty or a query string without
`/`, the reference resolves to a new object URL for that member. -/
theorem Viewer.archive_resolver_bare_name (env : Platform) (d2 name q : String)
    (extractedFiles : JS.JSMap File) (file : File) (path : Option String) (w : World)
    (blobURLs : List String)
    (hd : d2 = "" ∨ ∃ d : String, d2 = d ++ "/")
    (hname : '/' ∉ name.data ∧ '?' ∉ name.data)
    (hq : q = "" ∨ ∃ r : String, q = "?" ++ r ∧ '/' ∉ r.data)
    (hpct : '%' ∉ (d2 ++ name ++ q).data)
    (hentry : JS.JSMap.get extractedFiles name = some file) :
    ∃ handle w1,
      Viewer.applyResolver env (Resolver.archive extractedFiles) (d2 ++ name ++ q) path
          w blobURLs = (.ok handle, w1, blobURLs ++ [handle]) ∧
        w1.objectURLs = w.objectURLs ++ [(handle, file.blob)] := by
  refine ⟨(w.createObjectURL file.blob).1, (w.createObjectURL file.blob).2, ?_, rfl⟩
  simp only [Viewer.applyResolver, JS.decodeURI_of_no_percent _ hpct,
    Viewer.bareFileName_of_parts d2 name q hd hname hq, hentry]

/-- C8, amended, at the member `a.png` and the reference
`blob:http://host/img/a.png?v=1`. -/
theorem Viewer.archive_resolver_bare_name_witness :
    JS.JSMap.get [("a.png", Sample.rootTexture)] "a.png" = some Sample.rootTexture ∧
    ∃ handle w1,
      Viewer.applyResolver Sample.offline (Resolver.archive [("a.png", Sample.rootTexture)])
          ("blob:http://host/img/" ++ "a.png" ++ "?v=1") none World.init []
        = (.ok handle, w1, [] ++ [handle]) ∧
      w1.objectURLs = World.init.objectURLs ++ [(handle, Sample.rootTexture.blob)] :=
  ⟨by rfl,
    Viewer.archive_resolver_bare_name Sample.offline "blob:http://host/img/" "a.png" "?v=1"
      [("a.png", Sample.rootTexture)] Sample.rootTexture none World.init []
      (Or.inr ⟨"blob:http://host/img", by decide⟩) (by decide)
      (Or.inr ⟨"v=1", by decide, by decide⟩) (by decide) (by rfl)⟩

/-! ## The archive and signed-URL fetch chains: C9, C10 -/

/-- C9: when the fetch succeeds and the archive has no member that is not a directory and
whose name ends in `.gltf` up to letter case, `Viewer.loadZipFile` rejects with the error
`No GLTF file found in the ZIP archive`, for which `App.onS3UrlError` shows the ZIP Archive
Error text; the only steps taken are the fetch and the opening of the archive, so nothing is
extracted, no URL modifier is installed, the loader is not called and `setContent` is not
called. -/
theorem Viewer.loadZipFile_without_gltf (env : Platform) (url rootPath : String)
    (assetMap : JS.JSMap File) (w : World) (response : Response) (zip : List ZipEntry)
    (hfetch : env.fetch url = .ok response) (hok : response.ok = true)
    (hzip : env.loadAsync response.body = .ok zip)
    (hnone : ∀ e ∈ zip, e.dir = false → ¬ EndsWithIgnoringCase e.name ".gltf") :
    Viewer.loadZipFile env url rootPath assetMap w =
        (Settlement.rejected
          (ErrorValue.error (JS.newError "No GLTF file found in the ZIP archive")),
          { w with log := w.log ++ [Event.fetch url, Event.loadAsync] }) ∧
      App.onS3UrlError (ErrorValue.error (JS.newError "No GLTF file found in the ZIP archive"))
          url
        = .ok ("ZIP Archive Error: No GLTF file found in the ZIP archive.\n\n"
          ++ "The ZIP file must contain at least one .gltf file to be viewable. Please check that your ZIP file contains:\n"
          ++ "• A .gltf file (required)\n"
          ++ "• Associated .bin files (if referenced by the GLTF)\n"
          ++ "• Texture files (.jpg, .png, .webp) if referenced by the GLTF") := by
  constructor
  · simp [Viewer.loadZipFile, hfetch, hok, hzip, Viewer.loadZipEntries_unfold,
      Viewer.gltfFiles_eq_nil zip hnone, Viewer.catchHandler_newError, World.emit]
  · rfl

/-- C9 at an archive that holds a directory, a texture and a `.glb` model. -/
theorem Viewer.loadZipFile_without_gltf_witness :
    Sample.okResponse.ok = true ∧
    Viewer.gltfFiles Sample.zipWithoutGltf = [] ∧
    (Viewer.loadZipFile (Sample.serving Sample.okResponse Sample.zipWithoutGltf)
        "https://example.org/scene.zip" "" [] World.init =
        (Settlement.rejected
          (ErrorValue.error (JS.newError "No GLTF file found in the ZIP archive")),
          { World.init with
            log := World.init.log ++ [Event.fetch "https://example.org/scene.zip",
              Event.loadAsync] }) ∧
      App.onS3UrlError (ErrorValue.error (JS.newError "No GLTF file found in the ZIP archive"))
          "https://example.org/scene.zip"
        = .ok ("ZIP Archive Error: No GLTF file found in the ZIP archive.\n\n"
          ++ "The ZIP file must contain at least one .gltf file to be viewable. Please check that your ZIP file contains:\n"
          ++ "• A .gltf file (required)\n"
          ++ "• Associated .bin files (if referenced by the GLTF)\n"
          ++ "• Texture files (.jpg, .png, .webp) if referenced by the GLTF")) :=
  ⟨by decide, by decide,
    Viewer.loadZipFile_without_gltf (Sample.serving Sample.okResponse Sample.zipWithoutGltf)
      "https://example.org/scene.zip" "" [] World.init Sample.okResponse Sample.zipWithoutGltf
      (by rfl) (by decide) (by rfl)
      (by
        intro e he _ hends
        rw [← JS.endsWith_toLowerCase_iff _ _ (by decide)] at hends
        simp only [Sample.zipWithoutGltf, List.mem_cons, List.mem_singleton,
          List.not_mem_nil, or_false] at he
        rcases he with rfl | rfl | rfl <;> exact absurd hends (by decide))⟩

/-- C10: when the fetch answers with a status outside 200-299, `Viewer.loadZipFile` and
`Viewer.loadS3SignedUrlWithFetch` both reject with an error whose message contains the
decimal digits of the status; the fetch is the only step taken, so the archive is not
opened and the loader is not called. -/
theorem Viewer.fetch_status_rejection (env : Platform) (url rootPath : String)
    (assetMap : JS.JSMap File) (w : World) (response : Response)
    (hfetch : env.fetch url = .ok response) (hok : response.ok = false) :
    ∃ e : JS.JSError,
      Viewer.loadZipFile env url rootPath assetMap w
        = (Settlement.rejected (ErrorValue.error e), w.emit (Event.fetch url)) ∧
      Viewer.loadS3SignedUrlWithFetch env url rootPath assetMap w
        = (Settlement.rejected (ErrorValue.error e), w.emit (Event.fetch url)) ∧
      (toString response.status).data <:+: e.message.data := by
  refine ⟨Viewer.statusError response, ?_, ?_, Viewer.statusError_carries_status response⟩
  · simp [Viewer.loadZipFile, hfetch, hok, Viewer.catchHandler_statusError]
  · simp [Viewer.loadS3SignedUrlWithFetch, hfetch, hok, Viewer.catchHandler_statusError]

/-- C10 at a response with status 500. -/
theorem Viewer.fetch_status_rejection_witness :
    Sample.serverError.ok = false ∧
    ∃ e : JS.JSError,
      Viewer.loadZipFile (Sample.serving Sample.serverError []) "https://example.org/scene.zip"
          "" [] World.init
        = (Settlement.rejected (ErrorValue.error e),
            World.init.emit (Event.fetch "https://example.org/scene.zip")) ∧
      Viewer.loadS3SignedUrlWithFetch (Sample.serving Sample.serverError [])
          "https://example.org/scene.zip" "" [] World.init
        = (Settlement.rejected (ErrorValue.error e),
            World.init.emit (Event.fetch "https://example.org/scene.zip")) ∧
      (toString Sample.serverError.status).data <:+: e.message.data :=
  ⟨by decide,
    Viewer.fetch_status_rejection (Sample.serving Sample.serverError [])
      "https://example.org/scene.zip" "" [] World.init Sample.serverError (by rfl) (by decide)⟩

/-! ## Lemmas on the strategies and on the error messages -/

theorem Viewer.load_of_default (env : Platform) (url rootPath : String)
    (assetMap : JS.JSMap File) (w : World)
    (h : Viewer.strategy env.parseURL url = Viewer.Strategy.default) :
    Viewer.load env url rootPath assetMap w = Viewer.loadDefault env url rootPath assetMap w := by
  unfold Viewer.strategy at h
  by_cases hz : Viewer.isZipFile env.parseURL url = true
  · simp [hz] at h
  · by_cases hs : Viewer.isS3SignedUrl env.parseURL url = true
    · simp [hz, hs] at h
    · simp only [Viewer.load, Viewer.loadDefault, hz, hs]
      rfl

theorem Viewer.statusError_forbidden (response : Response) (h : response.status = 403) :
    Viewer.statusError response = JS.newError
      ("CORS_403: Access denied. The S3 bucket may not have CORS configured for your domain. Status: "
        ++ "403" ++ " " ++ response.statusText) := by
  have e : toString 403 = "403" := by decide
  simp [Viewer.statusError, h, e]

/-- The message of the status error of a 403 answer starts with `CORS_403`. -/
theorem Viewer.statusError_forbidden_starts (response : Response)
    (h : response.status = 403) :
    "CORS_403".data <+: (Viewer.statusError response).message.data := by
  rw [Viewer.statusError_forbidden response h]
  have e : "CORS_403: Access denied. The S3 bucket may not have CORS configured for your domain. Status: "
      = "CORS_403" ++ ": Access denied. The S3 bucket may not have CORS configured for your domain. Status: " := by
    decide
  rw [e]
  simp only [JS.newError, String.data_append, List.append_assoc]
  exact List.prefix_append _ _

theorem Response.not_ok_of_forbidden (response : Response) (h : response.status = 403) :
    response.ok = false := by
  simp [Response.ok, h]

theorem Viewer.loadS3SignedUrlWithFetch_of_status (env : Platform) (url rootPath : String)
    (assetMap : JS.JSMap File) (w : World) (response : Response)
    (hfetch : env.fetch url = .ok response) (hok : response.ok = false) :
    Viewer.loadS3SignedUrlWithFetch env url rootPath assetMap w
      = (Settlement.rejected (ErrorValue.error (Viewer.statusError response)),
          w.emit (Event.fetch url)) := by
  simp [Viewer.loadS3SignedUrlWithFetch, hfetch, hok, Viewer.catchHandler_statusError]

/-- When the loader reports a failure for the signed URL itself, the load is the run of the
explicit fetch phase from some later world. -/
theorem Viewer.loadS3SignedUrl_of_phase1_error (env : Platform) (url rootPath : String)
    (assetMap : JS.JSMap File) (w : World) (err : ErrorValue)
    (h : (env.gltfLoad url).result = .error err) :
    ∃ w1, Viewer.loadS3SignedUrl env url rootPath assetMap w
      = Viewer.loadS3SignedUrlWithFetch env url rootPath assetMap w1 := by
  unfold Viewer.loadS3SignedUrl Viewer.gltfLoaderLoad
  simp only [h]
  rcases Viewer.resolveRequests env (env.gltfLoad url).requests
      ((w.setURLModifier (Resolver.signedUrl (extractUrlBase url))).emit (Event.parse url)) []
    with ⟨r, w1, b1⟩
  cases r with
  | error e => exact ⟨w1, rfl⟩
  | ok u => exact ⟨w1, rfl⟩

theorem App.forbidden_message (statusText url : String)
    (h1 : ¬ "CORS_ERROR".data <:+: statusText.data)
    (h2 : ¬ "Failed to fetch".data <:+: statusText.data) :
    App.onS3UrlError (ErrorValue.error (JS.newError
      ("CORS_403: Access denied. The S3 bucket may not have CORS configured for your domain. Status: "
        ++ "403" ++ " " ++ statusText))) url
      = .ok ("Access Denied (403): The S3 bucket is blocking requests from your domain.\n\n"
        ++ "This is a CORS configuration issue. The bucket owner needs to add your domain to the CORS allowed origins.") := by
  rw [← JS.occursIn_iff] at h1 h2
  have hne : ("CORS_403: Access denied. The S3 bucket may not have CORS configured for your domain. Status: "
        ++ "403" ++ " " ++ statusText) ≠ "" := by
    intro h
    have := congrArg String.data h
    simp [String.data_append] at this
  have c1 : JS.includes ("CORS_403: Access denied. The S3 bucket may not have CORS configured for your domain. Status: "
        ++ "403" ++ " " ++ statusText) "CORS_ERROR" = false := by
    simp only [JS.includes, String.data_append]
    simp [JS.occursIn, List.isPrefixOf, h1]
  have c2 : JS.includes ("CORS_403: Access denied. The S3 bucket may not have CORS configured for your domain. Status: "
        ++ "403" ++ " " ++ statusText) "Failed to fetch" = false := by
    simp only [JS.includes, String.data_append]
    simp [JS.occursIn, List.isPrefixOf, h2]
  have c3 : JS.includes ("CORS_403: Access denied. The S3 bucket may not have CORS configured for your domain. Status: "
        ++ "403" ++ " " ++ statusText) "CORS_403" = true := by
    simp only [JS.includes, String.data_append]
    simp [JS.occursIn, List.isPrefixOf]
  simp only [App.onS3UrlError, App.rawMessage, JS.newError, if_neg hne, c1, c2, c3]
  rfl

theorem App.onS3UrlError_of_message (error : ErrorValue) (url m : String)
    (h : App.rawMessage error = .ok m) : ∃ msg, App.onS3UrlError error url = .ok msg := by
  unfold App.onS3UrlError
  rw [h]
  dsimp only
  split_ifs
  all_goals first
    | exact ⟨_, rfl⟩
    | (split <;> exact ⟨_, rfl⟩)

theorem Viewer.catchHandler_failed_to_fetch (corsMessage : String) (error : JS.JSError)
    (hname : error.name = "TypeError")
    (hmsg : "Failed to fetch".data <:+: error.message.data) :
    Viewer.catchHandler corsMessage error = ErrorValue.error (JS.newError corsMessage) := by
  rw [← JS.includes_iff] at hmsg
  simp [Viewer.catchHandler, hname, hmsg]

/-- The `.catch` handlers pass on every error that is not a `TypeError` whose message
contains `Failed to fetch`. -/
theorem Viewer.catchHandler_passes (corsMessage : String) (error : JS.JSError)
    (h : ¬ (error.name = "TypeError" ∧ "Failed to fetch".data <:+: error.message.data)) :
    Viewer.catchHandler corsMessage error = ErrorValue.error error := by
  rw [← JS.includes_iff] at h
  unfold Viewer.catchHandler
  rw [if_neg]
  simpa using h

/-! ## Error categories of the signed-URL fetch phase: C11, C12 -/

/-- C11, as stated, fails: with status 403 and the status text `Failed to fetch`, the
rejected error carries that text, and `App.onS3UrlError` matches `Failed to fetch` before it
looks for `CORS_403`, so the message shown is the CORS Error one. -/
theorem Viewer.signed_url_forbidden_status_text :
    Viewer.loadS3SignedUrlWithFetch (Sample.serving (Sample.forbidden "Failed to fetch") [])
        "https://bucket.s3.amazonaws.com/m.glb?Signature=x" "" [] World.init
      = (Settlement.rejected (ErrorValue.error (JS.newError
          "CORS_403: Access denied. The S3 bucket may not have CORS configured for your domain. Status: 403 Failed to fetch")),
          World.init.emit (Event.fetch "https://bucket.s3.amazonaws.com/m.glb?Signature=x")) ∧
    ∃ msg, App.onS3UrlError (ErrorValue.error (JS.newError
          "CORS_403: Access denied. The S3 bucket may not have CORS configured for your domain. Status: 403 Failed to fetch"))
          "https://bucket.s3.amazonaws.com/m.glb?Signature=x" = .ok msg ∧
      "CORS Error: Unable to load the glTF file".data <+: msg.data := by
  refine ⟨by rfl, _, rfl, ?_⟩
  exact ⟨_, rfl⟩

/-- C11, amended: when the explicit fetch of a signed-URL load answers with status 403 and
a status text that contains neither `CORS_ERROR` nor `Failed to fetch`, the fetch phase
rejects with an error whose message starts with `CORS_403` and contains `403`, the whole
load rejects with that error whenever the loader had reported a failure, and
`App.onS3UrlError` shows the Access Denied (403) message. -/
theorem Viewer.signed_url_forbidden (env : Platform) (url rootPath : String)
    (assetMap : JS.JSMap File) (w : World) (response : Response)
    (hfetch : env.fetch url = .ok response) (hstatus : response.status = 403)
    (h1 : ¬ "CORS_ERROR".data <:+: response.statusText.data)
    (h2 : ¬ "Failed to fetch".data <:+: response.statusText.data) :
    ∃ e : JS.JSError,
      Viewer.loadS3SignedUrlWithFetch env url rootPath assetMap w
        = (Settlement.rejected (ErrorValue.error e), w.emit (Event.fetch url)) ∧
      (∀ err, (env.gltfLoad url).result = .error err →
        (Viewer.loadS3SignedUrl env url rootPath assetMap w).1
          = Settlement.rejected (ErrorValue.error e)) ∧
      "CORS_403".data <+: e.message.data ∧
      "403".data <:+: e.message.data ∧
      App.onS3UrlError (ErrorValue.error e) url
        = .ok ("Access Denied (403): The S3 bucket is blocking requests from your domain.\n\n"
          ++ "This is a CORS configuration issue. The bucket owner needs to add your domain to the CORS allowed origins.") := by
  have hok := Response.not_ok_of_forbidden response hstatus
  refine ⟨Viewer.statusError response,
    Viewer.loadS3SignedUrlWithFetch_of_status env url rootPath assetMap w response hfetch hok,
    ?_, Viewer.statusError_forbidden_starts response hstatus, ?_, ?_⟩
  · intro err herr
    obtain ⟨w1, hw1⟩ := Viewer.loadS3SignedUrl_of_phase1_error env url rootPath assetMap w err herr
    rw [hw1, Viewer.loadS3SignedUrlWithFetch_of_status env url rootPath assetMap w1 response
      hfetch hok]
  · rw [Viewer.statusError_forbidden response hstatus]
    exact JS.template_contains _ _ _ _
  · rw [Viewer.statusError_forbidden response hstatus]
    exact App.forbidden_message response.statusText url h1 h2

/-- C11, amended, at a response `403 Forbidden`. -/
theorem Viewer.signed_url_forbidden_witness :
    ((Sample.forbidden "Forbidden").status = 403 ∧
      ¬ "CORS_ERROR".data <:+: (Sample.forbidden "Forbidden").statusText.data ∧
      ¬ "Failed to fetch".data <:+: (Sample.forbidden "Forbidden").statusText.data) ∧
    ∃ e : JS.JSError,
      Viewer.loadS3SignedUrlWithFetch (Sample.serving (Sample.forbidden "Forbidden") [])
          "https://bucket.s3.amazonaws.com/m.glb?Signature=x" "" [] World.init
        = (Settlement.rejected (ErrorValue.error e),
            World.init.emit (Event.fetch "https://bucket.s3.amazonaws.com/m.glb?Signature=x")) ∧
      (∀ err, ((Sample.serving (Sample.forbidden "Forbidden") []).gltfLoad
            "https://bucket.s3.amazonaws.com/m.glb?Signature=x").result = .error err →
        (Viewer.loadS3SignedUrl (Sample.serving (Sample.forbidden "Forbidden") [])
            "https://bucket.s3.amazonaws.com/m.glb?Signature=x" "" [] World.init).1
          = Settlement.rejected (ErrorValue.error e)) ∧
      "CORS_403".data <+: e.message.data ∧
      "403".data <:+: e.message.data ∧
      App.onS3UrlError (ErrorValue.error e) "https://bucket.s3.amazonaws.com/m.glb?Signature=x"
        = .ok ("Access Denied (403): The S3 bucket is blocking requests from your domain.\n\n"
          ++ "This is a CORS configuration issue. The bucket owner needs to add your domain to the CORS allowed origins.") :=
  ⟨⟨by rfl, by decide, by decide⟩,
    Viewer.signed_url_forbidden (Sample.serving (Sample.forbidden "Forbidden") [])
      "https://bucket.s3.amazonaws.com/m.glb?Signature=x" "" [] World.init
      (Sample.forbidden "Forbidden") (by rfl) (by rfl) (by decide) (by decide)⟩

/-- C12: when the explicit fetch answers with a success status and a content type that
contains `text/html`, `Viewer.loadS3SignedUrlWithFetch` rejects with the `HTML_RESPONSE`
error, for which `App.onS3UrlError` shows the Invalid Response message; the fetch is the only
step taken, so no object URL is created for the page and the loader is not called. -/
theorem Viewer.html_response_rejected (env : Platform) (url rootPath : String)
    (assetMap : JS.JSMap File) (w : World) (response : Response) (contentType : String)
    (hfetch : env.fetch url = .ok response) (hok : response.ok = true)
    (htype : response.contentType = some contentType)
    (hhtml : "text/html".data <:+: contentType.data) :
    Viewer.loadS3SignedUrlWithFetch env url rootPath assetMap w
      = (Settlement.rejected (ErrorValue.error (JS.newError
          "HTML_RESPONSE: Received HTML page instead of GLB file. The signed URL may be invalid or expired.")),
          w.emit (Event.fetch url)) ∧
    ∃ msg, App.onS3UrlError (ErrorValue.error (JS.newError
          "HTML_RESPONSE: Received HTML page instead of GLB file. The signed URL may be invalid or expired."))
          url = .ok msg ∧
      "Invalid Response: The server returned an HTML page instead of the ".data <+: msg.data := by
  rw [← JS.includes_iff] at hhtml
  constructor
  · simp [Viewer.loadS3SignedUrlWithFetch, hfetch, hok, htype, hhtml,
      Viewer.catchHandler_newError]
  · refine ⟨_, rfl, ?_⟩
    simp only [String.data_append, List.append_assoc]
    exact List.prefix_append _ _

/-- C12 at a response `200 OK` with content type `text/html; charset=utf-8`. -/
theorem Viewer.html_response_rejected_witness :
    (Sample.htmlPage.status = 200 ∧ Sample.htmlPage.ok = true ∧
      "text/html".data <:+: "text/html; charset=utf-8".data) ∧
    (Viewer.loadS3SignedUrlWithFetch (Sample.serving Sample.htmlPage [])
        "https://bucket.s3.amazonaws.com/m.glb?Signature=x" "" [] World.init
      = (Settlement.rejected (ErrorValue.error (JS.newError
          "HTML_RESPONSE: Received HTML page instead of GLB file. The signed URL may be invalid or expired.")),
          World.init.emit (Event.fetch "https://bucket.s3.amazonaws.com/m.glb?Signature=x")) ∧
    ∃ msg, App.onS3UrlError (ErrorValue.error (JS.newError
          "HTML_RESPONSE: Received HTML page instead of GLB file. The signed URL may be invalid or expired."))
          "https://bucket.s3.amazonaws.com/m.glb?Signature=x" = .ok msg ∧
      "Invalid Response: The server returned an HTML page instead of the ".data <+: msg.data) :=
  ⟨⟨by rfl, by decide, by decide⟩,
    Viewer.html_response_rejected (Sample.serving Sample.htmlPage [])
      "https://bucket.s3.amazonaws.com/m.glb?Signature=x" "" [] World.init Sample.htmlPage
      "text/html; charset=utf-8" (by rfl) (by decide) (by rfl) (by decide)⟩

/-! ## Classification of unparseable and plain URLs: C16, C17 -/

/-- C16: for a string the URL parser rejects, `Viewer.isZipFile` and `Viewer.isS3SignedUrl`
are both false, the branch selected by `Viewer.load` is the default one, and the load is the
run of the default strategy. -/
theorem Viewer.malformed_url_default (env : Platform) (url rootPath : String)
    (assetMap : JS.JSMap File) (w : World) (hparse : env.parseURL url = none) :
    Viewer.isZipFile env.parseURL url = false ∧
      Viewer.isS3SignedUrl env.parseURL url = false ∧
      Viewer.strategy env.parseURL url = Viewer.Strategy.default ∧
      Viewer.load env url rootPath assetMap w
        = Viewer.loadDefault env url rootPath assetMap w := by
  have hz : Viewer.isZipFile env.parseURL url = false := by simp [Viewer.isZipFile, hparse]
  have hs : Viewer.isS3SignedUrl env.parseURL url = false := by
    simp [Viewer.isS3SignedUrl, hparse]
  have hd : Viewer.strategy env.parseURL url = Viewer.Strategy.default := by
    simp [Viewer.strategy, hz, hs]
  exact ⟨hz, hs, hd, Viewer.load_of_default env url rootPath assetMap w hd⟩

/-- C16 at the relative reference `models/scene.zip?Signature=abc`, which the parser
rejects. -/
theorem Viewer.malformed_url_default_witness :
    Sample.offline.parseURL "models/scene.zip?Signature=abc" = none ∧
    (Viewer.isZipFile Sample.offline.parseURL "models/scene.zip?Signature=abc" = false ∧
      Viewer.isS3SignedUrl Sample.offline.parseURL "models/scene.zip?Signature=abc" = false ∧
      Viewer.strategy Sample.offline.parseURL "models/scene.zip?Signature=abc"
        = Viewer.Strategy.default ∧
      Viewer.load Sample.offline "models/scene.zip?Signature=abc" "" [] World.init
        = Viewer.loadDefault Sample.offline "models/scene.zip?Signature=abc" "" [] World.init) :=
  ⟨by rfl, Viewer.malformed_url_default Sample.offline "models/scene.zip?Signature=abc" "" []
    World.init (by rfl)⟩

/-- C17, as stated, fails: `https://example.org/models/scene.zip` has neither a storage host
nor a signature parameter, and `Viewer.load` takes the archive strategy for it. -/
theorem Viewer.plain_zip_url_is_archive :
    Sample.parserAt Sample.plainZipUrl Sample.plainZipRecord Sample.plainZipUrl
        = some Sample.plainZipRecord ∧
      ¬ MatchesStorageHost Sample.plainZipRecord.hostname ∧
      ¬ HasSignatureParam Sample.plainZipRecord ∧
      Viewer.strategy (Sample.parserAt Sample.plainZipUrl Sample.plainZipRecord)
        Sample.plainZipUrl = Viewer.Strategy.archive ∧
      Viewer.load (Sample.platform (Sample.parserAt Sample.plainZipUrl Sample.plainZipRecord))
          Sample.plainZipUrl "" [] World.init
        = Viewer.loadZipFile
            (Sample.platform (Sample.parserAt Sample.plainZipUrl Sample.plainZipRecord))
            Sample.plainZipUrl "" [] World.init := by
  refine ⟨by decide, ?_, ?_, by decide, by rfl⟩
  · unfold MatchesStorageHost
    rw [← JS.occursIn_iff, ← JS.occursIn_iff, ← JS.occursIn_iff]
    decide
  · simp [HasSignatureParam, Sample.plainZipRecord]

/-- For a reference the parser accepts, `Viewer.isS3SignedUrl` is the conjunction of the host
test and the parameter test. -/
theorem Viewer.isS3SignedUrl_of_parse (parseURL : URLParser) (url : String) (u : URLRecord)
    (hp : parseURL url = some u) :
    Viewer.isS3SignedUrl parseURL url = true ↔
      MatchesStorageHost u.hostname ∧ HasSignatureParam u := by
  simp only [Viewer.isS3SignedUrl, hp, Bool.and_eq_true, Bool.or_eq_true, JS.includes_iff,
    URLRecord.hasParam_iff, MatchesStorageHost, HasSignatureParam,
    List.mem_cons, List.mem_singleton, exists_eq_or_imp, exists_eq_left, List.not_mem_nil,
    false_and, exists_false, or_false, or_assoc]

/-- C17, amended: a URL that the parser accepts, whose host name is not a recognised storage
host or whose query has no recognised signature parameter, and whose path does not end in
`.zip` in any letter case, is routed to the default strategy: `Viewer.isZipFile` and
`Viewer.isS3SignedUrl` are both false for it, the branch selected by `Viewer.load` is the
default one, and the load is the run of the default strategy. -/
theorem Viewer.plain_url_default (env : Platform) (url rootPath : String)
    (assetMap : JS.JSMap File) (w : World) (u : URLRecord)
    (hparse : env.parseURL url = some u)
    (hplain : ¬ MatchesStorageHost u.hostname ∨ ¬ HasSignatureParam u)
    (hzip : ¬ EndsWithIgnoringCase u.pathname ".zip") :
    Viewer.isZipFile env.parseURL url = false ∧
      Viewer.isS3SignedUrl env.parseURL url = false ∧
      Viewer.strategy env.parseURL url = Viewer.Strategy.default ∧
      Viewer.load env url rootPath assetMap w
        = Viewer.loadDefault env url rootPath assetMap w := by
  have hz : Viewer.isZipFile env.parseURL url = false := by
    rw [← Bool.not_eq_true, Viewer.isZipFile_of_parse _ _ _ hparse,
      JS.endsWith_toLowerCase_iff _ _ (by decide)]
    exact hzip
  have hs : Viewer.isS3SignedUrl env.parseURL url = false := by
    rw [← Bool.not_eq_true, Viewer.isS3SignedUrl_of_parse _ _ _ hparse]
    rintro ⟨hhost, hsig⟩
    rcases hplain with h | h
    · exact h hhost
    · exact h hsig
  have hd : Viewer.strategy env.parseURL url = Viewer.Strategy.default := by
    simp [Viewer.strategy, hz, hs]
  exact ⟨hz, hs, hd, Viewer.load_of_default env url rootPath assetMap w hd⟩

/-- C17, amended, at a URL on a storage host without a signature parameter,
`https://bucket.s3.amazonaws.com/models/scene.glb`, at a URL with a signature parameter on
another host, `https://example.org/models/scene.glb?Signature=abc`, and at a URL with
neither, `https://example.org/models/scene.glb`. -/
theorem Viewer.plain_url_default_witness :
    ((MatchesStorageHost Sample.unsignedStorageRecord.hostname ∧
        ¬ HasSignatureParam Sample.unsignedStorageRecord ∧
        ¬ EndsWithIgnoringCase Sample.unsignedStorageRecord.pathname ".zip") ∧
      Viewer.isZipFile (Sample.parserAt Sample.unsignedStorageUrl Sample.unsignedStorageRecord)
        Sample.unsignedStorageUrl = false ∧
      Viewer.isS3SignedUrl
        (Sample.parserAt Sample.unsignedStorageUrl Sample.unsignedStorageRecord)
        Sample.unsignedStorageUrl = false ∧
      Viewer.strategy (Sample.parserAt Sample.unsignedStorageUrl Sample.unsignedStorageRecord)
        Sample.unsignedStorageUrl = Viewer.Strategy.default ∧
      Viewer.load
          (Sample.platform
            (Sample.parserAt Sample.unsignedStorageUrl Sample.unsignedStorageRecord))
          Sample.unsignedStorageUrl "" [] World.init
        = Viewer.loadDefault
            (Sample.platform
              (Sample.parserAt Sample.unsignedStorageUrl Sample.unsignedStorageRecord))
            Sample.unsignedStorageUrl "" [] World.init) ∧
    ((¬ MatchesStorageHost Sample.signedElsewhereRecord.hostname ∧
        HasSignatureParam Sample.signedElsewhereRecord ∧
        ¬ EndsWithIgnoringCase Sample.signedElsewhereRecord.pathname ".zip") ∧
      Viewer.isZipFile (Sample.parserAt Sample.signedElsewhereUrl Sample.signedElsewhereRecord)
        Sample.signedElsewhereUrl = false ∧
      Viewer.isS3SignedUrl
        (Sample.parserAt Sample.signedElsewhereUrl Sample.signedElsewhereRecord)
        Sample.signedElsewhereUrl = false ∧
      Viewer.strategy (Sample.parserAt Sample.signedElsewhereUrl Sample.signedElsewhereRecord)
        Sample.signedElsewhereUrl = Viewer.Strategy.default ∧
      Viewer.load
          (Sample.platform
            (Sample.parserAt Sample.signedElsewhereUrl Sample.signedElsewhereRecord))
          Sample.signedElsewhereUrl "" [] World.init
        = Viewer.loadDefault
            (Sample.platform
              (Sample.parserAt Sample.signedElsewhereUrl Sample.signedElsewhereRecord))
            Sample.signedElsewhereUrl "" [] World.init) ∧
    ((¬ MatchesStorageHost Sample.plainGlbRecord.hostname ∧
        ¬ HasSignatureParam Sample.plainGlbRecord ∧
        ¬ EndsWithIgnoringCase Sample.plainGlbRecord.pathname ".zip") ∧
      Viewer.isZipFile (Sample.parserAt Sample.plainGlbUrl Sample.plainGlbRecord)
        Sample.plainGlbUrl = false ∧
      Viewer.isS3SignedUrl (Sample.parserAt Sample.plainGlbUrl Sample.plainGlbRecord)
        Sample.plainGlbUrl = false ∧
      Viewer.strategy (Sample.parserAt Sample.plainGlbUrl Sample.plainGlbRecord)
        Sample.plainGlbUrl = Viewer.Strategy.default ∧
      Viewer.load (Sample.platform (Sample.parserAt Sample.plainGlbUrl Sample.plainGlbRecord))
          Sample.plainGlbUrl "" [] World.init
        = Viewer.loadDefault
            (Sample.platform (Sample.parserAt Sample.plainGlbUrl Sample.plainGlbRecord))
            Sample.plainGlbUrl "" [] World.init) := by
  have hstorage : MatchesStorageHost Sample.unsignedStorageRecord.hostname := by
    unfold MatchesStorageHost
    rw [← JS.occursIn_iff, ← JS.occursIn_iff, ← JS.occursIn_iff]
    decide
  have hunsigned : ¬ HasSignatureParam Sample.unsignedStorageRecord := by
    simp [HasSignatureParam, Sample.unsignedStorageRecord]
  have helsewhere : ¬ MatchesStorageHost Sample.signedElsewhereRecord.hostname := by
    unfold MatchesStorageHost
    rw [← JS.occursIn_iff, ← JS.occursIn_iff, ← JS.occursIn_iff]
    decide
  have hsigned : HasSignatureParam Sample.signedElsewhereRecord :=
    ⟨"Signature", by simp, "abc", by simp [Sample.signedElsewhereRecord]⟩
  have hhost : ¬ MatchesStorageHost Sample.plainGlbRecord.hostname := by
    unfold MatchesStorageHost
    rw [← JS.occursIn_iff, ← JS.occursIn_iff, ← JS.occursIn_iff]
    decide
  have hsig : ¬ HasSignatureParam Sample.plainGlbRecord := by
    simp [HasSignatureParam, Sample.plainGlbRecord]
  have hpath : ¬ EndsWithIgnoringCase "/models/scene.glb" ".zip" := by
    rw [← JS.endsWith_toLowerCase_iff _ _ (by decide)]
    decide
  exact ⟨⟨⟨hstorage, hunsigned, hpath⟩,
      Viewer.plain_url_default
        (Sample.platform
          (Sample.parserAt Sample.unsignedStorageUrl Sample.unsignedStorageRecord))
        Sample.unsignedStorageUrl "" [] World.init Sample.unsignedStorageRecord (by decide)
        (Or.inr hunsigned) hpath⟩,
    ⟨⟨helsewhere, hsigned, hpath⟩,
      Viewer.plain_url_default
        (Sample.platform
          (Sample.parserAt Sample.signedElsewhereUrl Sample.signedElsewhereRecord))
        Sample.signedElsewhereUrl "" [] World.init Sample.signedElsewhereRecord (by decide)
        (Or.inl helsewhere) hpath⟩,
    ⟨⟨hhost, hsig, hpath⟩,
      Viewer.plain_url_default
        (Sample.platform (Sample.parserAt Sample.plainGlbUrl Sample.plainGlbRecord))
        Sample.plainGlbUrl "" [] World.init Sample.plainGlbRecord (by decide)
        (Or.inl hhost) hpath⟩⟩

/-! ## The error classifier: C18, C19 -/

/-- C18 fails on the code: for the raw error values `null` and `undefined`, the expression
`(error || {}).message || error.toString()` of `App.onS3UrlError` throws a `TypeError`
and no message is produced, whatever the URL.  For every `Error` object, also with an empty
message, and for every object without a message, a message is produced. -/
theorem App.onS3UrlError_throws_on_null (url : String) :
    App.onS3UrlError ErrorValue.null url
        = .error (JS.typeError "Cannot read properties of null") ∧
      App.onS3UrlError ErrorValue.undefined url
        = .error (JS.typeError "Cannot read properties of undefined") ∧
      (∀ e : JS.JSError, ∃ msg, App.onS3UrlError (ErrorValue.error e) url = .ok msg) ∧
      (∀ tag src, ∃ msg, App.onS3UrlError (ErrorValue.event tag src) url = .ok msg) := by
  refine ⟨rfl, rfl, ?_, ?_⟩
  · intro e
    by_cases hm : e.message = ""
    · exact App.onS3UrlError_of_message _ url e.name (by simp [App.rawMessage, hm])
    · exact App.onS3UrlError_of_message _ url e.message (by simp [App.rawMessage, hm])
  · intro tag src
    exact App.onS3UrlError_of_message _ url _ rfl

/-- C19, as stated, fails: when the fetch rejects with the `TypeError` of another browser,
`NetworkError when attempting to fetch resource.`, both loads reject with that very error,
not with `CORS_ERROR`, and `App.onS3UrlError` shows its raw message. -/
theorem Viewer.fetch_rejection_other_message :
    Viewer.loadZipFile
        (Sample.failing (JS.typeError "NetworkError when attempting to fetch resource."))
        "https://example.org/scene.zip" "" [] World.init
      = (Settlement.rejected
          (ErrorValue.error (JS.typeError "NetworkError when attempting to fetch resource.")),
          World.init.emit (Event.fetch "https://example.org/scene.zip")) ∧
    Viewer.loadS3SignedUrlWithFetch
        (Sample.failing (JS.typeError "NetworkError when attempting to fetch resource."))
        "https://example.org/scene.zip" "" [] World.init
      = (Settlement.rejected
          (ErrorValue.error (JS.typeError "NetworkError when attempting to fetch resource.")),
          World.init.emit (Event.fetch "https://example.org/scene.zip")) ∧
    App.onS3UrlError
        (ErrorValue.error (JS.typeError "NetworkError when attempting to fetch resource."))
        "https://example.org/scene.zip"
      = .ok "NetworkError when attempting to fetch resource." :=
  ⟨by rfl, by rfl, by rfl⟩

/-- C19, amended: when the fetch of `Viewer.loadZipFile` or of
`Viewer.loadS3SignedUrlWithFetch` rejects with a `TypeError` whose message contains
`Failed to fetch`, the load rejects with its `CORS_ERROR` error, and `App.onS3UrlError`
shows the CORS Error message for it; when the fetch rejects with any other name or message,
both loads reject with the error of the fetch, unchanged. -/
theorem Viewer.fetch_rejection_cors (env : Platform) (url rootPath : String)
    (assetMap : JS.JSMap File) (w : World) (error : JS.JSError)
    (hfetch : env.fetch url = .error error) :
    (error.name = "TypeError" ∧ "Failed to fetch".data <:+: error.message.data →
      Viewer.loadZipFile env url rootPath assetMap w
          = (Settlement.rejected (ErrorValue.error (JS.newError
              "CORS_ERROR: Failed to fetch the ZIP file. This is likely a CORS issue. The S3 bucket needs to be configured to allow requests from your domain.")),
            w.emit (Event.fetch url)) ∧
        Viewer.loadS3SignedUrlWithFetch env url rootPath assetMap w
          = (Settlement.rejected (ErrorValue.error (JS.newError
              "CORS_ERROR: Failed to fetch the file. This is likely a CORS issue. The S3 bucket needs to be configured to allow requests from your domain.")),
            w.emit (Event.fetch url)) ∧
        (∃ msg, App.onS3UrlError (ErrorValue.error (JS.newError
              "CORS_ERROR: Failed to fetch the ZIP file. This is likely a CORS issue. The S3 bucket needs to be configured to allow requests from your domain.")) url = .ok msg ∧
          "CORS Error: Unable to load the ".data <+: msg.data) ∧
        (∃ msg, App.onS3UrlError (ErrorValue.error (JS.newError
              "CORS_ERROR: Failed to fetch the file. This is likely a CORS issue. The S3 bucket needs to be configured to allow requests from your domain.")) url = .ok msg ∧
          "CORS Error: Unable to load the ".data <+: msg.data)) ∧
      (¬ (error.name = "TypeError" ∧ "Failed to fetch".data <:+: error.message.data) →
        Viewer.loadZipFile env url rootPath assetMap w
            = (Settlement.rejected (ErrorValue.error error), w.emit (Event.fetch url)) ∧
          Viewer.loadS3SignedUrlWithFetch env url rootPath assetMap w
            = (Settlement.rejected (ErrorValue.error error), w.emit (Event.fetch url))) := by
  refine ⟨fun h => ⟨?_, ?_, ?_, ?_⟩, fun h => ⟨?_, ?_⟩⟩
  · simp only [Viewer.loadZipFile, hfetch,
      Viewer.catchHandler_failed_to_fetch _ error h.1 h.2]
  · simp only [Viewer.loadS3SignedUrlWithFetch, hfetch,
      Viewer.catchHandler_failed_to_fetch _ error h.1 h.2]
  · refine ⟨_, rfl, ?_⟩
    simp only [String.data_append, List.append_assoc]
    exact List.prefix_append _ _
  · refine ⟨_, rfl, ?_⟩
    simp only [String.data_append, List.append_assoc]
    exact List.prefix_append _ _
  · simp only [Viewer.loadZipFile, hfetch, Viewer.catchHandler_passes _ error h]
  · simp only [Viewer.loadS3SignedUrlWithFetch, hfetch, Viewer.catchHandler_passes _ error h]

/-- C19, amended, at the rejection `TypeError: Failed to fetch`, which becomes `CORS_ERROR`,
and at the rejection `TypeError: Load failed`, which is passed on. -/
theorem Viewer.fetch_rejection_cors_witness :
    (((JS.typeError "Failed to fetch").name = "TypeError" ∧
        "Failed to fetch".data <:+: (JS.typeError "Failed to fetch").message.data) ∧
      Viewer.loadZipFile (Sample.failing (JS.typeError "Failed to fetch"))
          "https://example.org/scene.zip" "" [] World.init
        = (Settlement.rejected (ErrorValue.error (JS.newError
            "CORS_ERROR: Failed to fetch the ZIP file. This is likely a CORS issue. The S3 bucket needs to be configured to allow requests from your domain.")),
          World.init.emit (Event.fetch "https://example.org/scene.zip")) ∧
      Viewer.loadS3SignedUrlWithFetch (Sample.failing (JS.typeError "Failed to fetch"))
          "https://example.org/scene.zip" "" [] World.init
        = (Settlement.rejected (ErrorValue.error (JS.newError
            "CORS_ERROR: Failed to fetch the file. This is likely a CORS issue. The S3 bucket needs to be configured to allow requests from your domain.")),
          World.init.emit (Event.fetch "https://example.org/scene.zip")) ∧
      (∃ msg, App.onS3UrlError (ErrorValue.error (JS.newError
            "CORS_ERROR: Failed to fetch the ZIP file. This is likely a CORS issue. The S3 bucket needs to be configured to allow requests from your domain."))
            "https://example.org/scene.zip" = .ok msg ∧
        "CORS Error: Unable to load the ".data <+: msg.data) ∧
      (∃ msg, App.onS3UrlError (ErrorValue.error (JS.newError
            "CORS_ERROR: Failed to fetch the file. This is likely a CORS issue. The S3 bucket needs to be configured to allow requests from your domain."))
            "https://example.org/scene.zip" = .ok msg ∧
        "CORS Error: Unable to load the ".data <+: msg.data)) ∧
    (¬ ((JS.typeError "Load failed").name = "TypeError" ∧
        "Failed to fetch".data <:+: (JS.typeError "Load failed").message.data) ∧
      Viewer.loadZipFile (Sample.failing (JS.typeError "Load failed"))
          "https://example.org/scene.zip" "" [] World.init
        = (Settlement.rejected (ErrorValue.error (JS.typeError "Load failed")),
          World.init.emit (Event.fetch "https://example.org/scene.zip")) ∧
      Viewer.loadS3SignedUrlWithFetch (Sample.failing (JS.typeError "Load failed"))
          "https://example.org/scene.zip" "" [] World.init
        = (Settlement.rejected (ErrorValue.error (JS.typeError "Load failed")),
          World.init.emit (Event.fetch "https://example.org/scene.zip"))) :=
  ⟨⟨⟨by rfl, by decide⟩,
      (Viewer.fetch_rejection_cors (Sample.failing (JS.typeError "Failed to fetch"))
        "https://example.org/scene.zip" "" [] World.init (JS.typeError "Failed to fetch")
        (by rfl)).1 ⟨by rfl, by decide⟩⟩,
    ⟨fun h => absurd h.2 (by decide),
      (Viewer.fetch_rejection_cors (Sample.failing (JS.typeError "Load failed"))
        "https://example.org/scene.zip" "" [] World.init (JS.typeError "Load failed")
        (by rfl)).2 (fun h => absurd h.2 (by decide))⟩⟩

/-! ## Lemmas on the event log of a load -/

theorem World.QuietStep.refl (w : World) : World.QuietStep w w :=
  ⟨rfl, [], by simp, by simp⟩

theorem World.QuietStep.trans {a b c : World} (h1 : World.QuietStep a b)
    (h2 : World.QuietStep b c) : World.QuietStep a c := by
  obtain ⟨m1, e1, l1, q1⟩ := h1
  obtain ⟨m2, e2, l2, q2⟩ := h2
  refine ⟨m2.trans m1, e1 ++ e2, by rw [l2, l1, List.append_assoc], ?_⟩
  intro e he
  rcases List.mem_append.1 he with h | h
  · exact q1 e h
  · exact q2 e h

theorem World.quietStep_emit (w : World) (e : Event) (h : e.quiet = true) :
    World.QuietStep w (w.emit e) :=
  ⟨rfl, [e], rfl, by simpa using h⟩

theorem World.quietStep_createObjectURL (w : World) (b : Blob) :
    World.QuietStep w (w.createObjectURL b).2 :=
  ⟨rfl, [Event.createObjectURL (w.createObjectURL b).1], rfl, by simp [Event.quiet]⟩

theorem World.quietStep_revokeObjectURL (w : World) (url : String) :
    World.QuietStep w (w.revokeObjectURL url) :=
  ⟨rfl, [Event.revokeObjectURL url], rfl, by simp [Event.quiet]⟩

theorem World.quietStep_revokeAll (w : World) (urls : List String) :
    World.QuietStep w (w.revokeAll urls) := by
  induction urls generalizing w with
  | nil => exact World.QuietStep.refl w
  | cons u us ih =>
    exact (World.quietStep_revokeObjectURL w u).trans (ih (w.revokeObjectURL u))

theorem Viewer.quietStep_applyResolver (env : Platform) (r : Resolver) (url : String)
    (path : Option String) (w : World) (blobURLs : List String) :
    World.QuietStep w (Viewer.applyResolver env r url path w blobURLs).2.1 := by
  unfold Viewer.applyResolver
  cases r with
  | default rootPath baseURL assetMap =>
    dsimp only
    split
    · exact World.QuietStep.refl w
    · split
      · exact World.quietStep_createObjectURL w _
      · exact World.QuietStep.refl w
  | signedUrl baseURL =>
    dsimp only
    split
    · split <;> exact World.QuietStep.refl w
    · exact World.QuietStep.refl w
  | archive extractedFiles =>
    dsimp only
    split
    · exact World.QuietStep.refl w
    · split
      · exact World.quietStep_createObjectURL w _
      · split
        · exact World.quietStep_createObjectURL w _
        · exact World.QuietStep.refl w

theorem Viewer.quietStep_resolveRequests (env : Platform) (refs : List String) (w : World)
    (blobURLs : List String) :
    World.QuietStep w (Viewer.resolveRequests env refs w blobURLs).2.1 := by
  induction refs generalizing w blobURLs with
  | nil => exact World.QuietStep.refl w
  | cons ref refs ih =>
    unfold Viewer.resolveRequests
    split
    · exact ih w blobURLs
    · rename_i r hr
      have hstep := Viewer.quietStep_applyResolver env r ref none w blobURLs
      split
      · rename_i u w1 b1 heq
        rw [heq] at hstep
        exact hstep.trans (ih w1 b1)
      · rename_i e w1 b1 heq
        rw [heq] at hstep
        exact hstep

/-- A call of the loader whose callbacks are quiet: the loader call is logged, followed by
quiet events, and the URL modifier stays. -/
theorem Viewer.gltfLoaderLoad_quiet (env : Platform) (url : String)
    (onLoad : GLTF → World → List String → Except JS.JSError (Settlement × World))
    (onError : ErrorValue → World → List String → Settlement × World)
    (hLoad : ∀ gltf w b r, onLoad gltf w b = .ok r → World.QuietStep w r.2)
    (hError : ∀ e w b, World.QuietStep w (onError e w b).2)
    (w : World) (blobURLs : List String) :
    (Viewer.gltfLoaderLoad env url onLoad onError w blobURLs).2.urlModifier = w.urlModifier ∧
      ∃ evs, (Viewer.gltfLoaderLoad env url onLoad onError w blobURLs).2.log
          = w.log ++ Event.parse url :: evs ∧ ∀ e ∈ evs, e.quiet = true := by
  have key : World.QuietStep (w.emit (Event.parse url))
      (Viewer.gltfLoaderLoad env url onLoad onError w blobURLs).2 := by
    unfold Viewer.gltfLoaderLoad
    have hres := Viewer.quietStep_resolveRequests env (env.gltfLoad url).requests
      (w.emit (Event.parse url)) blobURLs
    dsimp only
    split
    · rename_i e w1 b1 heq
      rw [heq] at hres
      exact hres.trans (hError _ w1 b1)
    · rename_i u w1 b1 heq
      rw [heq] at hres
      split
      · exact hres.trans (hError _ w1 b1)
      · split
        · rename_i r hr
          exact hres.trans (hLoad _ _ _ _ hr)
        · exact hres.trans (hError _ w1 b1)
  obtain ⟨hm, evs, hl, hq⟩ := key
  refine ⟨hm, evs, ?_, hq⟩
  rw [hl]
  simp [World.emit]

theorem Viewer.quietStep_startExtraction (zip : List ZipEntry) (w : World) :
    World.QuietStep w (Viewer.startExtraction zip w) := by
  unfold Viewer.startExtraction
  generalize zip.filter (fun e => !e.dir) = l
  induction l generalizing w with
  | nil => exact World.QuietStep.refl w
  | cons e es ih =>
    exact (World.quietStep_emit w (Event.extract e.name) rfl).trans (ih _)

theorem Viewer.quietStep_storeExtracted (zip : List ZipEntry) (w : World)
    (files : JS.JSMap File) (blobURLs : List String) :
    World.QuietStep w (Viewer.storeExtracted zip w files blobURLs).1 := by
  induction zip generalizing w files blobURLs with
  | nil => exact World.QuietStep.refl w
  | cons e es ih =>
    unfold Viewer.storeExtracted
    split
    · exact ih w files blobURLs
    · split
      · exact (World.quietStep_createObjectURL w _).trans (ih _ _ _)
      · exact ih w files blobURLs

/-- The extracted-files map depends on the archive only. -/
theorem Viewer.storeExtracted_files (zip : List ZipEntry) (w w' : World)
    (files : JS.JSMap File) (blobURLs blobURLs' : List String) :
    (Viewer.storeExtracted zip w files blobURLs).2.1
      = (Viewer.storeExtracted zip w' files blobURLs').2.1 := by
  induction zip generalizing w w' files blobURLs blobURLs' with
  | nil => rfl
  | cons e es ih =>
    unfold Viewer.storeExtracted
    split
    · exact ih _ _ _ _ _
    · split
      · exact ih _ _ _ _ _
      · exact ih _ _ _ _ _

theorem loaderCalls_quiet (current : Option Resolver) (q rest : List Event)
    (hq : ∀ e ∈ q, e.quiet = true) :
    loaderCalls current (q ++ rest) = loaderCalls current rest := by
  induction q with
  | nil => rfl
  | cons e es ih =>
    have he : e.quiet = true := hq e (List.mem_cons_self _ _)
    have hes : ∀ e ∈ es, e.quiet = true := fun x hx => hq x (List.mem_cons_of_mem _ hx)
    cases e <;> simp_all [loaderCalls, Event.quiet]

theorem loaderCalls_of_quiet (current : Option Resolver) (q : List Event)
    (hq : ∀ e ∈ q, e.quiet = true) : loaderCalls current q = [] := by
  have := loaderCalls_quiet current q [] hq
  simpa [loaderCalls] using this

theorem loaderCalls_installThenParse (own : Resolver → Prop) (current : Option Resolver)
    (evs : List Event) (h : InstallThenParse own evs) :
    ∀ p ∈ loaderCalls current evs, ∃ r, p.2 = some r ∧ own r := by
  obtain ⟨q1, tail, rfl, hq1, htail⟩ := h
  rw [loaderCalls_quiet _ _ _ hq1]
  rcases htail with rfl | ⟨r, url, q2, hown, rfl, hq2⟩
  · simp [loaderCalls]
  · intro p hp
    simp only [loaderCalls, loaderCalls_of_quiet _ _ hq2, List.mem_singleton] at hp
    exact ⟨r, by rw [hp], hown⟩

theorem Viewer.signedFetchSettled_of_error (env : Platform) (url : String) (e : JS.JSError)
    (w : World) : (Viewer.signedFetchSettled env url (.error e) w).2 = w := rfl

theorem Viewer.signedFetchSettled_of_status (env : Platform) (url : String)
    (response : Response) (w : World) (hok : response.ok = false) :
    (Viewer.signedFetchSettled env url (.ok response) w).2 = w := by
  simp [Viewer.signedFetchSettled, hok]

theorem Viewer.signedFetchSettled_of_html (env : Platform) (url : String)
    (response : Response) (w : World) (ct : String) (hok : response.ok = true)
    (hct : response.contentType = some ct) (hhtml : JS.includes ct "text/html" = true) :
    (Viewer.signedFetchSettled env url (.ok response) w).2 = w := by
  simp [Viewer.signedFetchSettled, hok, hct, hhtml]

theorem Viewer.signedFetchSettled_of_body (env : Platform) (url : String)
    (response : Response) (w : World) (hok : response.ok = true)
    (hhtml : ∀ ct, response.contentType = some ct → JS.includes ct "text/html" = false) :
    Viewer.signedFetchSettled env url (.ok response) w
      = Viewer.gltfLoaderLoad env (w.createObjectURL response.body).1
          (Viewer.signedOnLoad (w.createObjectURL response.body).1)
          (Viewer.signedOnError (w.createObjectURL response.body).1)
          ((w.createObjectURL response.body).2.setURLModifier
            (Resolver.signedUrl (extractUrlBase url))) [] := by
  cases hct : response.contentType with
  | none =>
    simp only [Viewer.signedFetchSettled, hok, hct]
    rfl
  | some ct =>
    simp only [Viewer.signedFetchSettled, hok, hct, hhtml ct hct]
    rfl

theorem Viewer.signedOnLoad_quiet (blobURL : String) (gltf : GLTF) (w : World)
    (b : List String) (r : Settlement × World)
    (h : Viewer.signedOnLoad blobURL gltf w b = .ok r) : World.QuietStep w r.2 := by
  unfold Viewer.signedOnLoad at h
  split at h
  · cases h
  · cases h
    exact (World.quietStep_emit w (Event.setContent _) rfl).trans (World.quietStep_revokeObjectURL _ _)

theorem Viewer.revokingOnLoad_quiet (gltf : GLTF) (w : World)
    (b : List String) (r : Settlement × World)
    (h : Viewer.revokingOnLoad gltf w b = .ok r) : World.QuietStep w r.2 := by
  unfold Viewer.revokingOnLoad at h
  split at h
  · cases h
  · cases h
    exact (World.quietStep_emit w (Event.setContent _) rfl).trans (World.quietStep_revokeAll _ _)

/-- The log of the signed-URL fetch chain. -/
theorem Viewer.signedFetchSettled_log (env : Platform) (url : String)
    (outcome : Except JS.JSError Response) (w : World) :
    ∃ evs, (Viewer.signedFetchSettled env url outcome w).2.log = w.log ++ evs ∧
      InstallThenParse (fun r => r = Resolver.signedUrl (extractUrlBase url)) evs := by
  have hnone : ∀ w1 : World, w1 = w → ∃ evs, w1.log = w.log ++ evs ∧
      InstallThenParse (fun r => r = Resolver.signedUrl (extractUrlBase url)) evs := by
    rintro w1 rfl
    exact ⟨[], by simp, [], [], rfl, by simp, Or.inl rfl⟩
  cases outcome with
  | error e => exact hnone _ rfl
  | ok response =>
    by_cases hok : response.ok = true
    · by_cases hhtml : ∀ ct, response.contentType = some ct → JS.includes ct "text/html" = false
      · rw [Viewer.signedFetchSettled_of_body env url response w hok hhtml]
        obtain ⟨_, evs, hl, hq⟩ := Viewer.gltfLoaderLoad_quiet env
          (w.createObjectURL response.body).1
          (Viewer.signedOnLoad (w.createObjectURL response.body).1)
          (Viewer.signedOnError (w.createObjectURL response.body).1)
          (Viewer.signedOnLoad_quiet _)
          (fun e w b => World.quietStep_revokeObjectURL w _)
          ((w.createObjectURL response.body).2.setURLModifier
            (Resolver.signedUrl (extractUrlBase url))) []
        refine ⟨Event.createObjectURL (w.createObjectURL response.body).1 ::
          Event.setURLModifier (Resolver.signedUrl (extractUrlBase url)) ::
          Event.parse (w.createObjectURL response.body).1 :: evs, ?_, ?_⟩
        · rw [hl]
          simp [World.setURLModifier, World.createObjectURL]
        · exact ⟨[Event.createObjectURL (w.createObjectURL response.body).1], _, rfl,
            by simp [Event.quiet], Or.inr ⟨_, _, evs, rfl, rfl, hq⟩⟩
      · push_neg at hhtml
        obtain ⟨ct, hct, hinc⟩ := hhtml
        exact hnone _ (Viewer.signedFetchSettled_of_html env url response w ct hok hct
          (by simpa using hinc))
    · exact hnone _ (Viewer.signedFetchSettled_of_status env url response w
        (by simpa using hok))

theorem InstallThenParse.cons_quiet {own : Resolver → Prop} {evs : List Event} (e : Event)
    (he : e.quiet = true) (h : InstallThenParse own evs) : InstallThenParse own (e :: evs) := by
  obtain ⟨q1, tail, rfl, hq1, htail⟩ := h
  refine ⟨e :: q1, tail, rfl, ?_, htail⟩
  intro x hx
  rcases List.mem_cons.1 hx with rfl | hx
  · exact he
  · exact hq1 x hx

theorem InstallThenParse.append_quiet {own : Resolver → Prop} {evs : List Event}
    (q : List Event) (hq : ∀ e ∈ q, e.quiet = true) (h : InstallThenParse own evs) :
    InstallThenParse own (q ++ evs) := by
  induction q with
  | nil => exact h
  | cons e es ih =>
    exact InstallThenParse.cons_quiet e (hq e (List.mem_cons_self _ _))
      (ih (fun x hx => hq x (List.mem_cons_of_mem _ hx)))

theorem InstallThenParse.of_quiet {own : Resolver → Prop} (q : List Event)
    (hq : ∀ e ∈ q, e.quiet = true) : InstallThenParse own q :=
  ⟨q, [], by simp, hq, Or.inl rfl⟩

/-- A quiet step seen as a log extension of the shape of one fetch chain. -/
theorem World.QuietStep.installThenParse {w w1 : World} (own : Resolver → Prop)
    (h : World.QuietStep w w1) :
    ∃ evs, w1.log = w.log ++ evs ∧ InstallThenParse own evs := by
  obtain ⟨_, evs, hl, hq⟩ := h
  exact ⟨evs, hl, InstallThenParse.of_quiet evs hq⟩

/-- The log of the archive callback. -/
theorem Viewer.loadZipEntries_log (env : Platform) (zip : List ZipEntry) (w : World) :
    ∃ evs, (Viewer.loadZipEntries env zip w).2.log = w.log ++ evs ∧
      InstallThenParse
        (fun r => r = Resolver.archive (Viewer.storeExtracted zip World.init [] []).2.1) evs := by
  rw [Viewer.loadZipEntries_unfold]
  split
  · exact (World.QuietStep.refl w).installThenParse _
  · rename_i mainGltfFile rest hmain
    have hfiles := Viewer.storeExtracted_files zip (Viewer.startExtraction zip w) World.init
      [] [] []
    have hpre := (Viewer.quietStep_startExtraction zip w).trans
      (Viewer.quietStep_storeExtracted zip (Viewer.startExtraction zip w) [] [])
    dsimp only
    generalize Viewer.storeExtracted zip (Viewer.startExtraction zip w) [] [] = st
      at hpre hfiles ⊢
    obtain ⟨w2, extractedFiles, blobURLs⟩ := st
    dsimp only at hpre hfiles ⊢
    split
    · exact hpre.installThenParse _
    · split
      · exact hpre.installThenParse _
      · rename_i mainGltfBlob hget
        obtain ⟨_, evs, hl, hq⟩ := Viewer.gltfLoaderLoad_quiet env
          (w2.createObjectURL mainGltfBlob.blob).1
          (fun gltf w blobURLs =>
            match Viewer.pickScene gltf with
            | none => .error Viewer.noSceneError
            | some scene =>
              .ok (Settlement.resolved gltf,
                (w.emit (Event.setContent scene)).revokeAll blobURLs))
          (fun error w blobURLs => (Settlement.rejected error, w.revokeAll blobURLs))
          (Viewer.revokingOnLoad_quiet)
          (fun e w b => World.quietStep_revokeAll w b)
          ((w2.createObjectURL mainGltfBlob.blob).2.setURLModifier
            (Resolver.archive extractedFiles))
          (blobURLs ++ [(w2.createObjectURL mainGltfBlob.blob).1])
        obtain ⟨_, q1, hq1l, hq1⟩ := hpre
        refine ⟨q1 ++ (Event.createObjectURL (w2.createObjectURL mainGltfBlob.blob).1 ::
          Event.setURLModifier (Resolver.archive extractedFiles) ::
          Event.parse (w2.createObjectURL mainGltfBlob.blob).1 :: evs), ?_, ?_⟩
        · refine hl.trans ?_
          simp [World.setURLModifier, World.createObjectURL, hq1l]
        · apply InstallThenParse.append_quiet q1 hq1
          exact ⟨[Event.createObjectURL (w2.createObjectURL mainGltfBlob.blob).1], _, rfl,
            by simp [Event.quiet], Or.inr ⟨_, _, evs, by rw [hfiles], rfl, hq⟩⟩

/-- The log of the archive fetch chain. -/
theorem Viewer.zipFetchSettled_log (env : Platform) (outcome : Except JS.JSError Response)
    (w : World) :
    (∀ e, outcome = .error e → (Viewer.zipFetchSettled env outcome w).2 = w) ∧
    (∀ response, outcome = .ok response → response.ok = false →
      (Viewer.zipFetchSettled env outcome w).2 = w) ∧
    (∀ response e, outcome = .ok response → response.ok = true →
      env.loadAsync response.body = .error e →
      (Viewer.zipFetchSettled env outcome w).2 = w.emit Event.loadAsync) ∧
    (∀ response zip, outcome = .ok response → response.ok = true →
      env.loadAsync response.body = .ok zip →
      (Viewer.zipFetchSettled env outcome w).2
        = (Viewer.loadZipEntries env zip (w.emit Event.loadAsync)).2) := by
  refine ⟨?_, ?_, ?_, ?_⟩
  · rintro e rfl
    rfl
  · rintro response rfl hok
    simp [Viewer.zipFetchSettled, hok]
  · rintro response e rfl hok hzip
    simp [Viewer.zipFetchSettled, hok, hzip]
  · rintro response zip rfl hok hzip
    simp only [Viewer.zipFetchSettled, hok, hzip]
    rcases Viewer.loadZipEntries env zip (w.emit Event.loadAsync) with ⟨r, w2⟩
    cases r <;> rfl

/-- The events of `Viewer.loadZipFile`. -/
theorem Viewer.loadZipFile_log (env : Platform) (url rootPath : String)
    (assetMap : JS.JSMap File) (w : World) :
    ∃ evs, (Viewer.loadZipFile env url rootPath assetMap w).2.log = w.log ++ evs ∧
      InstallThenParse (fun r => ∃ response zip, env.fetch url = .ok response ∧
        env.loadAsync response.body = .ok zip ∧
        r = Resolver.archive (Viewer.storeExtracted zip World.init [] []).2.1) evs := by
  have hrun : Viewer.loadZipFile env url rootPath assetMap w
      = Viewer.zipFetchSettled env (env.fetch url) (w.emit (Event.fetch url)) := rfl
  rw [hrun]
  obtain ⟨h1, h2, h3, h4⟩ := Viewer.zipFetchSettled_log env (env.fetch url)
    (w.emit (Event.fetch url))
  cases hf : env.fetch url with
  | error e =>
    rw [hf] at h1
    rw [h1 e rfl]
    exact ⟨[Event.fetch url], rfl, InstallThenParse.of_quiet _ (by simp [Event.quiet])⟩
  | ok response =>
    rw [hf] at h2 h3 h4
    by_cases hok : response.ok = true
    · cases hz : env.loadAsync response.body with
      | error e =>
        rw [h3 response e rfl hok hz]
        exact ⟨[Event.fetch url, Event.loadAsync], by simp [World.emit],
          InstallThenParse.of_quiet _ (by simp [Event.quiet])⟩
      | ok zip =>
        rw [h4 response zip rfl hok hz]
        obtain ⟨evs, hl, hshape⟩ := Viewer.loadZipEntries_log env zip
          ((w.emit (Event.fetch url)).emit Event.loadAsync)
        refine ⟨Event.fetch url :: Event.loadAsync :: evs, by rw [hl]; simp [World.emit], ?_⟩
        apply InstallThenParse.cons_quiet (Event.fetch url) rfl
        apply InstallThenParse.cons_quiet Event.loadAsync rfl
        obtain ⟨q1, tail, rfl, hq1, htail⟩ := hshape
        refine ⟨q1, tail, rfl, hq1, ?_⟩
        rcases htail with rfl | ⟨r, u, q2, hr, rfl, hq2⟩
        · exact Or.inl rfl
        · exact Or.inr ⟨r, u, q2, ⟨response, zip, rfl, hz, hr⟩, rfl, hq2⟩
    · rw [h2 response rfl (by simpa using hok)]
      exact ⟨[Event.fetch url], rfl, InstallThenParse.of_quiet _ (by simp [Event.quiet])⟩

/-- The events of `Viewer.loadS3SignedUrlWithFetch`. -/
theorem Viewer.loadS3SignedUrlWithFetch_log (env : Platform) (url rootPath : String)
    (assetMap : JS.JSMap File) (w : World) :
    ∃ evs, (Viewer.loadS3SignedUrlWithFetch env url rootPath assetMap w).2.log = w.log ++ evs ∧
      InstallThenParse (fun r => r = Resolver.signedUrl (extractUrlBase url)) evs := by
  have hrun : Viewer.loadS3SignedUrlWithFetch env url rootPath assetMap w
      = Viewer.signedFetchSettled env url (env.fetch url) (w.emit (Event.fetch url)) := rfl
  rw [hrun]
  obtain ⟨evs, hl, hshape⟩ := Viewer.signedFetchSettled_log env url (env.fetch url)
    (w.emit (Event.fetch url))
  exact ⟨Event.fetch url :: evs, by rw [hl]; simp [World.emit],
    InstallThenParse.cons_quiet (Event.fetch url) rfl hshape⟩

/-- The events of the default strategy: the install, the loader call, quiet events. -/
theorem Viewer.loadDefault_log (env : Platform) (url rootPath : String)
    (assetMap : JS.JSMap File) (w : World) :
    ∃ evs, (Viewer.loadDefault env url rootPath assetMap w).2.log
        = w.log ++ Event.setURLModifier (Resolver.default rootPath (extractUrlBase url) assetMap)
          :: Event.parse url :: evs ∧ ∀ e ∈ evs, e.quiet = true := by
  obtain ⟨_, evs, hl, hq⟩ := Viewer.gltfLoaderLoad_quiet env url
    (fun gltf w blobURLs =>
      match Viewer.pickScene gltf with
      | none => .error Viewer.noSceneError
      | some scene =>
        .ok (Settlement.resolved gltf,
          (w.emit (Event.setContent scene)).revokeAll blobURLs))
    (fun error w _ => (Settlement.rejected error, w))
    (Viewer.revokingOnLoad_quiet)
    (fun e w b => World.QuietStep.refl w)
    (w.setURLModifier (Resolver.default rootPath (extractUrlBase url) assetMap)) []
  refine ⟨evs, ?_, hq⟩
  refine Eq.trans (show (Viewer.loadDefault env url rootPath assetMap w).2.log = _ from hl) ?_
  simp [World.setURLModifier]

/-- The events of `Viewer.loadS3SignedUrl`: the install, the loader call, quiet events, and
then either nothing or the events of the explicit fetch phase. -/
theorem Viewer.loadS3SignedUrl_log (env : Platform) (url rootPath : String)
    (assetMap : JS.JSMap File) (w : World) :
    ∃ q evs2, (Viewer.loadS3SignedUrl env url rootPath assetMap w).2.log
        = w.log ++ Event.setURLModifier (Resolver.signedUrl (extractUrlBase url))
          :: Event.parse url :: (q ++ evs2) ∧ (∀ e ∈ q, e.quiet = true) ∧
        InstallThenParse (fun r => r = Resolver.signedUrl (extractUrlBase url)) evs2 := by
  unfold Viewer.loadS3SignedUrl Viewer.gltfLoaderLoad
  have hres := Viewer.quietStep_resolveRequests env (env.gltfLoad url).requests
    ((w.setURLModifier (Resolver.signedUrl (extractUrlBase url))).emit (Event.parse url)) []
  have hphase2 : ∀ w1 : World,
      World.QuietStep
        ((w.setURLModifier (Resolver.signedUrl (extractUrlBase url))).emit (Event.parse url))
        w1 →
      ∃ q evs2, (Viewer.loadS3SignedUrlWithFetch env url rootPath assetMap w1).2.log
        = w.log ++ Event.setURLModifier (Resolver.signedUrl (extractUrlBase url))
          :: Event.parse url :: (q ++ evs2) ∧ (∀ e ∈ q, e.quiet = true) ∧
        InstallThenParse (fun r => r = Resolver.signedUrl (extractUrlBase url)) evs2 := by
    rintro w1 ⟨_, q, hq, hquiet⟩
    obtain ⟨evs2, hl2, hshape⟩ := Viewer.loadS3SignedUrlWithFetch_log env url rootPath
      assetMap w1
    refine ⟨q, evs2, ?_, hquiet, hshape⟩
    rw [hl2, hq]
    simp [World.setURLModifier, World.emit]
  dsimp only
  generalize Viewer.resolveRequests env (env.gltfLoad url).requests
    ((w.setURLModifier (Resolver.signedUrl (extractUrlBase url))).emit (Event.parse url)) [] = st
    at hres ⊢
  obtain ⟨r, w1, b1⟩ := st
  dsimp only at hres
  cases r with
  | error e => exact hphase2 w1 hres
  | ok u =>
    dsimp only
    split
    · exact hphase2 w1 hres
    · rename_i gltf hg
      cases hp : Viewer.pickScene gltf with
      | none =>
        simp only [hp]
        exact hphase2 w1 hres
      | some scene =>
        simp only [hp]
        have hstep := hres.trans (World.quietStep_emit w1 (Event.setContent scene) rfl)
        obtain ⟨_, q, hq, hquiet⟩ := hstep
        refine ⟨q, [], ?_, hquiet, InstallThenParse.of_quiet [] (by simp)⟩
        rw [hq]
        simp [World.setURLModifier, World.emit]

theorem InstallThenParse.mono {own own2 : Resolver → Prop} {evs : List Event}
    (h : InstallThenParse own evs) (himp : ∀ r, own r → own2 r) : InstallThenParse own2 evs := by
  obtain ⟨q1, tail, rfl, hq1, htail⟩ := h
  refine ⟨q1, tail, rfl, hq1, ?_⟩
  rcases htail with rfl | ⟨r, u, q2, hr, rfl, hq2⟩
  · exact Or.inl rfl
  · exact Or.inr ⟨r, u, q2, himp r hr, rfl, hq2⟩

/-! ### The resolver left by an earlier load does not matter -/

theorem World.withModifier_self (w : World) : w.withModifier w.urlModifier = w := rfl

theorem Viewer.startExtraction_withModifier (zip : List ZipEntry) (w : World)
    (m : Option Resolver) :
    Viewer.startExtraction zip (w.withModifier m)
      = (Viewer.startExtraction zip w).withModifier m := by
  unfold Viewer.startExtraction
  generalize zip.filter (fun e => !e.dir) = l
  induction l generalizing w with
  | nil => rfl
  | cons e es ih => exact ih (w.emit (Event.extract e.name))

theorem Viewer.storeExtracted_withModifier (zip : List ZipEntry) (w : World)
    (m : Option Resolver) (files : JS.JSMap File) (blobURLs : List String) :
    Viewer.storeExtracted zip (w.withModifier m) files blobURLs
      = ((Viewer.storeExtracted zip w files blobURLs).1.withModifier m,
          (Viewer.storeExtracted zip w files blobURLs).2) := by
  induction zip generalizing w files blobURLs with
  | nil => rfl
  | cons e es ih =>
    unfold Viewer.storeExtracted
    split
    · exact ih w files blobURLs
    · split
      · exact ih (w.createObjectURL _).2 _ _
      · exact ih w files blobURLs

theorem Viewer.loadZipEntries_withModifier (env : Platform) (zip : List ZipEntry) (w : World)
    (m : Option Resolver) :
    ∃ m2, Viewer.loadZipEntries env zip (w.withModifier m)
      = ((Viewer.loadZipEntries env zip w).1,
          (Viewer.loadZipEntries env zip w).2.withModifier m2) := by
  rw [Viewer.loadZipEntries_unfold, Viewer.loadZipEntries_unfold]
  split
  · exact ⟨m, rfl⟩
  · dsimp only
    rw [Viewer.startExtraction_withModifier, Viewer.storeExtracted_withModifier]
    generalize Viewer.storeExtracted zip (Viewer.startExtraction zip w) [] [] = st
    obtain ⟨w2, extractedFiles, blobURLs⟩ := st
    dsimp only
    split
    · exact ⟨m, rfl⟩
    · split
      · exact ⟨m, rfl⟩
      · exact ⟨_, rfl⟩

theorem Viewer.zipFetchSettled_withModifier (env : Platform)
    (outcome : Except JS.JSError Response) (w : World) (m : Option Resolver) :
    ∃ m2, Viewer.zipFetchSettled env outcome (w.withModifier m)
      = ((Viewer.zipFetchSettled env outcome w).1,
          (Viewer.zipFetchSettled env outcome w).2.withModifier m2) := by
  cases outcome with
  | error e => exact ⟨m, rfl⟩
  | ok response =>
    by_cases hok : response.ok = true
    · cases hz : env.loadAsync response.body with
      | error e =>
        refine ⟨m, ?_⟩
        simp only [Viewer.zipFetchSettled, hok, hz]
        rfl
      | ok zip =>
        obtain ⟨m2, h2⟩ := Viewer.loadZipEntries_withModifier env zip
          (w.emit Event.loadAsync) m
        refine ⟨m2, ?_⟩
        have h3 : Viewer.loadZipEntries env zip ((w.withModifier m).emit Event.loadAsync)
            = ((Viewer.loadZipEntries env zip (w.emit Event.loadAsync)).1,
                (Viewer.loadZipEntries env zip (w.emit Event.loadAsync)).2.withModifier m2) :=
          h2
        simp only [Viewer.zipFetchSettled, hok, hz, h3]
        rcases Viewer.loadZipEntries env zip (w.emit Event.loadAsync) with ⟨r, w2⟩
        cases r <;> rfl
    · refine ⟨m, ?_⟩
      have hok2 : response.ok = false := by simpa using hok
      simp only [Viewer.zipFetchSettled, hok2]
      rfl

theorem Viewer.signedFetchSettled_withModifier (env : Platform) (url : String)
    (outcome : Except JS.JSError Response) (w : World) (m : Option Resolver) :
    ∃ m2, Viewer.signedFetchSettled env url outcome (w.withModifier m)
      = ((Viewer.signedFetchSettled env url outcome w).1,
          (Viewer.signedFetchSettled env url outcome w).2.withModifier m2) := by
  cases outcome with
  | error e => exact ⟨m, rfl⟩
  | ok response =>
    by_cases hok : response.ok = true
    · by_cases hhtml : ∀ ct, response.contentType = some ct → JS.includes ct "text/html" = false
      · refine ⟨(Viewer.signedFetchSettled env url (.ok response) w).2.urlModifier, ?_⟩
        rw [World.withModifier_self,
          Viewer.signedFetchSettled_of_body env url response w hok hhtml,
          Viewer.signedFetchSettled_of_body env url response (w.withModifier m) hok hhtml]
        rfl
      · push_neg at hhtml
        obtain ⟨ct, hct, hinc⟩ := hhtml
        have hinc2 : JS.includes ct "text/html" = true := by simpa using hinc
        refine ⟨m, ?_⟩
        simp only [Viewer.signedFetchSettled, hok, hct, hinc2]
        rfl
    · refine ⟨m, ?_⟩
      have hok2 : response.ok = false := by simpa using hok
      simp only [Viewer.signedFetchSettled, hok2]
      rfl

/-! ### A fetch chain that resumes installs its resolver and shows its scene -/

theorem World.QuietStep.mem_log {w w1 : World} (h : World.QuietStep w w1) (e : Event)
    (he : e ∈ w.log) : e ∈ w1.log := by
  obtain ⟨_, evs, hl, _⟩ := h
  rw [hl]
  exact List.mem_append_left _ he

/-- When the installed resolver accepts every reference, the pass over the references
succeeds. -/
theorem Viewer.resolveRequests_ok (env : Platform) (r : Resolver) (refs : List String)
    (haccept : ∀ ref ∈ refs, ∀ w b, ∃ u, (Viewer.applyResolver env r ref none w b).1 = .ok u)
    (w : World) (blobURLs : List String) (hm : w.urlModifier = some r) :
    (Viewer.resolveRequests env refs w blobURLs).1 = .ok () := by
  induction refs generalizing w blobURLs with
  | nil => rfl
  | cons ref refs ih =>
    unfold Viewer.resolveRequests
    rw [hm]
    dsimp only
    obtain ⟨u, hu⟩ := haccept ref (List.mem_cons_self _ _) w blobURLs
    have hstep := Viewer.quietStep_applyResolver env r ref none w blobURLs
    generalize Viewer.applyResolver env r ref none w blobURLs = st at hu hstep ⊢
    obtain ⟨res, w1, b1⟩ := st
    dsimp only at hu hstep
    subst hu
    dsimp only
    exact ih (fun x hx => haccept x (List.mem_cons_of_mem _ hx)) w1 b1 (hstep.1.trans hm)

theorem Viewer.applyResolver_signedUrl_ok (env : Platform) (baseURL ref : String)
    (h : (env.resolveAgainst ref baseURL).isSome = true) (w : World) (b : List String) :
    ∃ u, (Viewer.applyResolver env (Resolver.signedUrl baseURL) ref none w b).1 = .ok u := by
  obtain ⟨full, hfull⟩ := Option.isSome_iff_exists.1 h
  unfold Viewer.applyResolver
  dsimp only
  split
  · rw [hfull]
    exact ⟨full, rfl⟩
  · exact ⟨ref, rfl⟩

theorem Viewer.applyResolver_archive_ok (env : Platform) (files : JS.JSMap File)
    (ref decoded : String) (h : JS.decodeURI ref = .ok decoded) (w : World) (b : List String) :
    ∃ u, (Viewer.applyResolver env (Resolver.archive files) ref none w b).1 = .ok u := by
  unfold Viewer.applyResolver
  dsimp only
  rw [h]
  dsimp only
  split
  · exact ⟨_, rfl⟩
  · split
    · exact ⟨_, rfl⟩
    · exact ⟨_, rfl⟩

/-- A loader call that succeeds hands the result to the success callback. -/
theorem Viewer.gltfLoaderLoad_of_success (env : Platform) (url : String)
    (onLoad : GLTF → World → List String → Except JS.JSError (Settlement × World))
    (onError : ErrorValue → World → List String → Settlement × World)
    (w : World) (blobURLs : List String) (gltf : GLTF)
    (hres : (Viewer.resolveRequests env (env.gltfLoad url).requests
      (w.emit (Event.parse url)) blobURLs).1 = .ok ())
    (hrun : (env.gltfLoad url).result = .ok gltf)
    (r : Settlement × World)
    (hload : onLoad gltf
      (Viewer.resolveRequests env (env.gltfLoad url).requests
        (w.emit (Event.parse url)) blobURLs).2.1
      (Viewer.resolveRequests env (env.gltfLoad url).requests
        (w.emit (Event.parse url)) blobURLs).2.2 = .ok r) :
    Viewer.gltfLoaderLoad env url onLoad onError w blobURLs = r := by
  unfold Viewer.gltfLoaderLoad
  dsimp only
  generalize Viewer.resolveRequests env (env.gltfLoad url).requests
    (w.emit (Event.parse url)) blobURLs = st at hres hload ⊢
  obtain ⟨res, w1, b1⟩ := st
  dsimp only at hres hload
  subst hres
  dsimp only
  rw [hrun]
  dsimp only
  rw [hload]

/-- The signed-URL fetch chain, resumed in any world with a usable response: it installs
its resolver and calls the loader, and shows the scene when the loader succeeds. -/
theorem Viewer.signedFetchSettled_installs (env : Platform) (url : String)
    (response : Response) (w : World) (hok : response.ok = true)
    (hhtml : ∀ ct, response.contentType = some ct → JS.includes ct "text/html" = false) :
    (Viewer.signedFetchSettled env url (.ok response) w).2.urlModifier
        = some (Resolver.signedUrl (extractUrlBase url)) ∧
      Event.setURLModifier (Resolver.signedUrl (extractUrlBase url))
        ∈ (Viewer.signedFetchSettled env url (.ok response) w).2.log ∧
      Event.parse (w.createObjectURL response.body).1
        ∈ (Viewer.signedFetchSettled env url (.ok response) w).2.log ∧
      ∀ gltf scene,
        (env.gltfLoad (w.createObjectURL response.body).1).result = .ok gltf →
        (∀ ref ∈ (env.gltfLoad (w.createObjectURL response.body).1).requests,
          (env.resolveAgainst ref (extractUrlBase url)).isSome = true) →
        Viewer.pickScene gltf = some scene →
        (Viewer.signedFetchSettled env url (.ok response) w).1 = Settlement.resolved gltf ∧
          Event.setContent scene
            ∈ (Viewer.signedFetchSettled env url (.ok response) w).2.log := by
  rw [Viewer.signedFetchSettled_of_body env url response w hok hhtml]
  obtain ⟨hm, evs, hl, hq⟩ := Viewer.gltfLoaderLoad_quiet env
    (w.createObjectURL response.body).1
    (Viewer.signedOnLoad (w.createObjectURL response.body).1)
    (Viewer.signedOnError (w.createObjectURL response.body).1)
    (Viewer.signedOnLoad_quiet _)
    (fun e w b => World.quietStep_revokeObjectURL w _)
    ((w.createObjectURL response.body).2.setURLModifier
      (Resolver.signedUrl (extractUrlBase url))) []
  refine ⟨hm, ?_, ?_, ?_⟩
  · rw [hl]
    simp [World.setURLModifier]
  · rw [hl]
    simp
  · intro gltf scene hrun hreq hscene
    have hres := Viewer.resolveRequests_ok env (Resolver.signedUrl (extractUrlBase url))
      (env.gltfLoad (w.createObjectURL response.body).1).requests
      (fun ref href w b => Viewer.applyResolver_signedUrl_ok env _ ref (hreq ref href) w b)
      (((w.createObjectURL response.body).2.setURLModifier
        (Resolver.signedUrl (extractUrlBase url))).emit
          (Event.parse (w.createObjectURL response.body).1)) [] rfl
    have hload : Viewer.signedOnLoad (w.createObjectURL response.body).1 gltf
        (Viewer.resolveRequests env (env.gltfLoad (w.createObjectURL response.body).1).requests
          (((w.createObjectURL response.body).2.setURLModifier
            (Resolver.signedUrl (extractUrlBase url))).emit
              (Event.parse (w.createObjectURL response.body).1)) []).2.1
        (Viewer.resolveRequests env (env.gltfLoad (w.createObjectURL response.body).1).requests
          (((w.createObjectURL response.body).2.setURLModifier
            (Resolver.signedUrl (extractUrlBase url))).emit
              (Event.parse (w.createObjectURL response.body).1)) []).2.2
        = .ok (Settlement.resolved gltf,
            ((Viewer.resolveRequests env
              (env.gltfLoad (w.createObjectURL response.body).1).requests
              (((w.createObjectURL response.body).2.setURLModifier
                (Resolver.signedUrl (extractUrlBase url))).emit
                  (Event.parse (w.createObjectURL response.body).1)) []).2.1.emit
              (Event.setContent scene)).revokeObjectURL (w.createObjectURL response.body).1) := by
      simp only [Viewer.signedOnLoad, hscene]
    rw [Viewer.gltfLoaderLoad_of_success env _ _ _ _ _ gltf hres hrun _ hload]
    refine ⟨rfl, ?_⟩
    simp [World.revokeObjectURL, World.emit]

/-- The archive callback when every member is extracted and the document is stored. -/
theorem Viewer.loadZipEntries_of_extracted (env : Platform) (zip : List ZipEntry) (w : World)
    (main : String) (rest : List String) (mainFile : File)
    (hmain : Viewer.gltfFiles zip = main :: rest)
    (hext : Viewer.extractionFailure zip = none)
    (hget : JS.JSMap.get (Viewer.storeExtracted zip World.init [] []).2.1 main
      = some mainFile) :
    Viewer.loadZipEntries env zip w
      = (.ok (Viewer.gltfLoaderLoad env
            ((Viewer.storeExtracted zip (Viewer.startExtraction zip w) [] []).1.createObjectURL
              mainFile.blob).1
            Viewer.revokingOnLoad Viewer.revokingOnError
            (((Viewer.storeExtracted zip (Viewer.startExtraction zip w) [] []).1.createObjectURL
              mainFile.blob).2.setURLModifier
              (Resolver.archive (Viewer.storeExtracted zip World.init [] []).2.1))
            ((Viewer.storeExtracted zip (Viewer.startExtraction zip w) [] []).2.2 ++
              [((Viewer.storeExtracted zip (Viewer.startExtraction zip w) [] []).1.createObjectURL
                mainFile.blob).1])).1,
          (Viewer.gltfLoaderLoad env
            ((Viewer.storeExtracted zip (Viewer.startExtraction zip w) [] []).1.createObjectURL
              mainFile.blob).1
            Viewer.revokingOnLoad Viewer.revokingOnError
            (((Viewer.storeExtracted zip (Viewer.startExtraction zip w) [] []).1.createObjectURL
              mainFile.blob).2.setURLModifier
              (Resolver.archive (Viewer.storeExtracted zip World.init [] []).2.1))
            ((Viewer.storeExtracted zip (Viewer.startExtraction zip w) [] []).2.2 ++
              [((Viewer.storeExtracted zip (Viewer.startExtraction zip w) [] []).1.createObjectURL
                mainFile.blob).1])).2) := by
  have hfiles := Viewer.storeExtracted_files zip (Viewer.startExtraction zip w) World.init
    [] [] []
  rw [← hfiles] at hget ⊢
  simp only [Viewer.loadZipEntries_unfold, hmain, hext, hget]
  rfl

/-- The archive fetch chain, resumed in any world with a usable archive: it installs its
resolver and calls the loader, and shows the scene when the loader succeeds. -/
theorem Viewer.zipFetchSettled_installs (env : Platform) (response : Response) (w : World)
    (zip : List ZipEntry) (main : String) (rest : List String) (mainFile : File)
    (hok : response.ok = true) (hzip : env.loadAsync response.body = .ok zip)
    (hmain : Viewer.gltfFiles zip = main :: rest)
    (hext : Viewer.extractionFailure zip = none)
    (hget : JS.JSMap.get (Viewer.storeExtracted zip World.init [] []).2.1 main
      = some mainFile) :
    (Viewer.zipFetchSettled env (.ok response) w).2.urlModifier
        = some (Resolver.archive (Viewer.storeExtracted zip World.init [] []).2.1) ∧
      Event.setURLModifier (Resolver.archive (Viewer.storeExtracted zip World.init [] []).2.1)
        ∈ (Viewer.zipFetchSettled env (.ok response) w).2.log ∧
      ∃ doc, Event.parse doc ∈ (Viewer.zipFetchSettled env (.ok response) w).2.log ∧
        ∀ gltf scene,
          (env.gltfLoad doc).result = .ok gltf →
          (∀ ref ∈ (env.gltfLoad doc).requests, ∃ decoded, JS.decodeURI ref = .ok decoded) →
          Viewer.pickScene gltf = some scene →
          (Viewer.zipFetchSettled env (.ok response) w).1 = Settlement.resolved gltf ∧
            Event.setContent scene ∈ (Viewer.zipFetchSettled env (.ok response) w).2.log := by
  have hentries := Viewer.loadZipEntries_of_extracted env zip (w.emit Event.loadAsync) main rest
    mainFile hmain hext hget
  have hrun : Viewer.zipFetchSettled env (.ok response) w
      = ((Viewer.gltfLoaderLoad env
            ((Viewer.storeExtracted zip (Viewer.startExtraction zip (w.emit Event.loadAsync))
              [] []).1.createObjectURL mainFile.blob).1
            Viewer.revokingOnLoad Viewer.revokingOnError
            (((Viewer.storeExtracted zip (Viewer.startExtraction zip (w.emit Event.loadAsync))
              [] []).1.createObjectURL mainFile.blob).2.setURLModifier
              (Resolver.archive (Viewer.storeExtracted zip World.init [] []).2.1))
            ((Viewer.storeExtracted zip (Viewer.startExtraction zip (w.emit Event.loadAsync))
              [] []).2.2 ++
              [((Viewer.storeExtracted zip (Viewer.startExtraction zip (w.emit Event.loadAsync))
                [] []).1.createObjectURL mainFile.blob).1]))) := by
    simp only [Viewer.zipFetchSettled, hok, hzip, hentries]
    rfl
  rw [hrun]
  generalize (Viewer.storeExtracted zip (Viewer.startExtraction zip (w.emit Event.loadAsync))
    [] []) = st
  obtain ⟨w2, files2, urls2⟩ := st
  dsimp only
  obtain ⟨hm, evs, hl, hq⟩ := Viewer.gltfLoaderLoad_quiet env
    (w2.createObjectURL mainFile.blob).1 Viewer.revokingOnLoad Viewer.revokingOnError
    Viewer.revokingOnLoad_quiet (fun e w b => World.quietStep_revokeAll w b)
    ((w2.createObjectURL mainFile.blob).2.setURLModifier
      (Resolver.archive (Viewer.storeExtracted zip World.init [] []).2.1))
    (urls2 ++ [(w2.createObjectURL mainFile.blob).1])
  refine ⟨hm, ?_, (w2.createObjectURL mainFile.blob).1, ?_, ?_⟩
  · rw [hl]
    simp [World.setURLModifier]
  · rw [hl]
    simp
  · intro gltf scene hresult hreq hscene
    have hres := Viewer.resolveRequests_ok env
      (Resolver.archive (Viewer.storeExtracted zip World.init [] []).2.1)
      (env.gltfLoad (w2.createObjectURL mainFile.blob).1).requests
      (fun ref href w b => by
        obtain ⟨decoded, hd⟩ := hreq ref href
        exact Viewer.applyResolver_archive_ok env _ ref decoded hd w b)
      (((w2.createObjectURL mainFile.blob).2.setURLModifier
        (Resolver.archive (Viewer.storeExtracted zip World.init [] []).2.1)).emit
          (Event.parse (w2.createObjectURL mainFile.blob).1))
      (urls2 ++ [(w2.createObjectURL mainFile.blob).1]) rfl
    have hload : Viewer.revokingOnLoad gltf
        (Viewer.resolveRequests env (env.gltfLoad (w2.createObjectURL mainFile.blob).1).requests
          (((w2.createObjectURL mainFile.blob).2.setURLModifier
            (Resolver.archive (Viewer.storeExtracted zip World.init [] []).2.1)).emit
              (Event.parse (w2.createObjectURL mainFile.blob).1))
          (urls2 ++ [(w2.createObjectURL mainFile.blob).1])).2.1
        (Viewer.resolveRequests env (env.gltfLoad (w2.createObjectURL mainFile.blob).1).requests
          (((w2.createObjectURL mainFile.blob).2.setURLModifier
            (Resolver.archive (Viewer.storeExtracted zip World.init [] []).2.1)).emit
              (Event.parse (w2.createObjectURL mainFile.blob).1))
          (urls2 ++ [(w2.createObjectURL mainFile.blob).1])).2.2
        = .ok (Settlement.resolved gltf,
            ((Viewer.resolveRequests env
              (env.gltfLoad (w2.createObjectURL mainFile.blob).1).requests
              (((w2.createObjectURL mainFile.blob).2.setURLModifier
                (Resolver.archive (Viewer.storeExtracted zip World.init [] []).2.1)).emit
                  (Event.parse (w2.createObjectURL mainFile.blob).1))
              (urls2 ++ [(w2.createObjectURL mainFile.blob).1])).2.1.emit
              (Event.setContent scene)).revokeAll
                (Viewer.resolveRequests env
                  (env.gltfLoad (w2.createObjectURL mainFile.blob).1).requests
                  (((w2.createObjectURL mainFile.blob).2.setURLModifier
                    (Resolver.archive (Viewer.storeExtracted zip World.init [] []).2.1)).emit
                      (Event.parse (w2.createObjectURL mainFile.blob).1))
                  (urls2 ++ [(w2.createObjectURL mainFile.blob).1])).2.2) := by
      simp only [Viewer.revokingOnLoad, hscene]
    rw [Viewer.gltfLoaderLoad_of_success env _ _ _ _ _ gltf hres hresult _ hload]
    refine ⟨rfl, ?_⟩
    exact (World.quietStep_revokeAll _ _).mem_log _ (by simp [World.emit])

/-! ## Release of object URLs: C13 -/

/-- C13: a load that fails can leave an object URL that is never revoked.  In the default
strategy the error callback is `reject` itself: the object URL the resolver created for a
texture stays when the loader fails on a buffer.  In the archive strategy the final `catch`
does not revoke: the object URL created for the extracted document stays when the extraction
of another member fails.  In both runs the URL `blob:0` is created, is revoked zero times
and is still registered when the load is rejected. -/
theorem Viewer.object_urls_leak_on_failure :
    ((Viewer.load
          (Sample.parsing ["blob:http://localhost:3000/textures/a.png"]
            (.error Sample.missingBuffer))
          "blob:http://localhost:3000/5f2c" "models/"
          [("models/textures/a.png", Sample.texture)] World.init).1
        = Settlement.rejected Sample.missingBuffer ∧
      Event.createObjectURL "blob:0" ∈ (Viewer.load
          (Sample.parsing ["blob:http://localhost:3000/textures/a.png"]
            (.error Sample.missingBuffer))
          "blob:http://localhost:3000/5f2c" "models/"
          [("models/textures/a.png", Sample.texture)] World.init).2.log ∧
      revocations "blob:0" (Viewer.load
          (Sample.parsing ["blob:http://localhost:3000/textures/a.png"]
            (.error Sample.missingBuffer))
          "blob:http://localhost:3000/5f2c" "models/"
          [("models/textures/a.png", Sample.texture)] World.init).2.log = 0 ∧
      (Viewer.load
          (Sample.parsing ["blob:http://localhost:3000/textures/a.png"]
            (.error Sample.missingBuffer))
          "blob:http://localhost:3000/5f2c" "models/"
          [("models/textures/a.png", Sample.texture)] World.init).2.objectURLs
        = [("blob:0", Sample.texture.blob)]) ∧
    ((Viewer.loadZipFile (Sample.serving Sample.okResponse Sample.zipWithBrokenTexture)
          "https://example.org/scene.zip" "" [] World.init).1
        = Settlement.rejected
            (ErrorValue.error (JS.newError "Corrupted zip : CRC32 mismatch")) ∧
      Event.createObjectURL "blob:0" ∈ (Viewer.loadZipFile
          (Sample.serving Sample.okResponse Sample.zipWithBrokenTexture)
          "https://example.org/scene.zip" "" [] World.init).2.log ∧
      revocations "blob:0" (Viewer.loadZipFile
          (Sample.serving Sample.okResponse Sample.zipWithBrokenTexture)
          "https://example.org/scene.zip" "" [] World.init).2.log = 0 ∧
      (Viewer.loadZipFile (Sample.serving Sample.okResponse Sample.zipWithBrokenTexture)
          "https://example.org/scene.zip" "" [] World.init).2.objectURLs
        = [("blob:0", ⟨[123, 125], ""⟩)]) :=
  ⟨⟨by rfl, by decide, by decide, by rfl⟩, ⟨by rfl, by decide, by decide, by rfl⟩⟩

/-! ## Two loads in flight and loads in sequence: C14, C15 -/

/-- C14 as claimed fails: load A of an archive is started, load B of a dropped file runs to
its end while the fetch of A is pending, and then the fetch of A settles.  The chain of A
installs the archive resolver over the resolver of B and calls `setContent` with the scene
of A after B showed its scene. -/
theorem Viewer.superseded_load_still_shows :
    Viewer.load Sample.twoLoads Sample.urlA "" [] World.init
        = Viewer.zipFetchSettled Sample.twoLoads (Sample.twoLoads.fetch Sample.urlA)
            (World.init.emit (Event.fetch Sample.urlA)) ∧
      Viewer.load Sample.twoLoads Sample.urlB "" [] (World.init.emit (Event.fetch Sample.urlA))
        = (Settlement.resolved Sample.gltfB,
            ⟨0, [], some (Resolver.default "" "blob:http://localhost:3000/" []),
              [Event.fetch Sample.urlA,
               Event.setURLModifier (Resolver.default "" "blob:http://localhost:3000/" []),
               Event.parse Sample.urlB, Event.setContent 2]⟩) ∧
      Viewer.zipFetchSettled Sample.twoLoads (Sample.twoLoads.fetch Sample.urlA)
          (Viewer.load Sample.twoLoads Sample.urlB "" []
            (World.init.emit (Event.fetch Sample.urlA))).2
        = (Settlement.resolved Sample.gltfA,
            ⟨2, [],
              some (Resolver.archive
                [("model.gltf", ⟨"model.gltf", ⟨[123, 125], "model/gltf+json"⟩⟩)]),
              [Event.fetch Sample.urlA,
               Event.setURLModifier (Resolver.default "" "blob:http://localhost:3000/" []),
               Event.parse Sample.urlB, Event.setContent 2,
               Event.loadAsync, Event.extract "model.gltf",
               Event.createObjectURL "blob:0", Event.createObjectURL "blob:1",
               Event.setURLModifier (Resolver.archive
                 [("model.gltf", ⟨"model.gltf", ⟨[123, 125], "model/gltf+json"⟩⟩)]),
               Event.parse "blob:1", Event.setContent 1,
               Event.revokeObjectURL "blob:0", Event.revokeObjectURL "blob:1"]⟩) :=
  ⟨by rfl, by rfl, by rfl⟩

/-- C14, amended: a fetch chain that resumes runs to its end in whatever world the loads
started meanwhile have left.  The signed-URL chain, on a successful response that is not an
HTML page, and the archive chain, on an archive whose members extract and hold a document,
install their own resolver in the URL-modifier slot and call the loader; when the loader
succeeds with a scene (its references being accepted by the resolver) the load resolves and
`setContent` is called with that scene. -/
theorem Viewer.resumed_chain_installs_and_shows (env : Platform) (url : String)
    (signedResponse zipResponse : Response) (w : World)
    (zip : List ZipEntry) (main : String) (rest : List String) (mainFile : File)
    (hsigned : signedResponse.ok = true)
    (hhtml : ∀ ct, signedResponse.contentType = some ct → JS.includes ct "text/html" = false)
    (hok : zipResponse.ok = true) (hzip : env.loadAsync zipResponse.body = .ok zip)
    (hmain : Viewer.gltfFiles zip = main :: rest)
    (hext : Viewer.extractionFailure zip = none)
    (hget : JS.JSMap.get (Viewer.storeExtracted zip World.init [] []).2.1 main
      = some mainFile) :
    ((Viewer.signedFetchSettled env url (.ok signedResponse) w).2.urlModifier
        = some (Resolver.signedUrl (extractUrlBase url)) ∧
      Event.setURLModifier (Resolver.signedUrl (extractUrlBase url))
        ∈ (Viewer.signedFetchSettled env url (.ok signedResponse) w).2.log ∧
      Event.parse (w.createObjectURL signedResponse.body).1
        ∈ (Viewer.signedFetchSettled env url (.ok signedResponse) w).2.log ∧
      ∀ gltf scene,
        (env.gltfLoad (w.createObjectURL signedResponse.body).1).result = .ok gltf →
        (∀ ref ∈ (env.gltfLoad (w.createObjectURL signedResponse.body).1).requests,
          (env.resolveAgainst ref (extractUrlBase url)).isSome = true) →
        Viewer.pickScene gltf = some scene →
        (Viewer.signedFetchSettled env url (.ok signedResponse) w).1
            = Settlement.resolved gltf ∧
          Event.setContent scene
            ∈ (Viewer.signedFetchSettled env url (.ok signedResponse) w).2.log) ∧
    ((Viewer.zipFetchSettled env (.ok zipResponse) w).2.urlModifier
        = some (Resolver.archive (Viewer.storeExtracted zip World.init [] []).2.1) ∧
      Event.setURLModifier (Resolver.archive (Viewer.storeExtracted zip World.init [] []).2.1)
        ∈ (Viewer.zipFetchSettled env (.ok zipResponse) w).2.log ∧
      ∃ doc, Event.parse doc ∈ (Viewer.zipFetchSettled env (.ok zipResponse) w).2.log ∧
        ∀ gltf scene,
          (env.gltfLoad doc).result = .ok gltf →
          (∀ ref ∈ (env.gltfLoad doc).requests, ∃ decoded, JS.decodeURI ref = .ok decoded) →
          Viewer.pickScene gltf = some scene →
          (Viewer.zipFetchSettled env (.ok zipResponse) w).1 = Settlement.resolved gltf ∧
            Event.setContent scene ∈ (Viewer.zipFetchSettled env (.ok zipResponse) w).2.log) :=
  ⟨Viewer.signedFetchSettled_installs env url signedResponse w hsigned hhtml,
    Viewer.zipFetchSettled_installs env zipResponse w zip main rest mainFile hok hzip hmain
      hext hget⟩

/-- C14, amended, at the two loads of the counterexample: the chain of load A resumes in
the world left by load B. -/
theorem Viewer.resumed_chain_installs_and_shows_witness :
    (Sample.okResponse.ok = true ∧
      (∀ ct, Sample.okResponse.contentType = some ct → JS.includes ct "text/html" = false) ∧
      Sample.twoLoads.loadAsync Sample.okResponse.body = .ok Sample.zipWithGltf ∧
      Viewer.gltfFiles Sample.zipWithGltf = "model.gltf" :: [] ∧
      Viewer.extractionFailure Sample.zipWithGltf = none ∧
      JS.JSMap.get (Viewer.storeExtracted Sample.zipWithGltf World.init [] []).2.1 "model.gltf"
        = some ⟨"model.gltf", ⟨[123, 125], "model/gltf+json"⟩⟩) ∧
    (Viewer.zipFetchSettled Sample.twoLoads (.ok Sample.okResponse)
        (Viewer.load Sample.twoLoads Sample.urlB "" []
          (World.init.emit (Event.fetch Sample.urlA))).2).2.urlModifier
      = some (Resolver.archive
          (Viewer.storeExtracted Sample.zipWithGltf World.init [] []).2.1) ∧
    (Viewer.signedFetchSettled Sample.twoLoads Sample.urlA (.ok Sample.okResponse)
        (Viewer.load Sample.twoLoads Sample.urlB "" []
          (World.init.emit (Event.fetch Sample.urlA))).2).2.urlModifier
      = some (Resolver.signedUrl (extractUrlBase Sample.urlA)) :=
  ⟨⟨by decide, by intro ct h; cases h; decide, by rfl, by decide, by rfl, by rfl⟩,
    (Viewer.resumed_chain_installs_and_shows Sample.twoLoads Sample.urlA Sample.okResponse
      Sample.okResponse
      (Viewer.load Sample.twoLoads Sample.urlB "" []
        (World.init.emit (Event.fetch Sample.urlA))).2
      Sample.zipWithGltf "model.gltf" [] ⟨"model.gltf", ⟨[123, 125], "model/gltf+json"⟩⟩
      (by decide) (by intro ct h; cases h; decide) (by decide) (by rfl) (by decide) (by rfl)
      (by rfl)).2.1,
    (Viewer.resumed_chain_installs_and_shows Sample.twoLoads Sample.urlA Sample.okResponse
      Sample.okResponse
      (Viewer.load Sample.twoLoads Sample.urlB "" []
        (World.init.emit (Event.fetch Sample.urlA))).2
      Sample.zipWithGltf "model.gltf" [] ⟨"model.gltf", ⟨[123, 125], "model/gltf+json"⟩⟩
      (by decide) (by intro ct h; cases h; decide) (by decide) (by rfl) (by decide) (by rfl)
      (by rfl)).1.1⟩

/-- C15: a load that runs after any earlier loads does not see what they installed.  Its
settlement and the world it leaves, the URL-modifier slot apart, are the same whatever
resolver `m` the slot held at its start; and every loader call among its events comes after
the install, among these same events, of a resolver of this load, built from its own root
path, base URL and asset map or from the members of the archive it fetched. -/
theorem Viewer.load_uses_own_resolver (env : Platform) (url rootPath : String)
    (assetMap : JS.JSMap File) (w : World) (m : Option Resolver) :
    (∃ m2, Viewer.load env url rootPath assetMap (w.withModifier m)
      = ((Viewer.load env url rootPath assetMap w).1,
          (Viewer.load env url rootPath assetMap w).2.withModifier m2)) ∧
    ∃ evs, (Viewer.load env url rootPath assetMap w).2.log = w.log ++ evs ∧
      ∀ p ∈ loaderCalls none evs,
        ∃ r, p.2 = some r ∧ Viewer.OwnResolver env url rootPath assetMap r := by
  by_cases hz : Viewer.isZipFile env.parseURL url = true
  · have hload : ∀ w, Viewer.load env url rootPath assetMap w
        = Viewer.zipFetchSettled env (env.fetch url) (w.emit (Event.fetch url)) := by
      intro w
      simp only [Viewer.load, hz]
      rfl
    constructor
    · rw [hload, hload]
      exact Viewer.zipFetchSettled_withModifier env (env.fetch url) (w.emit (Event.fetch url)) m
    · obtain ⟨evs, hl, hshape⟩ := Viewer.loadZipFile_log env url rootPath assetMap w
      refine ⟨evs, ?_, loaderCalls_installThenParse _ none evs
        (hshape.mono (fun r hr => Or.inr (Or.inr hr)))⟩
      rw [← hl, hload]
      rfl
  · by_cases hs : Viewer.isS3SignedUrl env.parseURL url = true
    · have hload : ∀ w, Viewer.load env url rootPath assetMap w
          = Viewer.loadS3SignedUrl env url rootPath assetMap w := by
        intro w
        simp only [Viewer.load, hz, hs]
        rfl
      constructor
      · refine ⟨(Viewer.load env url rootPath assetMap w).2.urlModifier, ?_⟩
        rw [World.withModifier_self, hload, hload]
        rfl
      · obtain ⟨q, evs2, hl, hq, hshape⟩ := Viewer.loadS3SignedUrl_log env url rootPath
          assetMap w
        refine ⟨_, by rw [hload]; exact hl, ?_⟩
        intro p hp
        simp only [loaderCalls, loaderCalls_quiet _ _ _ hq, List.mem_cons] at hp
        rcases hp with rfl | hp
        · exact ⟨_, rfl, Or.inr (Or.inl rfl)⟩
        · exact loaderCalls_installThenParse _ _ evs2
            (hshape.mono (fun r hr => Or.inr (Or.inl hr))) p hp
    · have hload : ∀ w, Viewer.load env url rootPath assetMap w
          = Viewer.loadDefault env url rootPath assetMap w := by
        intro w
        simp only [Viewer.load, Viewer.loadDefault, hz, hs]
        rfl
      constructor
      · refine ⟨(Viewer.load env url rootPath assetMap w).2.urlModifier, ?_⟩
        rw [World.withModifier_self, hload, hload]
        rfl
      · obtain ⟨evs, hl, hq⟩ := Viewer.loadDefault_log env url rootPath assetMap w
        refine ⟨_, by rw [hload]; exact hl, ?_⟩
        intro p hp
        simp only [loaderCalls, loaderCalls_of_quiet _ _ hq, List.mem_singleton] at hp
        exact ⟨_, by rw [hp], Or.inl rfl⟩

/-! ## Lemmas on percent-encoding and Base64 -/

theorem JS.hexValue_hexDigit (d : Nat) (h : d < 16) : JS.hexValue (JS.hexDigit d) = some d := by
  interval_cases d <;> rfl

theorem JS.hexOctet_hexDigit (b : Nat) (h : b < 256) :
    JS.hexOctet (JS.hexDigit (b / 16)) (JS.hexDigit (b % 16)) = some b := by
  unfold JS.hexOctet
  rw [JS.hexValue_hexDigit _ (by omega), JS.hexValue_hexDigit _ (by omega)]
  simp only [Option.some.injEq]
  omega

/-- One escape of an ASCII octet decodes to its character. -/
theorem JS.decodeLoop_escape_ascii (n : Nat) (h : n < 128) (fuel : Nat) (rest out : List Char)
    (hrest : JS.decodeLoop [] fuel rest = .ok out) :
    JS.decodeLoop [] (fuel + 1) (JS.percentEscape n ++ rest) = .ok (Char.ofNat n :: out) := by
  have hhex := JS.hexOctet_hexDigit n (by omega)
  show JS.decodeLoop [] (fuel + 1)
    ('%' :: JS.hexDigit (n / 16) :: JS.hexDigit (n % 16) :: rest) = _
  rw [JS.decodeLoop]
  simp only [ne_eq, not_true_eq_false, if_false]
  rw [hhex]
  simp [h, hrest]

/-- The two escapes of a code point from U+0080 to U+07FF decode to its character. -/
theorem JS.decodeLoop_escape_two (n : Nat) (h1 : 128 ≤ n) (h2 : n < 2048) (fuel : Nat)
    (rest out : List Char) (hrest : JS.decodeLoop [] fuel rest = .ok out) :
    JS.decodeLoop [] (fuel + 1)
        (JS.percentEscape (192 + n / 64) ++ (JS.percentEscape (128 + n % 64) ++ rest))
      = .ok (Char.ofNat n :: out) := by
  have hhex1 := JS.hexOctet_hexDigit (192 + n / 64) (by omega)
  have hhex2 := JS.hexOctet_hexDigit (128 + n % 64) (by omega)
  have hb : ¬ (192 + n / 64 < 128) := by omega
  have hlen : JS.utf8Length (192 + n / 64) = some 2 := by
    unfold JS.utf8Length
    rw [if_pos (by omega)]
  have hcont : (128 + n % 64) / 64 = 2 := by omega
  have hpay : (128 + n % 64) % 64 = n % 64 := by omega
  have hv : (192 + n / 64) % 32 * 64 + n % 64 = n := by omega
  have hc : JS.continuationOctets 1
      ('%' :: JS.hexDigit ((128 + n % 64) / 16) :: JS.hexDigit ((128 + n % 64) % 16) :: rest)
      = some ([n % 64], rest) := by
    simp only [JS.continuationOctets]
    rw [hhex2]
    simp [hcont, hpay]
  have hcp : JS.utf8CodePoint (192 + n / 64) [n % 64] = some n := by
    simp only [JS.utf8CodePoint, hv]
    simp [h1]
  show JS.decodeLoop [] (fuel + 1)
    ('%' :: JS.hexDigit ((192 + n / 64) / 16) :: JS.hexDigit ((192 + n / 64) % 16) ::
      '%' :: JS.hexDigit ((128 + n % 64) / 16) :: JS.hexDigit ((128 + n % 64) % 16) :: rest) = _
  rw [JS.decodeLoop]
  simp only [ne_eq, not_true_eq_false, if_false]
  rw [hhex1]
  simp only [hb, if_false, hlen, Nat.add_one_sub_one]
  rw [hc]
  simp only [hcp, hrest]

theorem JS.uriUnreserved_ne_percent (c : Char) (h : JS.uriUnreserved c = true) : c ≠ '%' := by
  rintro rfl
  revert h
  decide

/-- Decoding undoes encoding, on Latin-1 characters. -/
theorem JS.decodeLoop_encodeChars (cs : List Char) (hlatin : ∀ c ∈ cs, c.toNat < 256)
    (fuel : Nat) (hfuel : (JS.encodeChars JS.uriUnreserved cs).length ≤ fuel) :
    JS.decodeLoop [] fuel (JS.encodeChars JS.uriUnreserved cs) = .ok cs := by
  induction cs generalizing fuel with
  | nil => cases fuel <;> rfl
  | cons c cs ih =>
    have hc : c.toNat < 256 := hlatin c (List.mem_cons_self _ _)
    have hcs : ∀ x ∈ cs, x.toNat < 256 := fun x hx => hlatin x (List.mem_cons_of_mem _ hx)
    unfold JS.encodeChars at hfuel ⊢
    by_cases hu : JS.uriUnreserved c = true
    · rw [if_pos hu] at hfuel ⊢
      obtain ⟨f, rfl⟩ : ∃ f, fuel = f + 1 := ⟨fuel - 1, by simp at hfuel; omega⟩
      have hne := JS.uriUnreserved_ne_percent c hu
      show JS.decodeLoop [] (f + 1) (c :: JS.encodeChars JS.uriUnreserved cs) = _
      have hrest := ih hcs f (by simp at hfuel; omega)
      simp [JS.decodeLoop, hne, hrest]
    · rw [if_neg hu] at hfuel ⊢
      by_cases h128 : c.toNat < 128
      · have ho : JS.utf8Octets c.toNat = [c.toNat] := by
          unfold JS.utf8Octets
          rw [if_pos h128]
        rw [ho] at hfuel ⊢
        simp only [List.flatMap_cons, List.flatMap_nil, List.append_nil] at hfuel ⊢
        obtain ⟨f, rfl⟩ : ∃ f, fuel = f + 1 :=
          ⟨fuel - 1, by simp [JS.percentEscape] at hfuel; omega⟩
        rw [JS.decodeLoop_escape_ascii _ h128 f _ cs
          (ih hcs f (by simp [JS.percentEscape] at hfuel; omega))]
        simp [Char.ofNat_toNat]
      · have ho : JS.utf8Octets c.toNat = [192 + c.toNat / 64, 128 + c.toNat % 64] := by
          unfold JS.utf8Octets
          rw [if_neg h128, if_pos (by omega)]
        rw [ho] at hfuel ⊢
        simp only [List.flatMap_cons, List.flatMap_nil, List.append_nil,
          List.append_assoc] at hfuel ⊢
        obtain ⟨f, rfl⟩ : ∃ f, fuel = f + 1 :=
          ⟨fuel - 1, by simp [JS.percentEscape] at hfuel; omega⟩
        rw [JS.decodeLoop_escape_two _ (by omega) (by omega) f _ cs
          (ih hcs f (by simp [JS.percentEscape] at hfuel; omega))]
        simp [Char.ofNat_toNat]

theorem JS.decodeURIComponent_encodeURIComponent (u : String)
    (hlatin : ∀ c ∈ u.data, c.toNat < 256) :
    JS.decodeURIComponent (JS.encodeURIComponent u) = .ok u := by
  unfold JS.decodeURIComponent JS.encodeURIComponent
  rw [JS.decodeLoop_encodeChars u.data hlatin _ (le_refl _)]

theorem JS.base64Value_base64Char (n : Nat) (h : n < 64) :
    JS.base64Value (JS.base64Char n) = some n := by
  interval_cases n <;> rfl

theorem JS.base64Char_ne_pad (n : Nat) (h : n < 64) : JS.base64Char n ≠ '=' := by
  interval_cases n <;> decide

theorem JS.base64Char_not_whitespace (n : Nat) (h : n < 64) :
    JS.asciiWhitespace (JS.base64Char n) = false := by
  interval_cases n <;> rfl

theorem JS.base64Char_not_lineTerminator (n : Nat) (h : n < 64) :
    JS.lineTerminator (JS.base64Char n) = false := by
  interval_cases n <;> rfl

/-- The characters of a Base64 encoding are neither whitespace nor line terminators. -/
theorem JS.btoaOctets_chars (bytes : List Nat) (hb : ∀ b ∈ bytes, b < 256) :
    ∀ x ∈ JS.btoaOctets bytes, JS.asciiWhitespace x = false ∧ JS.lineTerminator x = false := by
  induction bytes using JS.btoaOctets.induct with
  | case1 a b c rest ih =>
    have ha : a < 256 := hb a (by simp)
    have hb2 : b < 256 := hb b (by simp)
    have hc : c < 256 := hb c (by simp)
    intro x hx
    simp only [JS.btoaOctets, List.mem_cons] at hx
    rcases hx with rfl | rfl | rfl | rfl | hx
    · exact ⟨JS.base64Char_not_whitespace _ (by omega),
        JS.base64Char_not_lineTerminator _ (by omega)⟩
    · exact ⟨JS.base64Char_not_whitespace _ (by omega),
        JS.base64Char_not_lineTerminator _ (by omega)⟩
    · exact ⟨JS.base64Char_not_whitespace _ (by omega),
        JS.base64Char_not_lineTerminator _ (by omega)⟩
    · exact ⟨JS.base64Char_not_whitespace _ (by omega),
        JS.base64Char_not_lineTerminator _ (by omega)⟩
    · exact ih (fun y hy => hb y (by simp [hy])) x hx
  | case2 a b =>
    have ha : a < 256 := hb a (by simp)
    have hb2 : b < 256 := hb b (by simp)
    intro x hx
    simp only [JS.btoaOctets, List.mem_cons, List.not_mem_nil, or_false] at hx
    rcases hx with rfl | rfl | rfl | rfl
    · exact ⟨JS.base64Char_not_whitespace _ (by omega),
        JS.base64Char_not_lineTerminator _ (by omega)⟩
    · exact ⟨JS.base64Char_not_whitespace _ (by omega),
        JS.base64Char_not_lineTerminator _ (by omega)⟩
    · exact ⟨JS.base64Char_not_whitespace _ (by omega),
        JS.base64Char_not_lineTerminator _ (by omega)⟩
    · exact ⟨by rfl, by rfl⟩
  | case3 a =>
    have ha : a < 256 := hb a (by simp)
    intro x hx
    simp only [JS.btoaOctets, List.mem_cons, List.not_mem_nil, or_false] at hx
    rcases hx with rfl | rfl | rfl | rfl
    · exact ⟨JS.base64Char_not_whitespace _ (by omega),
        JS.base64Char_not_lineTerminator _ (by omega)⟩
    · exact ⟨JS.base64Char_not_whitespace _ (by omega),
        JS.base64Char_not_lineTerminator _ (by omega)⟩
    · exact ⟨by rfl, by rfl⟩
    · exact ⟨by rfl, by rfl⟩
  | case4 =>
    intro x hx
    simp [JS.btoaOctets] at hx

theorem JS.btoaOctets_ne_nil (bytes : List Nat) (h : bytes ≠ []) : JS.btoaOctets bytes ≠ [] := by
  match bytes, h with
  | [a], _ => simp [JS.btoaOctets]
  | [a, b], _ => simp [JS.btoaOctets]
  | a :: b :: c :: rest, _ => simp [JS.btoaOctets]

/-- The shape of a Base64 encoding: characters of the alphabet that decode to the octets,
then no, one or two padding characters up to a multiple of four. -/
theorem JS.btoaOctets_shape (bytes : List Nat) (hb : ∀ b ∈ bytes, b < 256) :
    ∃ body pad vs, JS.btoaOctets bytes = body ++ pad ∧
      (pad = [] ∨ pad = ['='] ∨ pad = ['=', '=']) ∧
      (body.length + pad.length) % 4 = 0 ∧
      JS.sextets body = some vs ∧ JS.atobSextets vs = bytes ∧ ∀ c ∈ body, c ≠ '=' := by
  induction bytes using JS.btoaOctets.induct with
  | case1 a b c rest ih =>
    have ha : a < 256 := hb a (by simp)
    have hb2 : b < 256 := hb b (by simp)
    have hc : c < 256 := hb c (by simp)
    obtain ⟨body, pad, vs, heq, hpad, hlen, hsex, hdec, hne⟩ :=
      ih (fun y hy => hb y (by simp [hy]))
    refine ⟨JS.base64Char (a / 4) :: JS.base64Char (a % 4 * 16 + b / 16) ::
        JS.base64Char (b % 16 * 4 + c / 64) :: JS.base64Char (c % 64) :: body, pad,
      a / 4 :: (a % 4 * 16 + b / 16) :: (b % 16 * 4 + c / 64) :: c % 64 :: vs,
      ?_, hpad, ?_, ?_, ?_, ?_⟩
    · simp [JS.btoaOctets, heq]
    · simp only [List.length_cons]
      omega
    · simp only [JS.sextets, JS.base64Value_base64Char (a / 4) (by omega),
        JS.base64Value_base64Char (a % 4 * 16 + b / 16) (by omega),
        JS.base64Value_base64Char (b % 16 * 4 + c / 64) (by omega),
        JS.base64Value_base64Char (c % 64) (by omega), hsex]
    · simp only [JS.atobSextets, hdec]
      congr 1
      · omega
      · congr 1
        · omega
        · congr 1
          omega
    · intro x hx
      simp only [List.mem_cons] at hx
      rcases hx with rfl | rfl | rfl | rfl | hx
      · exact JS.base64Char_ne_pad _ (by omega)
      · exact JS.base64Char_ne_pad _ (by omega)
      · exact JS.base64Char_ne_pad _ (by omega)
      · exact JS.base64Char_ne_pad _ (by omega)
      · exact hne x hx
  | case2 a b =>
    have ha : a < 256 := hb a (by simp)
    have hb2 : b < 256 := hb b (by simp)
    refine ⟨[JS.base64Char (a / 4), JS.base64Char (a % 4 * 16 + b / 16),
        JS.base64Char (b % 16 * 4)], ['='],
      [a / 4, a % 4 * 16 + b / 16, b % 16 * 4], ?_, Or.inr (Or.inl rfl), by simp, ?_, ?_, ?_⟩
    · simp [JS.btoaOctets]
    · simp only [JS.sextets, JS.base64Value_base64Char (a / 4) (by omega),
        JS.base64Value_base64Char (a % 4 * 16 + b / 16) (by omega),
        JS.base64Value_base64Char (b % 16 * 4) (by omega)]
    · simp only [JS.atobSextets]
      congr 1
      · omega
      · congr 1
        omega
    · intro x hx
      simp only [List.mem_cons, List.mem_singleton] at hx
      rcases hx with rfl | rfl | rfl | hx
      · exact JS.base64Char_ne_pad _ (by omega)
      · exact JS.base64Char_ne_pad _ (by omega)
      · exact JS.base64Char_ne_pad _ (by omega)
      · simp at hx
  | case3 a =>
    have ha : a < 256 := hb a (by simp)
    refine ⟨[JS.base64Char (a / 4), JS.base64Char (a % 4 * 16)], ['=', '='],
      [a / 4, a % 4 * 16], ?_, Or.inr (Or.inr rfl), by simp, ?_, ?_, ?_⟩
    · simp [JS.btoaOctets]
    · simp only [JS.sextets, JS.base64Value_base64Char (a / 4) (by omega),
        JS.base64Value_base64Char (a % 4 * 16) (by omega)]
    · simp only [JS.atobSextets]
      congr 1
      omega
    · intro x hx
      simp only [List.mem_cons, List.mem_singleton] at hx
      rcases hx with rfl | rfl | hx
      · exact JS.base64Char_ne_pad _ (by omega)
      · exact JS.base64Char_ne_pad _ (by omega)
      · simp at hx
  | case4 =>
    exact ⟨[], [], [], rfl, Or.inl rfl, rfl, rfl, rfl, by simp⟩

/-- Removing the padding of a padded encoding leaves the part before the padding. -/
theorem JS.stripPadding_append (body pad : List Char)
    (hpad : pad = [] ∨ pad = ['='] ∨ pad = ['=', '='])
    (hlen : (body.length + pad.length) % 4 = 0) (hne : ∀ c ∈ body, c ≠ '=') :
    JS.stripPadding (body ++ pad) = body := by
  unfold JS.stripPadding
  rw [if_pos (by simpa using hlen)]
  rcases hpad with rfl | rfl | rfl
  · simp only [List.append_nil]
    cases hr : body.reverse with
    | nil => simp
    | cons c1 t =>
      have hc1 : c1 ≠ '=' := hne c1 (by
        have : c1 ∈ body.reverse := by rw [hr]; simp
        simpa using this)
      cases t with
      | nil => simp [hc1]
      | cons c2 r => simp [hc1]
  · simp only [List.reverse_append, List.reverse_cons, List.reverse_nil, List.nil_append,
      List.cons_append]
    cases hr : body.reverse with
    | nil =>
      have : body = [] := by simpa using hr
      simp [this]
    | cons c2 r =>
      have hc2 : c2 ≠ '=' := hne c2 (by
        have : c2 ∈ body.reverse := by rw [hr]; simp
        simpa using this)
      have hb : body = (c2 :: r).reverse := by rw [← hr, List.reverse_reverse]
      simp [hc2, hb]
  · simp only [List.reverse_append, List.reverse_cons, List.reverse_nil, List.nil_append,
      List.cons_append]
    simp

/-- Decoding undoes Base64 encoding, on Latin-1 characters. -/
theorem JS.atob_btoa (u : String) (hlatin : ∀ c ∈ u.data, c.toNat < 256) :
    ∃ b, JS.btoa u = .ok b ∧ JS.atob b = .ok u ∧
      (u.data ≠ [] → b.data ≠ []) ∧ ∀ x ∈ b.data, JS.lineTerminator x = false := by
  have hbytes : ∀ b ∈ u.data.map Char.toNat, b < 256 := by
    intro b hb
    obtain ⟨c, hc, rfl⟩ := List.mem_map.1 hb
    exact hlatin c hc
  have hall : u.data.all (fun c => decide (c.toNat < 256)) = true := by
    simpa using hlatin
  refine ⟨⟨JS.btoaOctets (u.data.map Char.toNat)⟩, ?_, ?_, ?_, ?_⟩
  · unfold JS.btoa
    rw [if_pos hall]
  · obtain ⟨body, pad, vs, heq, hpad, hlen, hsex, hdec, hne⟩ :=
      JS.btoaOctets_shape (u.data.map Char.toNat) hbytes
    have hfilter : (JS.btoaOctets (u.data.map Char.toNat)).filter
        (fun c => !JS.asciiWhitespace c) = JS.btoaOctets (u.data.map Char.toNat) := by
      rw [List.filter_eq_self]
      intro x hx
      simp [(JS.btoaOctets_chars _ hbytes x hx).1]
    have hbody : body.length % 4 ≠ 1 := by
      rcases hpad with rfl | rfl | rfl <;> simp at hlen <;> omega
    have hmap : (u.data.map Char.toNat).map Char.ofNat = u.data := by
      rw [List.map_map]
      conv_rhs => rw [← List.map_id u.data]
      apply List.map_congr_left
      intro c _
      simp [Char.ofNat_toNat]
    rw [heq] at hfilter
    unfold JS.atob
    dsimp only
    rw [heq, hfilter, JS.stripPadding_append body pad hpad hlen hne, if_neg hbody, hsex]
    dsimp only
    rw [hdec, hmap]
  · intro hu
    exact JS.btoaOctets_ne_nil _ (by simpa using hu)
  · intro x hx
    exact (JS.btoaOctets_chars _ hbytes x hx).2

theorem JS.mem_stripPadding (data : List Char) (c : Char) (hc : c ∈ data) (hne : c ≠ '=') :
    c ∈ JS.stripPadding data := by
  unfold JS.stripPadding
  split
  · have hrev : c ∈ data.reverse := by simpa using hc
    split
    · rename_i c1 c2 r hr
      rw [hr] at hrev
      simp only [List.mem_cons] at hrev
      split
      · rename_i h1
        split
        · rename_i h2
          rcases hrev with rfl | rfl | h
          · exact absurd h1 hne
          · exact absurd h2 hne
          · simpa using h
        · rcases hrev with rfl | rfl | h
          · exact absurd h1 hne
          · simp
          · simp [h]
      · exact hc
    · rename_i c1 hr
      rw [hr] at hrev
      simp only [List.mem_singleton] at hrev
      split
      · rename_i h1
        exact absurd (hrev ▸ h1) hne
      · exact hc
    · exact hc
  · exact hc

theorem JS.sextets_of_mem (data : List Char) (c : Char) (hc : c ∈ data)
    (hv : JS.base64Value c = none) : JS.sextets data = none := by
  induction data with
  | nil => simp at hc
  | cons x xs ih =>
    unfold JS.sextets
    rcases List.mem_cons.1 hc with rfl | h
    · rw [hv]
    · rw [ih h]
      cases JS.base64Value x <;> rfl

/-- The function `atob` throws on every string with a percent sign. -/
theorem JS.atob_of_percent (s : String) (h : '%' ∈ s.data) : ∃ e, JS.atob s = .error e := by
  have h1 : '%' ∈ s.data.filter (fun c => !JS.asciiWhitespace c) :=
    List.mem_filter.2 ⟨h, by decide⟩
  have h2 := JS.mem_stripPadding _ '%' h1 (by decide)
  have h3 := JS.sextets_of_mem _ '%' h2 (by decide)
  unfold JS.atob
  dsimp only
  split
  · exact ⟨_, rfl⟩
  · rw [h3]
    exact ⟨_, rfl⟩

/-- A character that is escaped leaves a percent sign in the encoding. -/
theorem JS.percent_mem_encodeChars (cs : List Char) (c : Char) (hc : c ∈ cs)
    (hu : JS.uriUnreserved c = false) : '%' ∈ JS.encodeChars JS.uriUnreserved cs := by
  induction cs with
  | nil => simp at hc
  | cons x xs ih =>
    unfold JS.encodeChars
    rcases List.mem_cons.1 hc with rfl | h
    · rw [hu]
      simp only [Bool.false_eq_true, if_false]
      apply List.mem_append_left
      unfold JS.utf8Octets
      split_ifs <;> simp [JS.percentEscape]
    · exact List.mem_append_right _ (ih h)

theorem JS.uriUnreserved_not_lineTerminator (c : Char) (h : JS.uriUnreserved c = true) :
    JS.lineTerminator c = false := by
  cases hl : JS.lineTerminator c with
  | false => rfl
  | true =>
    exfalso
    simp only [JS.lineTerminator, Bool.or_eq_true, decide_eq_true_eq] at hl
    rcases hl with ((rfl | rfl) | rfl) | rfl <;> revert h <;> decide

theorem JS.hexDigit_not_lineTerminator (d : Nat) (h : d < 16) :
    JS.lineTerminator (JS.hexDigit d) = false := by
  interval_cases d <;> rfl

theorem JS.percentEscape_not_lineTerminator (b : Nat) (h : b < 256) :
    ∀ x ∈ JS.percentEscape b, JS.lineTerminator x = false := by
  intro x hx
  simp only [JS.percentEscape, List.mem_cons, List.not_mem_nil, or_false] at hx
  rcases hx with rfl | rfl | rfl
  · rfl
  · exact JS.hexDigit_not_lineTerminator _ (by omega)
  · exact JS.hexDigit_not_lineTerminator _ (by omega)

/-- The encoding of Latin-1 characters has no line terminator. -/
theorem JS.encodeChars_not_lineTerminator (cs : List Char) (hlatin : ∀ c ∈ cs, c.toNat < 256) :
    ∀ x ∈ JS.encodeChars JS.uriUnreserved cs, JS.lineTerminator x = false := by
  induction cs with
  | nil => simp [JS.encodeChars]
  | cons c cs ih =>
    have hc : c.toNat < 256 := hlatin c (List.mem_cons_self _ _)
    intro x hx
    unfold JS.encodeChars at hx
    rcases List.mem_append.1 hx with h | h
    · by_cases hu : JS.uriUnreserved c = true
      · rw [if_pos hu] at h
        simp only [List.mem_singleton] at h
        rw [h]
        exact JS.uriUnreserved_not_lineTerminator c hu
      · rw [if_neg hu] at h
        obtain ⟨b, hb, hxb⟩ := List.mem_flatMap.1 h
        apply JS.percentEscape_not_lineTerminator b _ x hxb
        unfold JS.utf8Octets at hb
        split_ifs at hb with h1 h2 h3
        · simp only [List.mem_singleton] at hb
          omega
        · simp only [List.mem_cons, List.not_mem_nil, or_false] at hb
          rcases hb with rfl | rfl <;> omega
        · omega
        · omega
    · exact ih (fun y hy => hlatin y (List.mem_cons_of_mem _ hy)) x h

/-- The pattern of `extractS3UrlFromPath` matches a slash, a dash and a non-empty rest
without line terminator, and captures the rest. -/
theorem JS.matchDashPath_of_rest (s : String) (hne : s.data ≠ [])
    (hline : ∀ x ∈ s.data, JS.lineTerminator x = false) :
    JS.matchDashPath ("/-" ++ s) = some s := by
  have hdata : ("/-" ++ s).data = '/' :: '-' :: s.data := by
    rw [String.data_append]
    rfl
  have hall : s.data.all (fun c => !JS.lineTerminator c) = true := by
    rw [List.all_eq_true]
    intro x hx
    simp [hline x hx]
  have hempty : s.data.isEmpty = false := by
    cases h : s.data with
    | nil => exact absurd h hne
    | cons _ _ => rfl
  unfold JS.matchDashPath
  rw [hdata]
  simp [hall, hempty]

/-! ## The URL carried in the page path: C20 -/

/-- C20: `App.extractS3UrlFromPath` returns a URL from both of its encodings.  For every
string `u` of Latin-1 characters that the URL parser accepts, the function returns `u` for
the path made of a slash, a dash and `encodeURIComponent(u)`, and for the path made of a
slash, a dash and `btoa(u)` (which does not throw), and `atob` throws on
`encodeURIComponent(u)`, so that the Base64 attempt made first does not decode a
percent-encoded URL.  The hypothesis that `u` has a colon holds for every string the
platform parser accepts, which without a base URL needs a scheme followed by a colon. -/
theorem App.extractS3UrlFromPath_round_trip (parseURL : URLParser) (u : String)
    (record : URLRecord) (hparse : parseURL u = some record) (hcolon : ':' ∈ u.data)
    (hlatin : ∀ c ∈ u.data, c.toNat < 256) :
    App.extractS3UrlFromPath parseURL ("/-" ++ JS.encodeURIComponent u) = some u ∧
      (∃ b, JS.btoa u = .ok b ∧ App.extractS3UrlFromPath parseURL ("/-" ++ b) = some u) ∧
      ∃ e, JS.atob (JS.encodeURIComponent u) = .error e := by
  have hvalid : App.isValidUrl parseURL u = true := by
    unfold App.isValidUrl
    rw [hparse]
    rfl
  have hpercent : '%' ∈ (JS.encodeURIComponent u).data :=
    JS.percent_mem_encodeChars u.data ':' hcolon (by decide)
  obtain ⟨e, he⟩ := JS.atob_of_percent (JS.encodeURIComponent u) hpercent
  refine ⟨?_, ?_, e, he⟩
  · have hmatch := JS.matchDashPath_of_rest (JS.encodeURIComponent u)
      (List.ne_nil_of_mem hpercent) (JS.encodeChars_not_lineTerminator u.data hlatin)
    unfold App.extractS3UrlFromPath
    rw [hmatch]
    dsimp only
    rw [he]
    dsimp only
    rw [JS.decodeURIComponent_encodeURIComponent u hlatin]
    dsimp only
    rw [if_pos hvalid]
  · obtain ⟨b, hb, hab, hne, hline⟩ := JS.atob_btoa u hlatin
    refine ⟨b, hb, ?_⟩
    have hmatch := JS.matchDashPath_of_rest b (hne (List.ne_nil_of_mem hcolon)) hline
    unfold App.extractS3UrlFromPath
    rw [hmatch]
    dsimp only
    rw [hab]
    dsimp only
    rw [if_pos hvalid]

/-- C20 at a signed URL with a Latin-1 letter in its query. -/
theorem App.extractS3UrlFromPath_round_trip_witness :
    (Sample.parserAt Sample.carriedUrl Sample.carriedRecord Sample.carriedUrl
        = some Sample.carriedRecord ∧
      ':' ∈ Sample.carriedUrl.data ∧ ∀ c ∈ Sample.carriedUrl.data, c.toNat < 256) ∧
    (App.extractS3UrlFromPath (Sample.parserAt Sample.carriedUrl Sample.carriedRecord)
          ("/-" ++ JS.encodeURIComponent Sample.carriedUrl) = some Sample.carriedUrl ∧
      (∃ b, JS.btoa Sample.carriedUrl = .ok b ∧
        App.extractS3UrlFromPath (Sample.parserAt Sample.carriedUrl Sample.carriedRecord)
          ("/-" ++ b) = some Sample.carriedUrl) ∧
      ∃ e, JS.atob (JS.encodeURIComponent Sample.carriedUrl) = .error e) :=
  ⟨⟨by decide, by decide, by decide⟩,
    App.extractS3UrlFromPath_round_trip (Sample.parserAt Sample.carriedUrl Sample.carriedRecord)
      Sample.carriedUrl Sample.carriedRecord (by decide) (by decide) (by decide)⟩

/-! ## Lemmas on maps and on the extraction of an archive -/

theorem JS.JSMap.lookup_map_set {β : Type} (m : JS.JSMap β) (key k : String) (v : β) :
    List.lookup k (m.map (fun kv => if kv.1 == key then (key, v) else kv))
      = if k = key then (List.lookup key m).map (fun _ => v) else List.lookup k m := by
  induction m with
  | nil => simp
  | cons kv rest ih =>
    obtain ⟨a, b⟩ := kv
    rw [List.map_cons]
    by_cases hak : a = key
    · subst hak
      have e1 : ((a, b).1 == a) = true := by simp
      rw [if_pos e1]
      by_cases hk : k = a
      · subst hk
        simp [List.lookup_cons]
      · have e2 : (k == a) = false := by simpa using hk
        rw [if_neg hk] at ih ⊢
        simp only [List.lookup_cons, e2]
        exact ih
    · have e1 : ¬ (((a, b).1 == key) = true) := by simpa using hak
      rw [if_neg e1]
      by_cases hk : k = key
      · subst hk
        have e2 : (k == a) = false := by simpa using fun h : k = a => hak h.symm
        rw [if_pos rfl] at ih ⊢
        simp only [List.lookup_cons, e2]
        exact ih
      · rw [if_neg hk] at ih ⊢
        by_cases hka : k = a
        · subst hka
          simp [List.lookup_cons]
        · have e2 : (k == a) = false := by simpa using hka
          simp only [List.lookup_cons, e2]
          exact ih

/-- Reading a map after `set`. -/
theorem JS.JSMap.get_set {β : Type} (m : JS.JSMap β) (key k : String) (v : β) :
    JS.JSMap.get (JS.JSMap.set m key v) k = if k = key then some v else JS.JSMap.get m k := by
  unfold JS.JSMap.get JS.JSMap.set
  by_cases h : (List.lookup key m).isSome = true
  · rw [if_pos h, JS.JSMap.lookup_map_set]
    obtain ⟨x, hx⟩ := Option.isSome_iff_exists.1 h
    by_cases hk : k = key
    · simp [hk, hx]
    · simp [hk]
  · rw [if_neg h, List.lookup_append]
    have hnone : List.lookup key m = none := by
      cases hl : List.lookup key m with
      | none => rfl
      | some x => simp [hl] at h
    by_cases hk : k = key
    · subst hk
      simp [hnone, List.lookup_cons]
    · have e2 : (k == key) = false := by simpa using hk
      simp [hk, List.lookup_cons, e2]

theorem JS.JSMap.has_set {β : Type} (m : JS.JSMap β) (key k : String) (v : β) :
    JS.JSMap.has (JS.JSMap.set m key v) k = true ↔ JS.JSMap.has m k = true ∨ k = key := by
  have h := JS.JSMap.get_set m key k v
  unfold JS.JSMap.has
  unfold JS.JSMap.get at h
  rw [h]
  by_cases hk : k = key
  · simp [hk]
  · simp [hk]

/-- When no extraction fails, every member that is not a directory has a content. -/
theorem Viewer.content_of_extractionFailure (zip : List ZipEntry)
    (hext : Viewer.extractionFailure zip = none) :
    ∀ e ∈ zip, e.dir = false → ∃ blob, e.content = .ok blob := by
  induction zip with
  | nil => simp
  | cons x xs ih =>
    intro e he hdir
    unfold Viewer.extractionFailure at hext
    rcases List.mem_cons.1 he with rfl | h
    · rw [hdir] at hext
      simp only [Bool.false_eq_true, if_false] at hext
      cases hc : e.content with
      | ok blob => exact ⟨blob, rfl⟩
      | error err => simp [hc] at hext
    · apply ih _ e h hdir
      by_cases hx : x.dir = true
      · simpa [hx] using hext
      · simp only [hx, if_false] at hext
        cases hc : x.content with
        | ok blob => simpa [hc] using hext
        | error err => simp [hc] at hext

/-- A key that no extracted member has keeps its entry. -/
theorem Viewer.storeExtracted_get_other (zip : List ZipEntry) (key : String)
    (hkey : ∀ e ∈ zip, e.dir = false → e.name ≠ key)
    (w : World) (files : JS.JSMap File) (blobURLs : List String) :
    JS.JSMap.get (Viewer.storeExtracted zip w files blobURLs).2.1 key
      = JS.JSMap.get files key := by
  induction zip generalizing w files blobURLs with
  | nil => rfl
  | cons x xs ih =>
    have hxs : ∀ e ∈ xs, e.dir = false → e.name ≠ key :=
      fun e he => hkey e (List.mem_cons_of_mem _ he)
    unfold Viewer.storeExtracted
    split
    · exact ih hxs w files blobURLs
    · rename_i hdir
      have hx : x.name ≠ key := hkey x (List.mem_cons_self _ _) (by simpa using hdir)
      split
      · refine (ih hxs _ _ _).trans ?_
        rw [JS.JSMap.get_set, if_neg (fun h => hx h.symm)]
      · exact ih hxs w files blobURLs

/-- The entry stored for a member whose name no later member has. -/
theorem Viewer.storeExtracted_get_entry (pre post : List ZipEntry) (e : ZipEntry) (blob : Blob)
    (hdir : e.dir = false) (hcontent : e.content = .ok blob)
    (hpost : ∀ x ∈ post, x.name ≠ e.name)
    (w : World) (files : JS.JSMap File) (blobURLs : List String) :
    JS.JSMap.get (Viewer.storeExtracted (pre ++ e :: post) w files blobURLs).2.1 e.name
      = some ⟨e.name, ⟨blob.bytes, Viewer.getMimeType e.name⟩⟩ := by
  induction pre generalizing w files blobURLs with
  | nil =>
    rw [List.nil_append]
    unfold Viewer.storeExtracted
    rw [hdir, hcontent]
    simp only [Bool.false_eq_true, if_false]
    refine (Viewer.storeExtracted_get_other post e.name (fun x hx _ => hpost x hx) _ _ _).trans ?_
    rw [JS.JSMap.get_set, if_pos rfl]
  | cons x xs ih =>
    rw [List.cons_append]
    unfold Viewer.storeExtracted
    split
    · exact ih w files blobURLs
    · split
      · exact ih _ _ _
      · exact ih w files blobURLs

/-- The keys of the extracted-files map. -/
theorem Viewer.storeExtracted_has (zip : List ZipEntry) (key : String)
    (w : World) (files : JS.JSMap File) (blobURLs : List String) :
    JS.JSMap.has (Viewer.storeExtracted zip w files blobURLs).2.1 key = true ↔
      JS.JSMap.has files key = true ∨
        ∃ e ∈ zip, e.dir = false ∧ (∃ blob, e.content = .ok blob) ∧ e.name = key := by
  induction zip generalizing w files blobURLs with
  | nil => simp [Viewer.storeExtracted]
  | cons x xs ih =>
    unfold Viewer.storeExtracted
    split
    · rename_i hdir
      rw [ih w files blobURLs]
      constructor
      · rintro (h | ⟨e, he, h⟩)
        · exact Or.inl h
        · exact Or.inr ⟨e, List.mem_cons_of_mem _ he, h⟩
      · rintro (h | ⟨e, he, hd, h⟩)
        · exact Or.inl h
        · rcases List.mem_cons.1 he with rfl | he
          · rw [hdir] at hd
            cases hd
          · exact Or.inr ⟨e, he, hd, h⟩
    · rename_i hdir
      split
      · rename_i blob hblob
        rw [ih, JS.JSMap.has_set]
        constructor
        · rintro ((h | h) | ⟨e, he, h⟩)
          · exact Or.inl h
          · exact Or.inr ⟨x, List.mem_cons_self _ _, by simpa using hdir, ⟨blob, hblob⟩, h.symm⟩
          · exact Or.inr ⟨e, List.mem_cons_of_mem _ he, h⟩
        · rintro (h | ⟨e, he, hd, hc, hn⟩)
          · exact Or.inl (Or.inl h)
          · rcases List.mem_cons.1 he with rfl | he
            · exact Or.inl (Or.inr hn.symm)
            · exact Or.inr ⟨e, he, hd, hc, hn⟩
      · rename_i err herr
        rw [ih w files blobURLs]
        constructor
        · rintro (h | ⟨e, he, h⟩)
          · exact Or.inl h
          · exact Or.inr ⟨e, List.mem_cons_of_mem _ he, h⟩
        · rintro (h | ⟨e, he, hd, ⟨b, hb⟩, hn⟩)
          · exact Or.inl h
          · rcases List.mem_cons.1 he with rfl | he
            · rw [herr] at hb
              cases hb
            · exact Or.inr ⟨e, he, hd, ⟨b, hb⟩, hn⟩

/-- The entry of the extracted-files map for a member of an archive with distinct names. -/
theorem Viewer.storeExtracted_get_of_mem (zip : List ZipEntry)
    (hnodup : (zip.map ZipEntry.name).Nodup) (e : ZipEntry) (he : e ∈ zip) (blob : Blob)
    (hdir : e.dir = false) (hcontent : e.content = .ok blob)
    (w : World) (blobURLs : List String) :
    JS.JSMap.get (Viewer.storeExtracted zip w [] blobURLs).2.1 e.name
      = some ⟨e.name, ⟨blob.bytes, Viewer.getMimeType e.name⟩⟩ := by
  obtain ⟨pre, post, rfl⟩ := List.append_of_mem he
  apply Viewer.storeExtracted_get_entry pre post e blob hdir hcontent
  intro x hx hname
  rw [List.map_append, List.map_cons, List.nodup_append] at hnodup
  have h2 := (List.nodup_cons.1 hnodup.2.1).1
  exact h2 (hname ▸ List.mem_map_of_mem ZipEntry.name hx)

/-- The selection of the primary document: the first member that is not a directory and
whose name ends in `.gltf` in any letter case. -/
theorem Viewer.gltfFiles_first (zip : List ZipEntry) (main : String) (rest : List String)
    (hmain : Viewer.gltfFiles zip = main :: rest) :
    ∃ pre e post, zip = pre ++ e :: post ∧ e.name = main ∧ e.dir = false ∧
      EndsWithIgnoringCase e.name ".gltf" ∧
      ∀ x ∈ pre, ¬ (x.dir = false ∧ EndsWithIgnoringCase x.name ".gltf") := by
  unfold Viewer.gltfFiles at hmain
  obtain ⟨e, es, hfilter, hname, _⟩ := List.map_eq_cons_iff.1 hmain
  obtain ⟨pre, post, hzip, hpre, he, _⟩ := List.filter_eq_cons_iff.1 hfilter
  simp only [Bool.and_eq_true, Bool.not_eq_true', JS.endsWith_toLowerCase_iff _ _
    (show ".gltf".data.map Char.toLower = ".gltf".data by decide)] at he hpre
  refine ⟨pre, e, post, hzip, hname, he.2, he.1, ?_⟩
  intro x hx h
  exact hpre x hx ⟨h.2, h.1⟩

theorem Viewer.loadZipFile_of_response (env : Platform) (url rootPath : String)
    (assetMap : JS.JSMap File) (w : World) (response : Response)
    (hfetch : env.fetch url = .ok response) :
    Viewer.loadZipFile env url rootPath assetMap w
      = Viewer.zipFetchSettled env (.ok response) (w.emit (Event.fetch url)) := by
  show Viewer.zipFetchSettled env (env.fetch url) (w.emit (Event.fetch url)) = _
  rw [hfetch]

theorem Viewer.loadZipEntries_of_failure (env : Platform) (zip : List ZipEntry) (w : World)
    (main : String) (rest : List String) (err : JS.JSError)
    (hmain : Viewer.gltfFiles zip = main :: rest)
    (hext : Viewer.extractionFailure zip = some err) :
    Viewer.loadZipEntries env zip w
      = (.error err, (Viewer.storeExtracted zip (Viewer.startExtraction zip w) [] []).1) := by
  simp only [Viewer.loadZipEntries_unfold, hmain, hext]

/-- The events of the archive strategy when every member extracts: quiet events up to the
creation of the object URL of the primary document, then the install of the archive
resolver, the loader call on that object URL, and quiet events. -/
theorem Viewer.loadZipFile_log_of_extracted (env : Platform) (url rootPath : String)
    (assetMap : JS.JSMap File) (w : World) (response : Response) (zip : List ZipEntry)
    (main : String) (rest : List String) (mainFile : File)
    (hfetch : env.fetch url = .ok response) (hok : response.ok = true)
    (hzip : env.loadAsync response.body = .ok zip)
    (hmain : Viewer.gltfFiles zip = main :: rest)
    (hext : Viewer.extractionFailure zip = none)
    (hget : JS.JSMap.get (Viewer.storeExtracted zip World.init [] []).2.1 main
      = some mainFile) :
    ∃ w2 q, World.QuietStep w w2 ∧
      (Viewer.loadZipFile env url rootPath assetMap w).2.log
        = (w2.createObjectURL mainFile.blob).2.log ++
          Event.setURLModifier (Resolver.archive (Viewer.storeExtracted zip World.init [] []).2.1)
            :: Event.parse (w2.createObjectURL mainFile.blob).1 :: q ∧
      ∀ x ∈ q, x.quiet = true := by
  rw [Viewer.loadZipFile_of_response env url rootPath assetMap w response hfetch,
    (Viewer.zipFetchSettled_log env (.ok response) (w.emit (Event.fetch url))).2.2.2
      response zip rfl hok hzip,
    Viewer.loadZipEntries_of_extracted env zip ((w.emit (Event.fetch url)).emit Event.loadAsync)
      main rest mainFile hmain hext hget]
  have hpre : World.QuietStep w (Viewer.storeExtracted zip
      (Viewer.startExtraction zip ((w.emit (Event.fetch url)).emit Event.loadAsync)) [] []).1 :=
    (((World.quietStep_emit w (Event.fetch url) rfl).trans
      (World.quietStep_emit _ Event.loadAsync rfl)).trans
      (Viewer.quietStep_startExtraction zip _)).trans
      (Viewer.quietStep_storeExtracted zip _ [] [])
  generalize (Viewer.storeExtracted zip
    (Viewer.startExtraction zip ((w.emit (Event.fetch url)).emit Event.loadAsync)) [] []) = st
    at hpre ⊢
  obtain ⟨w2, files2, urls2⟩ := st
  dsimp only at hpre ⊢
  obtain ⟨_, q, hl, hq⟩ := Viewer.gltfLoaderLoad_quiet env
    (w2.createObjectURL mainFile.blob).1 Viewer.revokingOnLoad Viewer.revokingOnError
    Viewer.revokingOnLoad_quiet (fun e w b => World.quietStep_revokeAll w b)
    ((w2.createObjectURL mainFile.blob).2.setURLModifier
      (Resolver.archive (Viewer.storeExtracted zip World.init [] []).2.1))
    (urls2 ++ [(w2.createObjectURL mainFile.blob).1])
  refine ⟨w2, q, hpre, ?_, hq⟩
  rw [hl]
  simp [World.setURLModifier]

/-- The result of `Viewer.prepareArchive` when every member extracts: the object URL created
for the file stored under the name of the primary document, and the world in which the
loader is called. -/
theorem Viewer.prepareArchive_of_extracted (zip : List ZipEntry) (w : World)
    (main : String) (rest : List String) (mainFile : File)
    (hmain : Viewer.gltfFiles zip = main :: rest)
    (hext : Viewer.extractionFailure zip = none)
    (hget : JS.JSMap.get (Viewer.storeExtracted zip World.init [] []).2.1 main
      = some mainFile) :
    Viewer.prepareArchive zip w
      = (.ok (((Viewer.storeExtracted zip (Viewer.startExtraction zip w) [] []).1.createObjectURL
              mainFile.blob).1,
            (Viewer.storeExtracted zip (Viewer.startExtraction zip w) [] []).2.2 ++
              [((Viewer.storeExtracted zip (Viewer.startExtraction zip w) [] []).1.createObjectURL
                mainFile.blob).1]),
          ((Viewer.storeExtracted zip (Viewer.startExtraction zip w) [] []).1.createObjectURL
              mainFile.blob).2.setURLModifier
            (Resolver.archive (Viewer.storeExtracted zip World.init [] []).2.1)) := by
  have hfiles := Viewer.storeExtracted_files zip (Viewer.startExtraction zip w) World.init
    [] [] []
  rw [← hfiles] at hget ⊢
  simp only [Viewer.prepareArchive, hmain, hext, hget]

/-- After `Viewer.prepareArchive` the archive callback is the call of the loader on the
object URL of the primary document. -/
theorem Viewer.loadZipEntries_of_prepared (env : Platform) (zip : List ZipEntry) (w : World)
    (doc : String) (blobURLs : List String) (w4 : World)
    (h : Viewer.prepareArchive zip w = (.ok (doc, blobURLs), w4)) :
    Viewer.loadZipEntries env zip w
      = (.ok (Viewer.gltfLoaderLoad env doc Viewer.revokingOnLoad Viewer.revokingOnError
            w4 blobURLs).1,
          (Viewer.gltfLoaderLoad env doc Viewer.revokingOnLoad Viewer.revokingOnError
            w4 blobURLs).2) := by
  unfold Viewer.loadZipEntries
  rw [h]
  rfl

/-- A fetched archive that `Viewer.prepareArchive` accepts: the load is the call of the
loader on the object URL of the primary document. -/
theorem Viewer.loadZipFile_of_prepared (env : Platform) (url rootPath : String)
    (assetMap : JS.JSMap File) (w : World) (response : Response) (zip : List ZipEntry)
    (doc : String) (blobURLs : List String) (w4 : World)
    (hfetch : env.fetch url = .ok response) (hok : response.ok = true)
    (hzip : env.loadAsync response.body = .ok zip)
    (h : Viewer.prepareArchive zip ((w.emit (Event.fetch url)).emit Event.loadAsync)
      = (.ok (doc, blobURLs), w4)) :
    Viewer.loadZipFile env url rootPath assetMap w
      = Viewer.gltfLoaderLoad env doc Viewer.revokingOnLoad Viewer.revokingOnError
          w4 blobURLs := by
  rw [Viewer.loadZipFile_of_response env url rootPath assetMap w response hfetch]
  simp only [Viewer.zipFetchSettled, hok, hzip,
    Viewer.loadZipEntries_of_prepared env zip _ doc blobURLs w4 h]
  rfl

/-! ## The archive strategy: primary document and extracted map, C21 and C22 -/

/-- C21: in `Viewer.loadZipFile`, on an archive with at least one matching member (the names
of the members being distinct, as the keys of `zip.files` are), the primary document is the
first member, in enumeration order, that is not a directory and whose name ends in `.gltf`
in any letter case.  When every member extracts, the object URL `doc` passed to the loader
is registered, in the world `w4` in which the loader is called, for a blob with the bytes of
that member: `Viewer.prepareArchive` ends with the creation of `doc` for those bytes and the
install of the archive resolver, the load is the call of the loader on `doc` in `w4`, and
that call is the only one.  When an extraction fails, the loader is not called. -/
theorem Viewer.primary_document_is_first_match (env : Platform) (url rootPath : String)
    (assetMap : JS.JSMap File) (w : World) (response : Response) (zip : List ZipEntry)
    (main : String) (rest : List String)
    (hfetch : env.fetch url = .ok response) (hok : response.ok = true)
    (hzip : env.loadAsync response.body = .ok zip)
    (hnodup : (zip.map ZipEntry.name).Nodup)
    (hmain : Viewer.gltfFiles zip = main :: rest) :
    ∃ pre e post, zip = pre ++ e :: post ∧ e.name = main ∧ e.dir = false ∧
      EndsWithIgnoringCase e.name ".gltf" ∧
      (∀ x ∈ pre, ¬ (x.dir = false ∧ EndsWithIgnoringCase x.name ".gltf")) ∧
      (Viewer.extractionFailure zip = none →
        ∃ blob w2 doc blobURLs w4 q, e.content = .ok blob ∧ World.QuietStep w w2 ∧
          Viewer.prepareArchive zip ((w.emit (Event.fetch url)).emit Event.loadAsync)
            = (.ok (doc, blobURLs), w4) ∧
          w4.objectURLs
            = w2.objectURLs ++ [(doc, ⟨blob.bytes, Viewer.getMimeType e.name⟩)] ∧
          w4.log
            = w2.log ++ [Event.createObjectURL doc,
                Event.setURLModifier
                  (Resolver.archive (Viewer.storeExtracted zip World.init [] []).2.1)] ∧
          Viewer.loadZipFile env url rootPath assetMap w
            = Viewer.gltfLoaderLoad env doc Viewer.revokingOnLoad Viewer.revokingOnError
                w4 blobURLs ∧
          (Viewer.loadZipFile env url rootPath assetMap w).2.log
            = w4.log ++ Event.parse doc :: q ∧
          ∀ x ∈ q, x.quiet = true) ∧
      (∀ err, Viewer.extractionFailure zip = some err →
        World.QuietStep w (Viewer.loadZipFile env url rootPath assetMap w).2) := by
  obtain ⟨pre, e, post, hsplit, hname, hdir, hends, hfirst⟩ :=
    Viewer.gltfFiles_first zip main rest hmain
  refine ⟨pre, e, post, hsplit, hname, hdir, hends, hfirst, ?_, ?_⟩
  · intro hext
    have he : e ∈ zip := by
      rw [hsplit]
      simp
    obtain ⟨blob, hblob⟩ := Viewer.content_of_extractionFailure zip hext e he hdir
    have hget := Viewer.storeExtracted_get_of_mem zip hnodup e he blob hdir hblob World.init []
    rw [hname] at hget
    have hprep := Viewer.prepareArchive_of_extracted zip
      ((w.emit (Event.fetch url)).emit Event.loadAsync) main rest _ hmain hext hget
    have hpre : World.QuietStep w (Viewer.storeExtracted zip
        (Viewer.startExtraction zip ((w.emit (Event.fetch url)).emit Event.loadAsync)) [] []).1 :=
      (((World.quietStep_emit w (Event.fetch url) rfl).trans
        (World.quietStep_emit _ Event.loadAsync rfl)).trans
        (Viewer.quietStep_startExtraction zip _)).trans
        (Viewer.quietStep_storeExtracted zip _ [] [])
    have hload := Viewer.loadZipFile_of_prepared env url rootPath assetMap w response zip _ _ _
      hfetch hok hzip hprep
    generalize (Viewer.storeExtracted zip
      (Viewer.startExtraction zip ((w.emit (Event.fetch url)).emit Event.loadAsync)) [] []) = st
      at hpre hprep hload
    obtain ⟨w2, files2, urls2⟩ := st
    dsimp only at hpre hprep hload
    obtain ⟨_, q, hl, hq⟩ := Viewer.gltfLoaderLoad_quiet env
      (w2.createObjectURL ⟨blob.bytes, Viewer.getMimeType main⟩).1
      Viewer.revokingOnLoad Viewer.revokingOnError
      Viewer.revokingOnLoad_quiet (fun e w b => World.quietStep_revokeAll w b)
      ((w2.createObjectURL ⟨blob.bytes, Viewer.getMimeType main⟩).2.setURLModifier
        (Resolver.archive (Viewer.storeExtracted zip World.init [] []).2.1))
      (urls2 ++ [(w2.createObjectURL ⟨blob.bytes, Viewer.getMimeType main⟩).1])
    refine ⟨blob, w2, _, _, _, q, hblob, hpre, hprep, ?_, ?_, hload, ?_, hq⟩
    · rw [hname]
      rfl
    · simp [World.setURLModifier, World.createObjectURL]
    · rw [hload, hl]
  · intro err herr
    rw [Viewer.loadZipFile_of_response env url rootPath assetMap w response hfetch,
      (Viewer.zipFetchSettled_log env (.ok response) (w.emit (Event.fetch url))).2.2.2
        response zip rfl hok hzip,
      Viewer.loadZipEntries_of_failure env zip _ main rest err hmain herr]
    exact (((World.quietStep_emit w (Event.fetch url) rfl).trans
      (World.quietStep_emit _ Event.loadAsync rfl)).trans
      (Viewer.quietStep_startExtraction zip _)).trans
      (Viewer.quietStep_storeExtracted zip _ [] [])

/-- C21 at an archive with a directory, a texture and the documents `Scene.GLTF` and
`other.gltf`, in this order: the loader is called on `blob:3`, the object URL registered for
the bytes of `Scene.GLTF`. -/
theorem Viewer.primary_document_is_first_match_witness :
    (Sample.okResponse.ok = true ∧
      (Sample.zipTwoDocuments.map ZipEntry.name).Nodup ∧
      Viewer.gltfFiles Sample.zipTwoDocuments = "Scene.GLTF" :: ["other.gltf"]) ∧
    (∃ pre e post, Sample.zipTwoDocuments = pre ++ e :: post ∧ e.name = "Scene.GLTF" ∧
      e.dir = false ∧ EndsWithIgnoringCase e.name ".gltf" ∧
      (∀ x ∈ pre, ¬ (x.dir = false ∧ EndsWithIgnoringCase x.name ".gltf")) ∧
      (Viewer.extractionFailure Sample.zipTwoDocuments = none →
        ∃ blob w2 doc blobURLs w4 q, e.content = .ok blob ∧ World.QuietStep World.init w2 ∧
          Viewer.prepareArchive Sample.zipTwoDocuments
              ((World.init.emit (Event.fetch "https://example.org/a.zip")).emit Event.loadAsync)
            = (.ok (doc, blobURLs), w4) ∧
          w4.objectURLs
            = w2.objectURLs ++ [(doc, ⟨blob.bytes, Viewer.getMimeType e.name⟩)] ∧
          w4.log
            = w2.log ++ [Event.createObjectURL doc,
                Event.setURLModifier
                  (Resolver.archive
                    (Viewer.storeExtracted Sample.zipTwoDocuments World.init [] []).2.1)] ∧
          Viewer.loadZipFile (Sample.serving Sample.okResponse Sample.zipTwoDocuments)
              "https://example.org/a.zip" "" [] World.init
            = Viewer.gltfLoaderLoad (Sample.serving Sample.okResponse Sample.zipTwoDocuments)
                doc Viewer.revokingOnLoad Viewer.revokingOnError w4 blobURLs ∧
          (Viewer.loadZipFile (Sample.serving Sample.okResponse Sample.zipTwoDocuments)
              "https://example.org/a.zip" "" [] World.init).2.log
            = w4.log ++ Event.parse doc :: q ∧
          ∀ x ∈ q, x.quiet = true) ∧
      (∀ err, Viewer.extractionFailure Sample.zipTwoDocuments = some err →
        World.QuietStep World.init
          (Viewer.loadZipFile (Sample.serving Sample.okResponse Sample.zipTwoDocuments)
            "https://example.org/a.zip" "" [] World.init).2)) ∧
    Viewer.prepareArchive Sample.zipTwoDocuments
        ((World.init.emit (Event.fetch "https://example.org/a.zip")).emit Event.loadAsync)
      = (.ok ("blob:3", ["blob:0", "blob:1", "blob:2", "blob:3"]),
          ⟨4,
            [("blob:0", ⟨[137, 80, 78, 71, 2], ""⟩), ("blob:1", ⟨[123, 49, 125], ""⟩),
             ("blob:2", ⟨[123, 50, 125], ""⟩),
             ("blob:3", ⟨[123, 49, 125], "model/gltf+json"⟩)],
            some (Resolver.archive
              (Viewer.storeExtracted Sample.zipTwoDocuments World.init [] []).2.1),
            [Event.fetch "https://example.org/a.zip", Event.loadAsync,
             Event.extract "textures/a.png", Event.extract "Scene.GLTF",
             Event.extract "other.gltf", Event.createObjectURL "blob:0",
             Event.createObjectURL "blob:1", Event.createObjectURL "blob:2",
             Event.createObjectURL "blob:3",
             Event.setURLModifier (Resolver.archive
               (Viewer.storeExtracted Sample.zipTwoDocuments World.init [] []).2.1)]⟩) ∧
    (Viewer.loadZipFile (Sample.serving Sample.okResponse Sample.zipTwoDocuments)
        "https://example.org/a.zip" "" [] World.init).2.log
      = [Event.fetch "https://example.org/a.zip", Event.loadAsync,
         Event.extract "textures/a.png", Event.extract "Scene.GLTF",
         Event.extract "other.gltf", Event.createObjectURL "blob:0",
         Event.createObjectURL "blob:1", Event.createObjectURL "blob:2",
         Event.createObjectURL "blob:3",
         Event.setURLModifier (Resolver.archive
           (Viewer.storeExtracted Sample.zipTwoDocuments World.init [] []).2.1),
         Event.parse "blob:3", Event.revokeObjectURL "blob:0", Event.revokeObjectURL "blob:1",
         Event.revokeObjectURL "blob:2", Event.revokeObjectURL "blob:3"] :=
  ⟨⟨by decide, by decide, by decide⟩,
    Viewer.primary_document_is_first_match
      (Sample.serving Sample.okResponse Sample.zipTwoDocuments) "https://example.org/a.zip" "" []
      World.init Sample.okResponse Sample.zipTwoDocuments "Scene.GLTF" ["other.gltf"]
      (by rfl) (by decide) (by rfl) (by decide) (by decide),
    by rfl, by rfl⟩

/-- C22: in `Viewer.loadZipFile`, when every member extracts (the archive having a primary
document and distinct member names), the resolver installed is the archive resolver over a
map built from the empty map: its keys are exactly the names of the members that are not
directories, each key is mapped to a file with the bytes of its member, and the root path
and the asset map passed by the caller do not enter the load. -/
theorem Viewer.archive_map_is_fresh (env : Platform) (url rootPath : String)
    (assetMap : JS.JSMap File) (w : World) (response : Response) (zip : List ZipEntry)
    (main : String) (rest : List String)
    (hfetch : env.fetch url = .ok response) (hok : response.ok = true)
    (hzip : env.loadAsync response.body = .ok zip)
    (hnodup : (zip.map ZipEntry.name).Nodup)
    (hmain : Viewer.gltfFiles zip = main :: rest)
    (hext : Viewer.extractionFailure zip = none) :
    (Viewer.loadZipFile env url rootPath assetMap w).2.urlModifier
        = some (Resolver.archive (Viewer.storeExtracted zip World.init [] []).2.1) ∧
      Event.setURLModifier (Resolver.archive (Viewer.storeExtracted zip World.init [] []).2.1)
        ∈ (Viewer.loadZipFile env url rootPath assetMap w).2.log ∧
      (∀ key, JS.JSMap.has (Viewer.storeExtracted zip World.init [] []).2.1 key = true ↔
        ∃ e ∈ zip, e.dir = false ∧ e.name = key) ∧
      (∀ e ∈ zip, e.dir = false → ∃ blob, e.content = .ok blob ∧
        JS.JSMap.get (Viewer.storeExtracted zip World.init [] []).2.1 e.name
          = some ⟨e.name, ⟨blob.bytes, Viewer.getMimeType e.name⟩⟩) ∧
      ∀ rootPath2 assetMap2, Viewer.loadZipFile env url rootPath2 assetMap2 w
        = Viewer.loadZipFile env url rootPath assetMap w := by
  have hcontent := Viewer.content_of_extractionFailure zip hext
  obtain ⟨pre, e, post, hsplit, hname, hdir, _, _⟩ := Viewer.gltfFiles_first zip main rest hmain
  have he : e ∈ zip := by
    rw [hsplit]
    simp
  obtain ⟨blob, hblob⟩ := hcontent e he hdir
  have hget := Viewer.storeExtracted_get_of_mem zip hnodup e he blob hdir hblob World.init []
  rw [hname] at hget
  obtain ⟨hm, hlog, _⟩ := Viewer.zipFetchSettled_installs env response
    (w.emit (Event.fetch url)) zip main rest _ hok hzip hmain hext hget
  rw [Viewer.loadZipFile_of_response env url rootPath assetMap w response hfetch]
  refine ⟨hm, hlog, ?_, ?_, fun _ _ => ?_⟩
  · intro key
    rw [Viewer.storeExtracted_has]
    constructor
    · rintro (h | ⟨x, hx, hd, _, hn⟩)
      · simp [JS.JSMap.has] at h
      · exact ⟨x, hx, hd, hn⟩
    · rintro ⟨x, hx, hd, hn⟩
      exact Or.inr ⟨x, hx, hd, hcontent x hx hd, hn⟩
  · intro x hx hd
    obtain ⟨b, hb⟩ := hcontent x hx hd
    exact ⟨b, hb, Viewer.storeExtracted_get_of_mem zip hnodup x hx b hd hb World.init []⟩
  · rw [Viewer.loadZipFile_of_response env url _ _ w response hfetch]

/-- C22 at an archive with a directory, a texture and two documents: the map installed has
the three keys of the members that are not directories. -/
theorem Viewer.archive_map_is_fresh_witness :
    (Sample.okResponse.ok = true ∧
      (Sample.zipTwoDocuments.map ZipEntry.name).Nodup ∧
      Viewer.gltfFiles Sample.zipTwoDocuments = "Scene.GLTF" :: ["other.gltf"] ∧
      Viewer.extractionFailure Sample.zipTwoDocuments = none) ∧
    ((Viewer.loadZipFile (Sample.serving Sample.okResponse Sample.zipTwoDocuments)
          "https://example.org/a.zip" "models/" [("models/textures/b.png", Sample.texture)]
          World.init).2.urlModifier
        = some (Resolver.archive
            (Viewer.storeExtracted Sample.zipTwoDocuments World.init [] []).2.1) ∧
      Event.setURLModifier (Resolver.archive
          (Viewer.storeExtracted Sample.zipTwoDocuments World.init [] []).2.1)
        ∈ (Viewer.loadZipFile (Sample.serving Sample.okResponse Sample.zipTwoDocuments)
          "https://example.org/a.zip" "models/" [("models/textures/b.png", Sample.texture)]
          World.init).2.log ∧
      (∀ key,
        JS.JSMap.has (Viewer.storeExtracted Sample.zipTwoDocuments World.init [] []).2.1 key
            = true ↔
          ∃ e ∈ Sample.zipTwoDocuments, e.dir = false ∧ e.name = key) ∧
      (∀ e ∈ Sample.zipTwoDocuments, e.dir = false → ∃ blob, e.content = .ok blob ∧
        JS.JSMap.get (Viewer.storeExtracted Sample.zipTwoDocuments World.init [] []).2.1 e.name
          = some ⟨e.name, ⟨blob.bytes, Viewer.getMimeType e.name⟩⟩) ∧
      ∀ rootPath2 assetMap2,
        Viewer.loadZipFile (Sample.serving Sample.okResponse Sample.zipTwoDocuments)
            "https://example.org/a.zip" rootPath2 assetMap2 World.init
          = Viewer.loadZipFile (Sample.serving Sample.okResponse Sample.zipTwoDocuments)
            "https://example.org/a.zip" "models/" [("models/textures/b.png", Sample.texture)]
            World.init) ∧
    (Viewer.storeExtracted Sample.zipTwoDocuments World.init [] []).2.1
      = [("textures/a.png", ⟨"textures/a.png", ⟨[137, 80, 78, 71, 2], "image/png"⟩⟩),
         ("Scene.GLTF", ⟨"Scene.GLTF", ⟨[123, 49, 125], "model/gltf+json"⟩⟩),
         ("other.gltf", ⟨"other.gltf", ⟨[123, 50, 125], "model/gltf+json"⟩⟩)] :=
  ⟨⟨by decide, by decide, by decide, by rfl⟩,
    Viewer.archive_map_is_fresh (Sample.serving Sample.okResponse Sample.zipTwoDocuments)
      "https://example.org/a.zip" "models/" [("models/textures/b.png", Sample.texture)]
      World.init Sample.okResponse Sample.zipTwoDocuments "Scene.GLTF" ["other.gltf"]
      (by rfl) (by decide) (by rfl) (by decide) (by decide) (by rfl),
    by decide⟩

/-! ## Lemmas on the calls of `fetch` -/

theorem fetchCount_append (a b : List Event) :
    fetchCount (a ++ b) = fetchCount a + fetchCount b :=
  List.countP_append _ _ _

theorem World.noFetchStep_refl (w : World) : World.NoFetchStep w w :=
  ⟨[], by simp, rfl⟩

theorem World.noFetchStep_trans {a b c : World} (h1 : World.NoFetchStep a b)
    (h2 : World.NoFetchStep b c) : World.NoFetchStep a c := by
  obtain ⟨e1, l1, q1⟩ := h1
  obtain ⟨e2, l2, q2⟩ := h2
  refine ⟨e1 ++ e2, by rw [l2, l1, List.append_assoc], ?_⟩
  rw [fetchCount_append, q1, q2]

theorem World.noFetchStep_emit (w : World) (e : Event) (h : e.isFetch = false) :
    World.NoFetchStep w (w.emit e) :=
  ⟨[e], rfl, by simp [fetchCount, h]⟩

theorem World.noFetchStep_createObjectURL (w : World) (b : Blob) :
    World.NoFetchStep w (w.createObjectURL b).2 :=
  ⟨[Event.createObjectURL (w.createObjectURL b).1], rfl, by simp [fetchCount, Event.isFetch]⟩

theorem World.noFetchStep_revokeObjectURL (w : World) (url : String) :
    World.NoFetchStep w (w.revokeObjectURL url) :=
  ⟨[Event.revokeObjectURL url], rfl, by simp [fetchCount, Event.isFetch]⟩

theorem World.noFetchStep_setURLModifier (w : World) (r : Resolver) :
    World.NoFetchStep w (w.setURLModifier r) :=
  ⟨[Event.setURLModifier r], rfl, by simp [fetchCount, Event.isFetch]⟩

theorem Viewer.noFetchStep_applyResolver (env : Platform) (r : Resolver) (url : String)
    (path : Option String) (w : World) (blobURLs : List String) :
    World.NoFetchStep w (Viewer.applyResolver env r url path w blobURLs).2.1 := by
  unfold Viewer.applyResolver
  cases r with
  | default rootPath baseURL assetMap =>
    dsimp only
    split
    · exact World.noFetchStep_refl w
    · split
      · exact World.noFetchStep_createObjectURL w _
      · exact World.noFetchStep_refl w
  | signedUrl baseURL =>
    dsimp only
    split
    · split <;> exact World.noFetchStep_refl w
    · exact World.noFetchStep_refl w
  | archive extractedFiles =>
    dsimp only
    split
    · exact World.noFetchStep_refl w
    · split
      · exact World.noFetchStep_createObjectURL w _
      · split
        · exact World.noFetchStep_createObjectURL w _
        · exact World.noFetchStep_refl w

theorem Viewer.noFetchStep_resolveRequests (env : Platform) (refs : List String) (w : World)
    (blobURLs : List String) :
    World.NoFetchStep w (Viewer.resolveRequests env refs w blobURLs).2.1 := by
  induction refs generalizing w blobURLs with
  | nil => exact World.noFetchStep_refl w
  | cons ref refs ih =>
    unfold Viewer.resolveRequests
    split
    · exact ih w blobURLs
    · rename_i r hr
      have hstep := Viewer.noFetchStep_applyResolver env r ref none w blobURLs
      split
      · rename_i u w1 b1 heq
        rw [heq] at hstep
        exact World.noFetchStep_trans hstep (ih w1 b1)
      · rename_i e w1 b1 heq
        rw [heq] at hstep
        exact hstep

/-- A call of the loader whose callbacks do not fetch does not fetch. -/
theorem Viewer.gltfLoaderLoad_noFetch (env : Platform) (url : String)
    (onLoad : GLTF → World → List String → Except JS.JSError (Settlement × World))
    (onError : ErrorValue → World → List String → Settlement × World)
    (hLoad : ∀ gltf w b r, onLoad gltf w b = .ok r → World.NoFetchStep w r.2)
    (hError : ∀ e w b, World.NoFetchStep w (onError e w b).2)
    (w : World) (blobURLs : List String) :
    World.NoFetchStep w (Viewer.gltfLoaderLoad env url onLoad onError w blobURLs).2 := by
  refine World.noFetchStep_trans (World.noFetchStep_emit w (Event.parse url) rfl) ?_
  unfold Viewer.gltfLoaderLoad
  have hres := Viewer.noFetchStep_resolveRequests env (env.gltfLoad url).requests
    (w.emit (Event.parse url)) blobURLs
  dsimp only
  split
  · rename_i e w1 b1 heq
    rw [heq] at hres
    exact World.noFetchStep_trans hres (hError _ w1 b1)
  · rename_i u w1 b1 heq
    rw [heq] at hres
    split
    · exact World.noFetchStep_trans hres (hError _ w1 b1)
    · split
      · rename_i r hr
        exact World.noFetchStep_trans hres (hLoad _ _ _ _ hr)
      · exact World.noFetchStep_trans hres (hError _ w1 b1)

theorem Viewer.signedOnLoad_noFetch (blobURL : String) (gltf : GLTF) (w : World)
    (b : List String) (r : Settlement × World)
    (h : Viewer.signedOnLoad blobURL gltf w b = .ok r) : World.NoFetchStep w r.2 := by
  unfold Viewer.signedOnLoad at h
  split at h
  · cases h
  · rename_i scene hs
    cases h
    exact World.noFetchStep_trans (World.noFetchStep_emit w (Event.setContent scene) rfl)
      (World.noFetchStep_revokeObjectURL _ _)

/-- The signed-URL fetch chain, once the fetch has settled, does not fetch again. -/
theorem Viewer.signedFetchSettled_noFetch (env : Platform) (url : String)
    (outcome : Except JS.JSError Response) (w : World) :
    World.NoFetchStep w (Viewer.signedFetchSettled env url outcome w).2 := by
  cases outcome with
  | error e => exact World.noFetchStep_refl w
  | ok response =>
    by_cases hok : response.ok = true
    · by_cases hhtml : ∀ ct, response.contentType = some ct → JS.includes ct "text/html" = false
      · rw [Viewer.signedFetchSettled_of_body env url response w hok hhtml]
        exact World.noFetchStep_trans
          (World.noFetchStep_trans (World.noFetchStep_createObjectURL w response.body)
            (World.noFetchStep_setURLModifier _ _))
          (Viewer.gltfLoaderLoad_noFetch env _ _ _ (Viewer.signedOnLoad_noFetch _)
            (fun e w b => World.noFetchStep_revokeObjectURL w _) _ [])
      · push_neg at hhtml
        obtain ⟨ct, hct, hinc⟩ := hhtml
        rw [Viewer.signedFetchSettled_of_html env url response w ct hok hct
          (by simpa using hinc)]
        exact World.noFetchStep_refl w
    · rw [Viewer.signedFetchSettled_of_status env url response w (by simpa using hok)]
      exact World.noFetchStep_refl w

theorem loaderCalls_length_installThenParse (own : Resolver → Prop) (current : Option Resolver)
    (evs : List Event) (h : InstallThenParse own evs) :
    (loaderCalls current evs).length ≤ 1 := by
  obtain ⟨q1, tail, rfl, hq1, htail⟩ := h
  rw [loaderCalls_quiet _ _ _ hq1]
  rcases htail with rfl | ⟨r, url, q2, _, rfl, hq2⟩
  · simp [loaderCalls]
  · simp [loaderCalls, loaderCalls_of_quiet _ _ hq2]

/-- The fetch phase of a signed-URL load fetches once and calls the loader at most once. -/
theorem Viewer.loadS3SignedUrlWithFetch_counts (env : Platform) (url rootPath : String)
    (assetMap : JS.JSMap File) (w : World) (current : Option Resolver) :
    ∃ evs, (Viewer.loadS3SignedUrlWithFetch env url rootPath assetMap w).2.log = w.log ++ evs ∧
      fetchCount evs = 1 ∧ (loaderCalls current evs).length ≤ 1 := by
  obtain ⟨evs, hl, hshape⟩ := Viewer.loadS3SignedUrlWithFetch_log env url rootPath assetMap w
  refine ⟨evs, hl, ?_, loaderCalls_length_installThenParse _ current evs hshape⟩
  have hrun : Viewer.loadS3SignedUrlWithFetch env url rootPath assetMap w
      = Viewer.signedFetchSettled env url (env.fetch url) (w.emit (Event.fetch url)) := rfl
  obtain ⟨evs2, hl2, hc2⟩ := Viewer.signedFetchSettled_noFetch env url (env.fetch url)
    (w.emit (Event.fetch url))
  rw [hrun] at hl
  have heq : evs = Event.fetch url :: evs2 := by
    have h := hl.symm.trans hl2
    simp only [World.emit, List.append_assoc, List.singleton_append] at h
    exact List.append_cancel_left h
  rw [heq]
  simp [fetchCount, Event.isFetch] at hc2 ⊢
  exact hc2

/-- The direct attempt of a signed-URL load that shows its scene settles the load. -/
theorem Viewer.loadS3SignedUrl_of_shows (env : Platform) (url rootPath : String)
    (assetMap : JS.JSMap File) (w : World) (gltf : GLTF) (scene : Scene)
    (h : Viewer.DirectAttemptShows env url w gltf scene) :
    Viewer.loadS3SignedUrl env url rootPath assetMap w
      = (Settlement.resolved gltf,
          (Viewer.resolveRequests env (env.gltfLoad url).requests
            ((w.setURLModifier (Resolver.signedUrl (extractUrlBase url))).emit
              (Event.parse url)) []).2.1.emit (Event.setContent scene)) := by
  obtain ⟨hres, hresult, hscene⟩ := h
  unfold Viewer.loadS3SignedUrl Viewer.gltfLoaderLoad
  dsimp only
  generalize Viewer.resolveRequests env (env.gltfLoad url).requests
    ((w.setURLModifier (Resolver.signedUrl (extractUrlBase url))).emit (Event.parse url)) []
    = st at hres ⊢
  obtain ⟨res, w1, b1⟩ := st
  dsimp only at hres
  subst hres
  dsimp only
  rw [hresult]
  dsimp only
  rw [hscene]

/-- In every other case the error callback of the direct attempt runs the fetch phase. -/
theorem Viewer.loadS3SignedUrl_of_not_shows (env : Platform) (url rootPath : String)
    (assetMap : JS.JSMap File) (w : World)
    (h : ¬ ∃ gltf scene, Viewer.DirectAttemptShows env url w gltf scene) :
    Viewer.loadS3SignedUrl env url rootPath assetMap w
      = Viewer.loadS3SignedUrlWithFetch env url rootPath assetMap
          (Viewer.resolveRequests env (env.gltfLoad url).requests
            ((w.setURLModifier (Resolver.signedUrl (extractUrlBase url))).emit
              (Event.parse url)) []).2.1 := by
  unfold Viewer.DirectAttemptShows at h
  unfold Viewer.loadS3SignedUrl Viewer.gltfLoaderLoad
  dsimp only
  generalize Viewer.resolveRequests env (env.gltfLoad url).requests
    ((w.setURLModifier (Resolver.signedUrl (extractUrlBase url))).emit (Event.parse url)) []
    = st at h ⊢
  obtain ⟨res, w1, b1⟩ := st
  dsimp only at h ⊢
  cases res with
  | error e => rfl
  | ok u =>
    dsimp only
    cases hresult : (env.gltfLoad url).result with
    | error err => rfl
    | ok gltf =>
      dsimp only
      cases hscene : Viewer.pickScene gltf with
      | none => rfl
      | some scene => exact absurd ⟨gltf, scene, rfl, hresult, hscene⟩ h

/-! ## The two phases of a signed-URL load: C23 -/

/-- C23 as claimed fails: the direct attempt finishes with a result that has no scene, the
success callback is called, throws, and the loader hands the exception to the error
callback, which runs the fetch phase.  The load fetches, calls the loader a second time and
resolves with the result of the fetch phase. -/
theorem Viewer.fetch_phase_after_success_callback :
    (Sample.retrying.gltfLoad Sample.signedGlbUrl).result = .ok Sample.sceneless ∧
      (Viewer.resolveRequests Sample.retrying (Sample.retrying.gltfLoad Sample.signedGlbUrl).requests
        ((World.init.setURLModifier (Resolver.signedUrl (extractUrlBase Sample.signedGlbUrl))).emit
          (Event.parse Sample.signedGlbUrl)) []).1 = .ok () ∧
      Viewer.loadS3SignedUrl Sample.retrying Sample.signedGlbUrl "" [] World.init
        = (Settlement.resolved Sample.gltfA,
            ⟨1, [], some (Resolver.signedUrl "https://bucket.s3.amazonaws.com/"),
              [Event.setURLModifier (Resolver.signedUrl "https://bucket.s3.amazonaws.com/"),
               Event.parse Sample.signedGlbUrl,
               Event.fetch Sample.signedGlbUrl,
               Event.createObjectURL "blob:0",
               Event.setURLModifier (Resolver.signedUrl "https://bucket.s3.amazonaws.com/"),
               Event.parse "blob:0",
               Event.setContent 1,
               Event.revokeObjectURL "blob:0"]⟩) :=
  ⟨by rfl, by rfl, by rfl⟩

/-- C23, amended: in `Viewer.loadS3SignedUrl` the loader is called at most twice.  When the
success callback of the direct attempt runs to its end (the document loads and has a scene)
the load resolves with that result and `fetch` is not called.  In every other case, which
is when the error callback of the direct attempt runs, the load is the run of
`Viewer.loadS3SignedUrlWithFetch` from the world reached at that point, so it settles as
the fetch phase settles, and `fetch` is called exactly once. -/
theorem Viewer.fetch_phase_on_error_callback (env : Platform) (url rootPath : String)
    (assetMap : JS.JSMap File) (w : World) :
    ∃ evs, (Viewer.loadS3SignedUrl env url rootPath assetMap w).2.log = w.log ++ evs ∧
      (loaderCalls none evs).length ≤ 2 ∧
      (∀ gltf scene, Viewer.DirectAttemptShows env url w gltf scene →
        (Viewer.loadS3SignedUrl env url rootPath assetMap w).1 = Settlement.resolved gltf ∧
          fetchCount evs = 0) ∧
      ((¬ ∃ gltf scene, Viewer.DirectAttemptShows env url w gltf scene) →
        fetchCount evs = 1 ∧
          ∃ w1, World.NoFetchStep w w1 ∧
            Viewer.loadS3SignedUrl env url rootPath assetMap w
              = Viewer.loadS3SignedUrlWithFetch env url rootPath assetMap w1) := by
  obtain ⟨_, q, hq, hquiet⟩ := Viewer.quietStep_resolveRequests env (env.gltfLoad url).requests
    ((w.setURLModifier (Resolver.signedUrl (extractUrlBase url))).emit (Event.parse url)) []
  obtain ⟨q2, hq2, hcount⟩ := Viewer.noFetchStep_resolveRequests env
    (env.gltfLoad url).requests
    ((w.setURLModifier (Resolver.signedUrl (extractUrlBase url))).emit (Event.parse url)) []
  have hqq : q2 = q := List.append_cancel_left (hq2.symm.trans hq)
  subst hqq
  have hlog0 : ((w.setURLModifier (Resolver.signedUrl (extractUrlBase url))).emit
      (Event.parse url)).log
      = w.log ++ [Event.setURLModifier (Resolver.signedUrl (extractUrlBase url)),
          Event.parse url] := by
    simp [World.setURLModifier, World.emit]
  by_cases h : ∃ gltf scene, Viewer.DirectAttemptShows env url w gltf scene
  · obtain ⟨gltf, scene, hshows⟩ := h
    refine ⟨Event.setURLModifier (Resolver.signedUrl (extractUrlBase url)) ::
      Event.parse url :: (q2 ++ [Event.setContent scene]), ?_, ?_, ?_, ?_⟩
    · rw [Viewer.loadS3SignedUrl_of_shows env url rootPath assetMap w gltf scene hshows]
      simp only [World.emit] at hq ⊢
      rw [hq]
      simp [World.setURLModifier]
    · simp only [loaderCalls]
      rw [loaderCalls_quiet _ _ _ hquiet]
      simp [loaderCalls]
    · intro gltf2 scene2 hshows2
      refine ⟨by rw [Viewer.loadS3SignedUrl_of_shows env url rootPath assetMap w gltf2 scene2
        hshows2], ?_⟩
      have e1 : fetchCount (Event.setURLModifier (Resolver.signedUrl (extractUrlBase url)) ::
          Event.parse url :: (q2 ++ [Event.setContent scene]))
          = fetchCount q2 := by
        simp [fetchCount, Event.isFetch]
      rw [e1, hcount]
    · intro hnot
      exact absurd ⟨gltf, scene, hshows⟩ hnot
  · have hrun := Viewer.loadS3SignedUrl_of_not_shows env url rootPath assetMap w h
    obtain ⟨evs2, hl2, hc2, hcalls2⟩ := Viewer.loadS3SignedUrlWithFetch_counts env url rootPath
      assetMap (Viewer.resolveRequests env (env.gltfLoad url).requests
        ((w.setURLModifier (Resolver.signedUrl (extractUrlBase url))).emit
          (Event.parse url)) []).2.1 (some (Resolver.signedUrl (extractUrlBase url)))
    refine ⟨Event.setURLModifier (Resolver.signedUrl (extractUrlBase url)) ::
      Event.parse url :: (q2 ++ evs2), ?_, ?_, ?_, ?_⟩
    · rw [hrun, hl2, hq, hlog0]
      simp
    · simp only [loaderCalls]
      rw [loaderCalls_quiet _ _ _ hquiet]
      simp only [List.length_cons]
      omega
    · intro gltf scene hshows
      exact absurd ⟨gltf, scene, hshows⟩ h
    · intro _
      constructor
      · have e1 : fetchCount (Event.setURLModifier (Resolver.signedUrl (extractUrlBase url)) ::
            Event.parse url :: (q2 ++ evs2)) = fetchCount q2 + fetchCount evs2 := by
          simp [fetchCount, Event.isFetch]
        rw [e1, hcount, hc2]
      · exact ⟨_, World.noFetchStep_trans
          (World.noFetchStep_trans (World.noFetchStep_setURLModifier w _)
            (World.noFetchStep_emit _ (Event.parse url) rfl)) ⟨q2, hq2, hcount⟩, hrun⟩

/-- C23, amended, at a direct attempt that shows its scene: the load resolves and `fetch`
is not called. -/
theorem Viewer.fetch_phase_on_error_callback_witness :
    Viewer.DirectAttemptShows Sample.direct Sample.signedGlbUrl World.init Sample.gltfA 1 ∧
    ∃ evs, (Viewer.loadS3SignedUrl Sample.direct Sample.signedGlbUrl "" [] World.init).2.log
        = World.init.log ++ evs ∧
      (loaderCalls none evs).length ≤ 2 ∧
      (∀ gltf scene,
        Viewer.DirectAttemptShows Sample.direct Sample.signedGlbUrl World.init gltf scene →
        (Viewer.loadS3SignedUrl Sample.direct Sample.signedGlbUrl "" [] World.init).1
            = Settlement.resolved gltf ∧
          fetchCount evs = 0) ∧
      ((¬ ∃ gltf scene,
          Viewer.DirectAttemptShows Sample.direct Sample.signedGlbUrl World.init gltf scene) →
        fetchCount evs = 1 ∧
          ∃ w1, World.NoFetchStep World.init w1 ∧
            Viewer.loadS3SignedUrl Sample.direct Sample.signedGlbUrl "" [] World.init
              = Viewer.loadS3SignedUrlWithFetch Sample.direct Sample.signedGlbUrl "" [] w1) :=
  ⟨⟨by rfl, by rfl, by rfl⟩,
    Viewer.fetch_phase_on_error_callback Sample.direct Sample.signedGlbUrl "" [] World.init⟩

/-! ## Lemmas on the signed-URL resolver, on `App.load` and on the file-type label -/

theorem isRelativeReference_iff (ref : String) :
    (JS.startsWith ref "./" || JS.startsWith ref "../" || !JS.includes ref "://") = true ↔
      IsRelativeReference ref := by
  unfold IsRelativeReference JS.startsWith
  simp only [Bool.or_eq_true, Bool.not_eq_true', List.isPrefixOf_iff_prefix, or_assoc]
  rw [← JS.includes_iff, Bool.not_eq_true]

/-- Every resolver a signed-URL load installs is the signed-URL resolver over the base of
its URL. -/
theorem Viewer.loadS3SignedUrl_installs_only (env : Platform) (url rootPath : String)
    (assetMap : JS.JSMap File) (w : World) (evs : List Event) (r : Resolver)
    (hl : (Viewer.loadS3SignedUrl env url rootPath assetMap w).2.log = w.log ++ evs)
    (hr : Event.setURLModifier r ∈ evs) :
    r = Resolver.signedUrl (extractUrlBase url) := by
  obtain ⟨q, evs2, hlog, hq, q1, tail, rfl, hq1, htail⟩ :=
    Viewer.loadS3SignedUrl_log env url rootPath assetMap w
  have heq := List.append_cancel_left (hl.symm.trans hlog)
  rw [heq] at hr
  have hquiet : ∀ l : List Event, (∀ e ∈ l, e.quiet = true) → Event.setURLModifier r ∉ l := by
    intro l hall hmem
    have := hall _ hmem
    simp [Event.quiet] at this
  simp only [List.mem_cons, List.mem_append, Event.setURLModifier.injEq, reduceCtorEq,
    false_or] at hr
  rcases hr with h | h | h | h
  · exact h
  · exact absurd h (hquiet q hq)
  · exact absurd h (hquiet q1 hq1)
  · rcases htail with rfl | ⟨r2, u, q2, hown, rfl, hq2⟩
    · simp at h
    · simp only [List.mem_cons, Event.setURLModifier.injEq, reduceCtorEq, false_or] at h
      rcases h with h | h
      · rw [h, hown]
      · exact absurd h (hquiet q2 hq2)

theorem App.pickRoot_of_no_match (l : List (String × File)) (acc : Option File × Option String)
    (h : ∀ kv ∈ l, App.isRootName kv.2.name = false) : App.pickRoot l acc = acc := by
  induction l generalizing acc with
  | nil => rfl
  | cons kv rest ih =>
    obtain ⟨path, file⟩ := kv
    unfold App.pickRoot
    have h1 : App.isRootName file.name = false := h (path, file) (List.mem_cons_self _ _)
    rw [h1]
    exact ih acc (fun kv hkv => h kv (List.mem_cons_of_mem _ hkv))

theorem App.pickRoot_of_some (l : List (String × File)) (file : File) (path : String) :
    ∃ f p, App.pickRoot l (some file, some path) = (some f, some p) := by
  induction l generalizing file path with
  | nil => exact ⟨file, path, rfl⟩
  | cons kv rest ih =>
    obtain ⟨p2, f2⟩ := kv
    unfold App.pickRoot
    split
    · exact ih _ _
    · exact ih _ _

theorem App.pickRoot_of_match (l : List (String × File)) (acc : Option File × Option String)
    (h : ∃ kv ∈ l, App.isRootName kv.2.name = true) :
    ∃ f p, App.pickRoot l acc = (some f, some p) := by
  induction l generalizing acc with
  | nil =>
    obtain ⟨kv, hkv, _⟩ := h
    simp at hkv
  | cons kv rest ih =>
    obtain ⟨path, file⟩ := kv
    unfold App.pickRoot
    split
    · exact App.pickRoot_of_some rest _ _
    · rename_i hno
      apply ih
      obtain ⟨kv, hkv, hm⟩ := h
      rcases List.mem_cons.1 hkv with rfl | hkv
      · exact absurd hm hno
      · exact ⟨kv, hkv, hm⟩

theorem App.isRootName_iff (name : String) :
    App.isRootName name = true ↔ ".gltf".data <:+ name.data ∨ ".glb".data <:+ name.data := by
  unfold App.isRootName JS.endsWith
  simp only [Bool.or_eq_true, List.isSuffixOf_iff_suffix]

theorem App.fileType_iff (url other : String) (hother : other ≠ "ZIP file") :
    App.fileType url other = "ZIP file" ↔ EndsWithIgnoringCase url ".zip" := by
  rw [← JS.endsWith_toLowerCase_iff _ _ (by decide)]
  unfold App.fileType
  split_ifs with h
  · simp [h]
  · simp [h, hother]

theorem Viewer.statusError_not_found (response : Response) (h : response.status = 404) :
    Viewer.statusError response = JS.newError
      ("CORS_404: File not found. Status: " ++ "404" ++ " " ++ response.statusText) := by
  have e : toString 404 = "404" := by decide
  simp [Viewer.statusError, h, e]

theorem App.not_found_message (statusText url : String)
    (h1 : ¬ "CORS_ERROR".data <:+: statusText.data)
    (h2 : ¬ "Failed to fetch".data <:+: statusText.data)
    (h3 : ¬ "CORS_403".data <:+: statusText.data) :
    App.onS3UrlError (ErrorValue.error (JS.newError
      ("CORS_404: File not found. Status: " ++ "404" ++ " " ++ statusText))) url
      = .ok ("File Not Found (404): The " ++ App.fileType url "glTF file"
        ++ " was not found at the provided URL.\n\n"
        ++ "The file may have been moved, deleted, or the URL may be incorrect.") := by
  rw [← JS.occursIn_iff] at h1 h2 h3
  have hne : ("CORS_404: File not found. Status: " ++ "404" ++ " " ++ statusText) ≠ "" := by
    intro h
    have := congrArg String.data h
    simp [String.data_append] at this
  have c1 : JS.includes ("CORS_404: File not found. Status: " ++ "404" ++ " " ++ statusText)
      "CORS_ERROR" = false := by
    simp only [JS.includes, String.data_append]
    simp [JS.occursIn, List.isPrefixOf, h1]
  have c2 : JS.includes ("CORS_404: File not found. Status: " ++ "404" ++ " " ++ statusText)
      "Failed to fetch" = false := by
    simp only [JS.includes, String.data_append]
    simp [JS.occursIn, List.isPrefixOf, h2]
  have c3 : JS.includes ("CORS_404: File not found. Status: " ++ "404" ++ " " ++ statusText)
      "CORS_403" = false := by
    simp only [JS.includes, String.data_append]
    simp [JS.occursIn, List.isPrefixOf, h3]
  have c4 : JS.includes ("CORS_404: File not found. Status: " ++ "404" ++ " " ++ statusText)
      "CORS_404" = true := by
    simp only [JS.includes, String.data_append]
    simp [JS.occursIn, List.isPrefixOf]
  simp only [App.onS3UrlError, App.rawMessage, JS.newError, if_neg hne, c1, c2, c3, c4]
  rfl

/-! ## The resolver of the signed-URL strategy: C24 -/

/-- C24: every resolver installed by a signed-URL load, in its direct attempt and in its
fetch phase, is the signed-URL resolver over the base of the URL, and the direct attempt
installs it.  Called on a reference that starts with `./` or `../` or does not contain
`://`, this resolver is the resolution of the reference against that base: it returns the
resolved URL, and throws when the constructor `new URL(reference, base)` throws.  Called on
any other reference it returns the reference unchanged.  It creates no object URL. -/
theorem Viewer.signed_resolver_rewrites_relative (env : Platform) (url rootPath : String)
    (assetMap : JS.JSMap File) (w : World) (ref : String) (path : Option String)
    (w2 : World) (blobURLs : List String) :
    (∀ evs r, (Viewer.loadS3SignedUrl env url rootPath assetMap w).2.log = w.log ++ evs →
        Event.setURLModifier r ∈ evs → r = Resolver.signedUrl (extractUrlBase url)) ∧
      Event.setURLModifier (Resolver.signedUrl (extractUrlBase url))
        ∈ (Viewer.loadS3SignedUrl env url rootPath assetMap w).2.log ∧
      (IsRelativeReference ref → ∀ full,
        env.resolveAgainst ref (extractUrlBase url) = some full →
        Viewer.applyResolver env (Resolver.signedUrl (extractUrlBase url)) ref path w2 blobURLs
          = (.ok full, w2, blobURLs)) ∧
      (IsRelativeReference ref → env.resolveAgainst ref (extractUrlBase url) = none →
        Viewer.applyResolver env (Resolver.signedUrl (extractUrlBase url)) ref path w2 blobURLs
          = (.error (JS.typeError "Invalid URL"), w2, blobURLs)) ∧
      (¬ IsRelativeReference ref →
        Viewer.applyResolver env (Resolver.signedUrl (extractUrlBase url)) ref path w2 blobURLs
          = (.ok ref, w2, blobURLs)) := by
  refine ⟨fun evs r hl hr =>
    Viewer.loadS3SignedUrl_installs_only env url rootPath assetMap w evs r hl hr, ?_, ?_, ?_, ?_⟩
  · obtain ⟨q, evs2, hlog, _, _⟩ := Viewer.loadS3SignedUrl_log env url rootPath assetMap w
    rw [hlog]
    simp
  · intro hrel full hfull
    have hc := (isRelativeReference_iff ref).2 hrel
    simp only [Viewer.applyResolver, hc, if_true, hfull]
  · intro hrel hnone
    have hc := (isRelativeReference_iff ref).2 hrel
    simp only [Viewer.applyResolver, hc, if_true, hnone]
  · intro hrel
    have hc : (JS.startsWith ref "./" || JS.startsWith ref "../" || !JS.includes ref "://")
        = false := by
      rw [← Bool.not_eq_true, isRelativeReference_iff]
      exact hrel
    simp only [Viewer.applyResolver, hc]
    rfl

/-- C24 at the base of a signed URL: the reference `textures/a.png` is resolved against the
base, and the absolute reference `https://cdn.example.org/a.png` is returned as it is. -/
theorem Viewer.signed_resolver_rewrites_relative_witness :
    (IsRelativeReference "textures/a.png" ∧
      ¬ IsRelativeReference "https://cdn.example.org/a.png") ∧
    Viewer.applyResolver Sample.resolving
        (Resolver.signedUrl (extractUrlBase Sample.signedGlbUrl)) "textures/a.png" none
        World.init []
      = (.ok "https://bucket.s3.amazonaws.com/textures/a.png", World.init, []) ∧
    Viewer.applyResolver Sample.resolving
        (Resolver.signedUrl (extractUrlBase Sample.signedGlbUrl))
        "https://cdn.example.org/a.png" none World.init []
      = (.ok "https://cdn.example.org/a.png", World.init, []) := by
  have h1 : IsRelativeReference "textures/a.png" := by
    rw [← isRelativeReference_iff]
    decide
  have h2 : ¬ IsRelativeReference "https://cdn.example.org/a.png" := by
    rw [← isRelativeReference_iff]
    decide
  exact ⟨⟨h1, h2⟩,
    (Viewer.signed_resolver_rewrites_relative Sample.resolving Sample.signedGlbUrl "" []
      World.init "textures/a.png" none World.init []).2.2.1 h1 _ (by decide),
    (Viewer.signed_resolver_rewrites_relative Sample.resolving Sample.signedGlbUrl "" []
      World.init "https://cdn.example.org/a.png" none World.init []).2.2.2.2 h2⟩

/-! ## The dropped file set: C25 -/

/-- C25: `App.load` calls `App.view` exactly once for every file map.  When no file has a
name that ends in `.gltf` or `.glb`, in lower case, it first reports
`No .gltf or .glb asset found.` through `App.onError` and then calls `App.view` with an
undefined root file and an undefined root path; when some file has such a name it calls
`App.view` with a root file and a root path and reports nothing. -/
theorem App.load_calls_view_once (fileMap : JS.JSMap File) :
    (App.load fileMap).countP App.Call.isView = 1 ∧
      ((∀ kv ∈ fileMap,
          ¬ (".gltf".data <:+ kv.2.name.data ∨ ".glb".data <:+ kv.2.name.data)) →
        App.load fileMap
          = [App.Call.alert "No .gltf or .glb asset found.",
              App.Call.view none none fileMap]) ∧
      ((∃ kv ∈ fileMap, ".gltf".data <:+ kv.2.name.data ∨ ".glb".data <:+ kv.2.name.data) →
        ∃ file path, App.load fileMap = [App.Call.view (some file) (some path) fileMap]) := by
  have hnone : (∀ kv ∈ fileMap,
      ¬ (".gltf".data <:+ kv.2.name.data ∨ ".glb".data <:+ kv.2.name.data)) →
      App.load fileMap
        = [App.Call.alert "No .gltf or .glb asset found.",
            App.Call.view none none fileMap] := by
    intro h
    have hpick := App.pickRoot_of_no_match fileMap (none, none) (fun kv hkv => by
      rw [← Bool.not_eq_true, App.isRootName_iff]
      exact h kv hkv)
    unfold App.load
    rw [hpick]
    rfl
  have hsome : (∃ kv ∈ fileMap,
      ".gltf".data <:+ kv.2.name.data ∨ ".glb".data <:+ kv.2.name.data) →
      ∃ file path, App.load fileMap = [App.Call.view (some file) (some path) fileMap] := by
    rintro ⟨kv, hkv, hm⟩
    obtain ⟨f, p, hpick⟩ := App.pickRoot_of_match fileMap (none, none)
      ⟨kv, hkv, (App.isRootName_iff _).2 hm⟩
    refine ⟨f, p, ?_⟩
    unfold App.load
    rw [hpick]
    rfl
  refine ⟨?_, hnone, hsome⟩
  by_cases h : ∃ kv ∈ fileMap, ".gltf".data <:+ kv.2.name.data ∨ ".glb".data <:+ kv.2.name.data
  · obtain ⟨f, p, hl⟩ := hsome h
    rw [hl]
    rfl
  · push_neg at h
    rw [hnone (fun kv hkv hm => by
      have := h kv hkv
      tauto)]
    rfl

/-- C25 at a file set with a texture and a document named `SCENE.GLTF`, and at a file set
with the document `scene.gltf`. -/
theorem App.load_calls_view_once_witness :
    App.load Sample.filesWithoutRoot
        = [App.Call.alert "No .gltf or .glb asset found.",
            App.Call.view none none Sample.filesWithoutRoot] ∧
      (App.load Sample.filesWithoutRoot).countP App.Call.isView = 1 ∧
      App.load Sample.filesWithRoot
        = [App.Call.view (some ⟨"scene.gltf", ⟨[123, 125], "model/gltf+json"⟩⟩)
            (some "models/") Sample.filesWithRoot] :=
  ⟨(App.load_calls_view_once Sample.filesWithoutRoot).2.1 (by
      intro kv hkv
      rw [← App.isRootName_iff, Bool.not_eq_true]
      revert kv
      decide),
    (App.load_calls_view_once Sample.filesWithoutRoot).1, by decide⟩

/-! ## The file-type label of the error messages: C26 -/

/-- C26 as claimed fails: the path of this signed URL ends in `.zip`, its query string is
not empty, `Viewer.isZipFile` is true and the load is the run of the archive strategy, and
yet a `CORS_404` error is reported as a missing `ZIP file`, because the query string ends
in `.zip` too. -/
theorem App.zip_label_with_query_ending_in_zip :
    Sample.parserAt Sample.zipNamedUrl Sample.zipNamedRecord Sample.zipNamedUrl
        = some Sample.zipNamedRecord ∧
      Sample.zipNamedRecord.pathname = "/scene.zip" ∧
      Sample.zipNamedRecord.searchParams ≠ [] ∧
      Viewer.isZipFile (Sample.parserAt Sample.zipNamedUrl Sample.zipNamedRecord)
        Sample.zipNamedUrl = true ∧
      App.onS3UrlError (ErrorValue.error (Viewer.statusError (Sample.notFound "Not Found")))
          Sample.zipNamedUrl
        = .ok ("File Not Found (404): The ZIP file was not found at the provided URL.\n\n"
          ++ "The file may have been moved, deleted, or the URL may be incorrect.") :=
  ⟨by decide, by rfl, by decide, by decide, by rfl⟩

/-- C26, amended: the label of `App.onS3UrlError` is `ZIP file` exactly when the whole URL
string ends in `.zip` in any letter case.  For a URL whose path ends in `.zip` and whose
whole string does not, `Viewer.isZipFile` is true and the load is the run of the archive
strategy; when its fetch answers 404 with a status text that contains none of `CORS_ERROR`,
`Failed to fetch` and `CORS_403`, the load rejects with the `CORS_404` error and the message
names a missing `glTF file`. -/
theorem App.zip_label_reads_whole_url (env : Platform) (url rootPath : String)
    (assetMap : JS.JSMap File) (w : World) (u : URLRecord) (response : Response)
    (hparse : env.parseURL url = some u)
    (hpath : EndsWithIgnoringCase u.pathname ".zip")
    (hurl : ¬ EndsWithIgnoringCase url ".zip")
    (hfetch : env.fetch url = .ok response) (hstatus : response.status = 404)
    (h1 : ¬ "CORS_ERROR".data <:+: response.statusText.data)
    (h2 : ¬ "Failed to fetch".data <:+: response.statusText.data)
    (h3 : ¬ "CORS_403".data <:+: response.statusText.data) :
    (∀ anyUrl other, other ≠ "ZIP file" →
        (App.fileType anyUrl other = "ZIP file" ↔ EndsWithIgnoringCase anyUrl ".zip")) ∧
      Viewer.isZipFile env.parseURL url = true ∧
      Viewer.load env url rootPath assetMap w
        = (Settlement.rejected (ErrorValue.error (Viewer.statusError response)),
            w.emit (Event.fetch url)) ∧
      "CORS_404".data <:+: (Viewer.statusError response).message.data ∧
      App.onS3UrlError (ErrorValue.error (Viewer.statusError response)) url
        = .ok ("File Not Found (404): The glTF file was not found at the provided URL.\n\n"
          ++ "The file may have been moved, deleted, or the URL may be incorrect.") := by
  have hz : Viewer.isZipFile env.parseURL url = true := by
    rw [Viewer.isZipFile_of_parse _ _ _ hparse, JS.endsWith_toLowerCase_iff _ _ (by decide)]
    exact hpath
  have hok : response.ok = false := by simp [Response.ok, hstatus]
  have hlabel : App.fileType url "glTF file" = "glTF file" := by
    unfold App.fileType
    rw [if_neg]
    rw [JS.endsWith_toLowerCase_iff _ _ (by decide)]
    exact hurl
  refine ⟨fun anyUrl other hother => App.fileType_iff anyUrl other hother, hz, ?_, ?_, ?_⟩
  · simp [Viewer.load, hz, Viewer.loadZipFile, hfetch, hok, Viewer.catchHandler_statusError]
  · rw [Viewer.statusError_not_found response hstatus]
    exact ⟨[], ": File not found. Status: 404 ".data ++ response.statusText.data, by
      simp [JS.newError, String.data_append]⟩
  · rw [Viewer.statusError_not_found response hstatus,
      App.not_found_message response.statusText url h1 h2 h3, hlabel]
    rfl

/-- C26, amended, at a signed URL whose path ends in `.zip` and whose query string does
not, answered by `404 Not Found`. -/
theorem App.zip_label_reads_whole_url_witness :
    (Sample.parserAt Sample.zipQueryUrl Sample.zipQueryRecord Sample.zipQueryUrl
        = some Sample.zipQueryRecord ∧
      EndsWithIgnoringCase Sample.zipQueryRecord.pathname ".zip" ∧
      ¬ EndsWithIgnoringCase Sample.zipQueryUrl ".zip" ∧
      (Sample.notFound "Not Found").status = 404 ∧
      ¬ "CORS_ERROR".data <:+: (Sample.notFound "Not Found").statusText.data ∧
      ¬ "Failed to fetch".data <:+: (Sample.notFound "Not Found").statusText.data ∧
      ¬ "CORS_403".data <:+: (Sample.notFound "Not Found").statusText.data) ∧
    ((∀ anyUrl other, other ≠ "ZIP file" →
        (App.fileType anyUrl other = "ZIP file" ↔ EndsWithIgnoringCase anyUrl ".zip")) ∧
      Viewer.isZipFile (Sample.parserAt Sample.zipQueryUrl Sample.zipQueryRecord)
        Sample.zipQueryUrl = true ∧
      Viewer.load
          (Sample.answering (Sample.parserAt Sample.zipQueryUrl Sample.zipQueryRecord)
            (Sample.notFound "Not Found"))
          Sample.zipQueryUrl "" [] World.init
        = (Settlement.rejected
            (ErrorValue.error (Viewer.statusError (Sample.notFound "Not Found"))),
            World.init.emit (Event.fetch Sample.zipQueryUrl)) ∧
      "CORS_404".data <:+: (Viewer.statusError (Sample.notFound "Not Found")).message.data ∧
      App.onS3UrlError
          (ErrorValue.error (Viewer.statusError (Sample.notFound "Not Found")))
          Sample.zipQueryUrl
        = .ok ("File Not Found (404): The glTF file was not found at the provided URL.\n\n"
          ++ "The file may have been moved, deleted, or the URL may be incorrect.")) := by
  have hpath : EndsWithIgnoringCase Sample.zipQueryRecord.pathname ".zip" := by
    rw [← JS.endsWith_toLowerCase_iff _ _ (by decide)]
    decide
  have hurl : ¬ EndsWithIgnoringCase Sample.zipQueryUrl ".zip" := by
    rw [← JS.endsWith_toLowerCase_iff _ _ (by decide)]
    decide
  have h1 : ¬ "CORS_ERROR".data <:+: (Sample.notFound "Not Found").statusText.data := by
    rw [← JS.occursIn_iff]
    decide
  have h2 : ¬ "Failed to fetch".data <:+: (Sample.notFound "Not Found").statusText.data := by
    rw [← JS.occursIn_iff]
    decide
  have h3 : ¬ "CORS_403".data <:+: (Sample.notFound "Not Found").statusText.data := by
    rw [← JS.occursIn_iff]
    decide
  exact ⟨⟨by decide, hpath, hurl, by rfl, h1, h2, h3⟩,
    App.zip_label_reads_whole_url
      (Sample.answering (Sample.parserAt Sample.zipQueryUrl Sample.zipQueryRecord)
        (Sample.notFound "Not Found"))
      Sample.zipQueryUrl "" [] World.init Sample.zipQueryRecord (Sample.notFound "Not Found")
      (by decide) hpath hurl (by rfl) (by rfl) h1 h2 h3⟩
